import Mathlib

/-!
# GPSTk time handling: scanning text into a canonical instant

A shallow embedding of `core/lib/TimeHandling/TimeString.cpp` (the functions
`scanTime(CommonTime&, str, fmt)` and `mixedScanTime`) and of the parts of
`CommonTime.hpp` they use.

Conventions of the embedding.

* `double` and `long double` are an arbitrary type `D`; every arithmetic
  operation the code performs on them is an operation of the environment, so
  no property of floating point arithmetic is assumed anywhere.
* `int` and `long` are `Int`.
* `TimeTag::IdToValue` (a `std::map<char, std::string>`) is the list of its
  entries in iteration order, that is in ascending key order.
* The time tag classes, the string utilities and the time converters are
  declared in headers that `TimeString.cpp` includes but whose text is not among
  the embedded sources.  They are the fields of `Env`; every theorem of the
  general development holds for all environments.  `ref` is one concrete
  environment, written from the specification, on which statements are
  evaluated.
* A function that can throw returns the exception next to the state it leaves
  behind in the caller's `CommonTime&`.
-/

namespace gpstk

/-! ## Data model -/

/-- Modelled from the spec: `TimeSystem.hpp` is not among the embedded sources; the
tags are the time scales the specification lists (GPS, UTC, TAI, GLONASS,
Galileo, BeiDou, QZSS, IRNSS, Unknown, Any). -/
inductive TimeSystem where
  | Unknown | Any | GPS | GLO | GAL | QZS | BDT | IRN | UTC | TAI
  deriving DecidableEq, Repr

/-- The class `CommonTime`: its four data members (`CommonTime.hpp`, protected
section).  `m_fsod` is a `double`. -/
structure CommonTime (D : Type) where
  m_day : Int
  m_msod : Int
  m_fsod : D
  m_timeSystem : TimeSystem
  deriving DecidableEq, Repr

/-- Inline `CommonTime::setTimeSystem`: `m_timeSystem = timeSystem; return *this;`. -/
def CommonTime.setTimeSystem {D : Type} (t : CommonTime D) (timeSystem : TimeSystem) :
    CommonTime D :=
  { t with m_timeSystem := timeSystem }

/-- The accessor `CommonTime::getTimeSystem` ("Obtain time system info"). -/
def CommonTime.getTimeSystem {D : Type} (t : CommonTime D) : TimeSystem :=
  t.m_timeSystem

/-- The map `TimeTag::IdToValue`, as the list of its entries in iteration order. -/
abbrev IdToValue := List (Char × String)

/-- Whether the map has an entry for the code `c`. -/
def IdToValue.has (info : IdToValue) (c : Char) : Bool :=
  info.any (fun e => decide (e.1 = c))

/-- Whether the map has an entry for one of the codes. -/
def IdToValue.hasAny (info : IdToValue) (codes : List Char) : Bool :=
  info.any (fun e => codes.contains e.1)

/-- Lookup of a code. -/
def IdToValue.find (info : IdToValue) (c : Char) : Option String :=
  (List.find? (fun e => e.1 == c) info).map Prod.snd

/-- Reading `info[c]`: the stored text, or the empty string that `operator[]`
inserts for a missing key. -/
def IdToValue.at (info : IdToValue) (c : Char) : String :=
  (info.find c).getD ""

/-- Writing `info[c] = v`: replace the value of an existing key, or insert a
new entry at its place in key order. -/
def IdToValue.assign : IdToValue → Char → String → IdToValue
  | [], c, v => [(c, v)]
  | (k, w) :: rest, c, v =>
    if k = c then (k, v) :: rest
    else if c < k then (c, v) :: (k, w) :: rest
    else (k, w) :: IdToValue.assign rest c v

/-- Keys strictly ascending: the shape of every `std::map` iteration. -/
def IdToValue.Ordered (info : IdToValue) : Prop :=
  List.Pairwise (fun a b => a.1 < b.1) info

/-- Fields of `CivilTime` that `TimeString.cpp` reads and writes. -/
structure CivilTime (D : Type) where
  year : Int
  month : Int
  day : Int
  hour : Int
  minute : Int
  second : D
  timeSystem : TimeSystem
  deriving DecidableEq, Repr

/-- Fields of `YDSTime`: year, day of year, seconds of day. -/
structure YDSTime (D : Type) where
  year : Int
  doy : Int
  sod : D
  timeSystem : TimeSystem
  deriving DecidableEq, Repr

/-- Fields of `WeekSecond`, the base of the five week-and-seconds classes. -/
structure WeekSecond (D : Type) where
  week : Int
  sow : D
  timeSystem : TimeSystem
  deriving DecidableEq, Repr

/-- Fields of `GPSWeekZcount`. -/
structure GPSWeekZcount where
  week : Int
  zcount : Int
  timeSystem : TimeSystem
  deriving DecidableEq, Repr

/-- Field of `MJD` (a `long double`). -/
structure MJD (D : Type) where
  mjd : D
  timeSystem : TimeSystem
  deriving DecidableEq, Repr

/-- Field of `JulianDate` (a `long double`). -/
structure JulianDate (D : Type) where
  jd : D
  timeSystem : TimeSystem
  deriving DecidableEq, Repr

/-- Field of `ANSITime` (a `time_t`). -/
structure ANSITime where
  time : Int
  timeSystem : TimeSystem
  deriving DecidableEq, Repr

/-- Fields of `UnixTime` (a `timeval`). -/
structure UnixTime where
  tv_sec : Int
  tv_usec : Int
  timeSystem : TimeSystem
  deriving DecidableEq, Repr

/-- Fields of `PosixTime` (a `timespec`). -/
structure PosixTime where
  tv_sec : Int
  tv_nsec : Int
  timeSystem : TimeSystem
  deriving DecidableEq, Repr

/-! ## Exceptions -/

/-- The exception classes that occur. -/
inductive ExnKind where
  | InvalidRequest | InvalidParameter | StringException | Exception
  deriving DecidableEq, Repr

/-- An exception raised inside one of the library classes of the environment. -/
structure LibExn where
  kind : ExnKind
  text : String
  deriving DecidableEq, Repr

/-- What `TimeString.cpp` lets escape: the exceptions it throws itself, one
constructor per throw site, and those of the library, which it propagates. -/
inductive Thrown where
  /-- The `InvalidRequest("Incomplete time specification for readTime")` of `scanTime`. -/
  | incompleteSpecification
  /-- The `Exception("Invalid month abbreviation: " + text)` of `mixedScanTime`. -/
  | invalidMonthAbbreviation (text : String)
  /-- The `Exception("Invalid month name: " + text)` of `mixedScanTime`. -/
  | invalidMonthName (text : String)
  /-- The `Exception("Invalid format for %y: expected 2 digits")` of `mixedScanTime`. -/
  | invalidYearFormat
  /-- An exception of the library, propagated unchanged. -/
  | library (e : LibExn)
  deriving DecidableEq, Repr

/-- The class of an escaping exception. -/
def Thrown.kind : Thrown → ExnKind
  | .incompleteSpecification => .InvalidRequest
  | .invalidMonthAbbreviation _ => .Exception
  | .invalidMonthName _ => .Exception
  | .invalidYearFormat => .Exception
  | .library e => e.kind

/-- Result of a call on a `CommonTime&`: the instant the reference holds when the
call ends, and the exception that ended it, if any. -/
structure Outcome (D : Type) where
  t : CommonTime D
  thrown : Option Thrown
  deriving DecidableEq, Repr

/-- Run a library call inside `TimeString.cpp`: its exception propagates. -/
def lib {α : Type} (r : Except LibExn α) : Except Thrown α :=
  match r with
  | .ok a => .ok a
  | .error e => .error (.library e)

/-! ## The environment: classes and helpers declared outside the embedded sources -/

/-- The `TimeTag` interface of one class: default constructor, `setFromInfo`,
`convertToCommonTime`, `convertFromCommonTime` (also the constructor from a
`CommonTime`, which calls it). -/
structure TimeTagOps (D T : Type) where
  ctor : T
  setFromInfo : T → IdToValue → Except LibExn (T × Bool)
  convertToCommonTime : T → Except LibExn (CommonTime D)
  convertFromCommonTime : CommonTime D → Except LibExn T

/-- A week-and-seconds class: the `TimeTag` interface plus `setEpoch` and
`setModWeek`. -/
structure WeekSecondOps (D : Type) extends TimeTagOps D (WeekSecond D) where
  setEpoch : WeekSecond D → Int → WeekSecond D
  setModWeek : WeekSecond D → Int → WeekSecond D

/-- The class `GPSWeekZcount`: the `TimeTag` interface plus the two Z-count setters. -/
structure ZcountOps (D : Type) extends TimeTagOps D GPSWeekZcount where
  setZcount29 : GPSWeekZcount → Int → Except LibExn GPSWeekZcount
  setZcount32 : GPSWeekZcount → Int → Except LibExn GPSWeekZcount

/-- Everything `TimeString.cpp` calls and `CommonTime.hpp` declares without a
body: string utilities, time converters, arithmetic on `double`, the month
tables of `CivilTime`, `TimeTag::getInfo`, `CommonTime::operator==`,
`CommonTime::BEGINNING_OF_TIME`, and the thirteen time tag classes. -/
structure Env (D : Type) where
  asInt : String → Int
  asDouble : String → D
  asLongDouble : String → D
  asTimeSystem : String → TimeSystem
  firstWord : String → String
  lowerCase : String → String
  isLike : String → String → Bool
  ofInt : Int → D
  add : D → D → D
  mul : D → D → D
  convertSODtoTime : D → Int × Int × D
  convertTimeToSOD : Int → Int → D → D
  monthAbbrev : String → Int
  monthLong : String → Int
  getInfo : String → String → Except LibExn IdToValue
  eqCommonTime : CommonTime D → CommonTime D → Bool
  BEGINNING_OF_TIME : CommonTime D
  civil : TimeTagOps D (CivilTime D)
  yds : TimeTagOps D (YDSTime D)
  gps : WeekSecondOps D
  bds : WeekSecondOps D
  qzs : WeekSecondOps D
  gal : WeekSecondOps D
  irn : WeekSecondOps D
  zcount : ZcountOps D
  mjd : TimeTagOps D (MJD D)
  julian : TimeTagOps D (JulianDate D)
  ansi : TimeTagOps D ANSITime
  unix : TimeTagOps D UnixTime
  posix : TimeTagOps D PosixTime

/-- Modelled from the spec: `TimeConstants.hpp` is not among the embedded sources;
the specification derives seconds of week as day-of-week times 86400. -/
def SEC_PER_DAY : Int := 86400

/-! ## scanTime (CommonTime&, str, fmt) -/

/-- The locals of `scanTime`: the caller's instant, the code map (the loop
writes to it), the flags "which information has been found", and `idow`. -/
structure ScanState (D : Type) where
  t : CommonTime D
  info : IdToValue
  idow : Int
  hmjd : Bool
  hsow : Bool
  hweek : Bool
  hfullweek : Bool
  hdow : Bool
  hyear : Bool
  hmonth : Bool
  hday : Bool
  hzcount : Bool
  hdoy : Bool
  hzcount29 : Bool
  hzcount32 : Bool
  hhour : Bool
  hmin : Bool
  hsec : Bool
  hsod : Bool
  hunixsec : Bool
  hunixusec : Bool
  hepoch : Bool
  hansi : Bool
  hjulian : Bool
  hbdsw : Bool
  hqzsw : Bool
  hgalw : Bool
  hirnw : Bool
  hbdsfw : Bool
  hqzsfw : Bool
  hgalfw : Bool
  hirnfw : Bool
  hbdse : Bool
  hqzse : Bool
  hgale : Bool
  hirne : Bool
  hposixsec : Bool
  hposixnsec : Bool

/-- The locals as declared: every flag `false`, `idow(0)`. -/
def ScanState.start {D : Type} (t : CommonTime D) (info : IdToValue) : ScanState D :=
  { t := t, info := info, idow := 0,
    hmjd := false, hsow := false, hweek := false, hfullweek := false,
    hdow := false, hyear := false, hmonth := false, hday := false,
    hzcount := false, hdoy := false, hzcount29 := false, hzcount32 := false,
    hhour := false, hmin := false, hsec := false, hsod := false,
    hunixsec := false, hunixusec := false, hepoch := false, hansi := false,
    hjulian := false, hbdsw := false, hqzsw := false, hgalw := false,
    hirnw := false, hbdsfw := false, hqzsfw := false, hgalfw := false,
    hirnfw := false, hbdse := false, hqzse := false, hgale := false,
    hirne := false, hposixsec := false, hposixnsec := false }

/-- The weekday name branch shared by the cases `a` and `A`: the index of the
first pattern the lower-cased first word is like, if any. -/
def weekdayIndex {D : Type} (env : Env D) (text : String) : Option Int :=
  let thisDay := env.lowerCase (env.firstWord text)
  if env.isLike thisDay "sun.*" then some 0
  else if env.isLike thisDay "mon.*" then some 1
  else if env.isLike thisDay "tue.*" then some 2
  else if env.isLike thisDay "wed.*" then some 3
  else if env.isLike thisDay "thu.*" then some 4
  else if env.isLike thisDay "fri.*" then some 5
  else if env.isLike thisDay "sat.*" then some 6
  else none

/-- One turn of the loop over the Id/Value pairs of `scanTime`: the `switch` on
the code `c` of the entry, `v` being its text. -/
def scanCase {D : Type} (env : Env D) (s : ScanState D) (c : Char) (v : String) :
    ScanState D :=
  match c with
  | 'P' => { s with t := s.t.setTimeSystem (env.asTimeSystem v) }
  | 'Q' => { s with hmjd := true }
  | 'Z' => { s with hzcount := true }
  | 'z' => { s with hzcount := true }
  | 's' => { s with hsod := true }
  | 'g' => { s with hsow := true }
  | 'w' => { s with idow := env.asInt v, hdow := true }
  | 'G' => { s with hweek := true }
  | 'F' => { s with hfullweek := true }
  | 'j' => { s with hdoy := true }
  | 'b' => { s with hmonth := true }
  | 'B' => { s with hmonth := true }
  | 'Y' => { s with hyear := true }
  | 'y' => { s with hyear := true }
  | 'a' =>
    match weekdayIndex env v with
    | some i => { s with hdow := true, idow := i }
    | none => { s with hdow := false }
  | 'A' =>
    match weekdayIndex env v with
    | some i => { s with hdow := true, idow := i }
    | none => { s with hdow := false }
  | 'm' => { s with hmonth := true }
  | 'd' => { s with hday := true }
  | 'H' => { s with hhour := true }
  | 'M' => { s with hmin := true }
  | 'S' => { s with hsec := true }
  | 'f' => { s with hsec := true, info := s.info.assign 'S' (s.info.at 'f') }
  | 'U' => { s with hunixsec := true }
  | 'u' => { s with hunixusec := true }
  | 'W' => { s with hposixsec := true }
  | 'N' => { s with hposixnsec := true }
  | 'c' => { s with hzcount29 := true }
  | 'C' => { s with hzcount32 := true }
  | 'J' => { s with hjulian := true }
  | 'K' => { s with hansi := true }
  | 'E' => { s with hepoch := true }
  | 'R' => { s with hepoch := true, hbdse := true }
  | 'T' => { s with hepoch := true, hgale := true }
  | 'V' => { s with hepoch := true, hqzse := true }
  | 'X' => { s with hepoch := true, hirne := true }
  | 'D' => { s with hfullweek := true, hbdsfw := true }
  | 'e' => { s with hweek := true, hbdsw := true }
  | 'L' => { s with hfullweek := true, hgalfw := true }
  | 'l' => { s with hweek := true, hgalw := true }
  | 'h' => { s with hfullweek := true, hqzsfw := true }
  | 'i' => { s with hweek := true, hqzsw := true }
  | 'O' => { s with hfullweek := true, hirnfw := true }
  | 'o' => { s with hweek := true, hirnw := true }
  | _ => s

/-- The loop of `scanTime` over the entries of the map as extracted. -/
def scanLoop {D : Type} (env : Env D) (t : CommonTime D) (info : IdToValue) :
    ScanState D :=
  info.foldl (fun s e => scanCase env s e.1 e.2) (ScanState.start t info)

/-- The time tag classes `scanTime` can build the instant from. -/
inductive Variant where
  | Civil | YDS | WeekZcount | BDSWeek | QZSWeek | GALWeek | IRNWeek | GPSWeek
  | MJD | Julian | ANSI | Unix | Posix
  deriving DecidableEq, Repr

/-- The class behind `ptt` in the week branch of `scanTime`. -/
def weekVariant {D : Type} (s : ScanState D) : Variant :=
  if s.hbdse || s.hbdsfw || s.hbdsw then .BDSWeek
  else if s.hqzse || s.hqzsfw || s.hqzsw then .QZSWeek
  else if s.hgale || s.hgalfw || s.hgalw then .GALWeek
  else if s.hirne || s.hirnfw || s.hirnw then .IRNWeek
  else .GPSWeek

/-- The chain of `if`s after the loop of `scanTime`: the class of the `tt` (or
`ptt`) the instant is converted from; `none` when control reaches the
`InvalidRequest` at the end. -/
def selectVariant {D : Type} (s : ScanState D) : Option Variant :=
  if s.hyear then
    if s.hmonth && s.hday then some .Civil
    else some .YDS
  else if s.hzcount32 ||
      (s.hfullweek && (s.hzcount || s.hzcount29)) ||
      (s.hepoch && (s.hzcount29 || (s.hweek && s.hzcount))) then some .WeekZcount
  else if (s.hepoch && s.hweek) || s.hfullweek then some (weekVariant s)
  else if s.hmjd then some .MJD
  else if s.hjulian then some .Julian
  else if s.hansi then some .ANSI
  else if s.hunixsec || s.hunixusec then some .Unix
  else if s.hposixsec || s.hposixnsec then some .Posix
  else none

/-- The operations of the week-and-seconds class a `Variant` names. -/
def weekOps {D : Type} (env : Env D) : Variant → WeekSecondOps D
  | .BDSWeek => env.bds
  | .QZSWeek => env.qzs
  | .GALWeek => env.gal
  | .IRNWeek => env.irn
  | _ => env.gps

/-- The branch `if( hmonth && hday )`: a `CivilTime` set from the map, its hour,
minute and second overwritten from the seconds of day when `hsod`. -/
def scanCivil {D : Type} (env : Env D) (s : ScanState D) : Except Thrown (CivilTime D) := do
  let r ← lib (env.civil.setFromInfo env.civil.ctor s.info)
  let tt := r.1
  if s.hsod then
    let hms := env.convertSODtoTime (env.asDouble (s.info.at 's'))
    pure { tt with hour := hms.1, minute := hms.2.1, second := hms.2.2 }
  else
    pure tt

/-- The branch "use YDSTime as default": a `YDSTime` set from the map, its
seconds of day overwritten when hour, minute and second were all found. -/
def scanYDS {D : Type} (env : Env D) (s : ScanState D) : Except Thrown (YDSTime D) := do
  let r ← lib (env.yds.setFromInfo env.yds.ctor s.info)
  let tt := r.1
  if s.hhour && s.hmin && s.hsec then
    pure { tt with sod := env.convertTimeToSOD (env.asInt (s.info.at 'H'))
                            (env.asInt (s.info.at 'M')) (env.asDouble (s.info.at 'S')) }
  else
    pure tt

/-- The seconds of week the week branch of `scanTime` stores when
`hdow && !hsow`. -/
def scanSow {D : Type} (env : Env D) (s : ScanState D) : D :=
  let sow := env.ofInt (env.asInt (s.info.at 'w') * SEC_PER_DAY)
  if s.hsod then
    env.add sow (env.asDouble (s.info.at 's'))
  else if s.hhour && s.hmin && s.hsec then
    env.add sow (env.convertTimeToSOD (env.asInt (s.info.at 'H'))
                   (env.asInt (s.info.at 'M')) (env.asDouble (s.info.at 'S')))
  else
    sow

/-- The week branch: the week-and-seconds object of class `v` set from the map,
its seconds of week overwritten when a day of week was found and seconds of
week were not. -/
def scanWeek {D : Type} (env : Env D) (s : ScanState D) (v : Variant) :
    Except Thrown (WeekSecond D) := do
  let r ← lib ((weekOps env v).setFromInfo (weekOps env v).ctor s.info)
  let ptt := r.1
  if s.hdow && !s.hsow then
    pure { ptt with sow := scanSow env s }
  else
    pure ptt

/-- The instant `scanTime` assigns to `t` once the class is chosen. -/
def scanBuild {D : Type} (env : Env D) (s : ScanState D) : Variant → Except Thrown (CommonTime D)
  | .Civil => do
    let tt ← scanCivil env s
    lib (env.civil.convertToCommonTime tt)
  | .YDS => do
    let tt ← scanYDS env s
    lib (env.yds.convertToCommonTime tt)
  | .WeekZcount => do
    let r ← lib (env.zcount.setFromInfo env.zcount.ctor s.info)
    lib (env.zcount.convertToCommonTime r.1)
  | .MJD => do
    let r ← lib (env.mjd.setFromInfo env.mjd.ctor s.info)
    lib (env.mjd.convertToCommonTime r.1)
  | .Julian => do
    let r ← lib (env.julian.setFromInfo env.julian.ctor s.info)
    lib (env.julian.convertToCommonTime r.1)
  | .ANSI => do
    let r ← lib (env.ansi.setFromInfo env.ansi.ctor s.info)
    lib (env.ansi.convertToCommonTime r.1)
  | .Unix => do
    let r ← lib (env.unix.setFromInfo env.unix.ctor s.info)
    lib (env.unix.convertToCommonTime r.1)
  | .Posix => do
    let r ← lib (env.posix.setFromInfo env.posix.ctor s.info)
    lib (env.posix.convertToCommonTime r.1)
  | v => do
    let ptt ← scanWeek env s v
    lib ((weekOps env v).convertToCommonTime ptt)

/-- The body of `scanTime(CommonTime&, str, fmt)` after `TimeTag::getInfo` has
filled `info`: the loop, then the chain of `if`s; `t` is assigned only by a
branch that completes, so an exception leaves it as the loop left it. -/
def scanTimeInfo {D : Type} (env : Env D) (t : CommonTime D) (info : IdToValue) :
    Outcome D :=
  let s := scanLoop env t info
  match selectVariant s with
  | none => { t := s.t, thrown := some .incompleteSpecification }
  | some v =>
    match scanBuild env s v with
    | .ok r => { t := r, thrown := none }
    | .error e => { t := s.t, thrown := some e }

/-- The function `scanTime( CommonTime& t, const string& str, const string& fmt )`. -/
def scanTime {D : Type} (env : Env D) (t : CommonTime D) (str fmt : String) : Outcome D :=
  match env.getInfo str fmt with
  | .error e => { t := t, thrown := some (.library e) }
  | .ok info => scanTimeInfo env t info

/-- The instant a call produced, or the exception it ended with. -/
def Outcome.result {D : Type} (o : Outcome D) : Except Thrown (CommonTime D) :=
  match o.thrown with
  | none => .ok o.t
  | some e => .error e

/-- The code map `scanTime` hands to `setFromInfo`: the extracted map after the
loop, whose case `f` executes `info['S'] = info['f']`. -/
def scanInfo (info : IdToValue) : IdToValue :=
  if info.has 'f' then info.assign 'S' (info.at 'f') else info

/-! ### The code classes of the format mini-language, as `scanTime` reads them -/

/-- Year: four digit `Y`, two digit `y`. -/
def yearCodes : List Char := ['Y', 'y']
/-- Month: number `m`, abbreviation `b`, name `B`. -/
def monthCodes : List Char := ['b', 'B', 'm']
/-- Full week: GPS `F`, BeiDou `D`, Galileo `L`, QZSS `h`, IRNSS `O`. -/
def fullWeekCodes : List Char := ['F', 'D', 'L', 'h', 'O']
/-- Week modulo the rollover: GPS `G`, BeiDou `e`, Galileo `l`, QZSS `i`, IRNSS `o`. -/
def modWeekCodes : List Char := ['G', 'e', 'l', 'i', 'o']
/-- Epoch: GPS `E`, BeiDou `R`, Galileo `T`, QZSS `V`, IRNSS `X`. -/
def epochCodes : List Char := ['E', 'R', 'T', 'V', 'X']
/-- Z-count within the week: `Z`, `z`. -/
def zcountCodes : List Char := ['Z', 'z']
/-- Second: `S`, or `f` with its fraction. -/
def secondCodes : List Char := ['S', 'f']
/-- BeiDou: epoch `R`, full week `D`, week `e`. -/
def bdsCodes : List Char := ['R', 'D', 'e']
/-- QZSS: epoch `V`, full week `h`, week `i`. -/
def qzsCodes : List Char := ['V', 'h', 'i']
/-- Galileo: epoch `T`, full week `L`, week `l`. -/
def galCodes : List Char := ['T', 'L', 'l']
/-- IRNSS: epoch `X`, full week `O`, week `o`. -/
def irnCodes : List Char := ['X', 'O', 'o']

/-! ### The resolution rules of scanTime, in the words of the specification -/

/-- Rule 3: the 32-bit Z-count `C`; or a full week with a Z-count (`z`, `Z`) or
the 29-bit Z-count `c`; or an epoch with the 29-bit Z-count, or with both a
week and a Z-count. -/
def zcountRule (info : IdToValue) : Bool :=
  info.has 'C' ||
  (info.hasAny fullWeekCodes && (info.hasAny zcountCodes || info.has 'c')) ||
  (info.hasAny epochCodes && (info.has 'c' || (info.hasAny modWeekCodes && info.hasAny zcountCodes)))

/-- Rule 3 as the claim words it: `C`; or a full week with a Z-count code (`z`,
`Z` or `c`); or an epoch with both a week and a Z-count code. -/
def zcountRuleAsClaimed (info : IdToValue) : Bool :=
  info.has 'C' ||
  (info.hasAny fullWeekCodes && (info.hasAny zcountCodes || info.has 'c')) ||
  (info.hasAny epochCodes && info.hasAny modWeekCodes && (info.hasAny zcountCodes || info.has 'c'))

/-- Rule 4: an epoch with a week, or a full week alone. -/
def weekRule (info : IdToValue) : Bool :=
  (info.hasAny epochCodes && info.hasAny modWeekCodes) || info.hasAny fullWeekCodes

/-- The system of rule 4: BeiDou, else QZSS, else Galileo, else IRNSS, else GPS. -/
def weekPrecedence (info : IdToValue) : Variant :=
  if info.hasAny bdsCodes then .BDSWeek
  else if info.hasAny qzsCodes then .QZSWeek
  else if info.hasAny galCodes then .GALWeek
  else if info.hasAny irnCodes then .IRNWeek
  else .GPSWeek

/-- Rules 5 to 9: the first of Modified Julian Date `Q`, Julian Date `J`, ANSI
time `K`, Unix time `U`/`u`, POSIX time `W`/`N` whose code is in the map. -/
def standAlone (info : IdToValue) : Option Variant :=
  if info.has 'Q' then some .MJD
  else if info.has 'J' then some .Julian
  else if info.has 'K' then some .ANSI
  else if info.hasAny ['U', 'u'] then some .Unix
  else if info.hasAny ['W', 'N'] then some .Posix
  else none

/-- The resolution order: the first rule that matches, `none` when none does. -/
def resolution (info : IdToValue) : Option Variant :=
  if info.hasAny yearCodes then
    if info.hasAny monthCodes && info.has 'd' then some .Civil else some .YDS
  else if zcountRule info then some .WeekZcount
  else if weekRule info then some (weekPrecedence info)
  else standAlone info

/-- The locals of `mixedScanTime` that are declared without an initial value
(`double isow, isod, isec; int iweek, ...`): the values they happen to hold
when the function starts. -/
structure Indeterminate (D : Type) where
  isow : D
  isod : D
  isec : D
  iweek : Int
  ifullweek : Int
  idow : Int
  iyear : Int
  imonth : Int
  iday : Int
  izcount : Int
  idoy : Int
  izcount29 : Int
  ihour : Int
  imin : Int
  iepoch : Int

/-- The locals of `mixedScanTime`: the caller's instant, the flags, and the
values held "for use later". -/
structure MixedState (D : Type) extends Indeterminate D where
  t : CommonTime D
  hsow : Bool
  hweek : Bool
  hfullweek : Bool
  hdow : Bool
  hyear : Bool
  hmonth : Bool
  hday : Bool
  hzcount : Bool
  hdoy : Bool
  hzcount29 : Bool
  hhour : Bool
  hmin : Bool
  hsec : Bool
  hsod : Bool
  hepoch : Bool
  hbdsw : Bool
  hqzsw : Bool
  hgalw : Bool
  hirnw : Bool
  hbdsfw : Bool
  hqzsfw : Bool
  hgalfw : Bool
  hirnfw : Bool
  hbdse : Bool
  hqzse : Bool
  hgale : Bool
  hirne : Bool

/-- The locals as declared: every flag `false`, the values indeterminate. -/
def MixedState.start {D : Type} (t : CommonTime D) (u : Indeterminate D) : MixedState D :=
  { toIndeterminate := u, t := t,
    hsow := false, hweek := false, hfullweek := false, hdow := false,
    hyear := false, hmonth := false, hday := false, hzcount := false,
    hdoy := false, hzcount29 := false, hhour := false, hmin := false,
    hsec := false, hsod := false, hepoch := false,
    hbdsw := false, hqzsw := false, hgalw := false, hirnw := false,
    hbdsfw := false, hqzsfw := false, hgalfw := false, hirnfw := false,
    hbdse := false, hqzse := false, hgale := false, hirne := false }

/-- The cases `U`, `u` of `mixedScanTime`: a `UnixTime` set from the whole map. -/
def mixedUnix {D : Type} (env : Env D) (info : IdToValue) : Except Thrown (CommonTime D) := do
  let r ← lib (env.unix.setFromInfo env.unix.ctor info)
  lib (env.unix.convertToCommonTime r.1)

/-- The cases `N`, `W` of `mixedScanTime`: a `PosixTime` set from the whole map. -/
def mixedPosix {D : Type} (env : Env D) (info : IdToValue) : Except Thrown (CommonTime D) := do
  let r ← lib (env.posix.setFromInfo env.posix.ctor info)
  lib (env.posix.convertToCommonTime r.1)

/-- One turn of the loop of `mixedScanTime`: the `switch` on the code `c` of
the entry, `v` being its text.  An exception leaves the locals as they were. -/
def mixedCase {D : Type} (env : Env D) (info : IdToValue) (s : MixedState D) (c : Char)
    (v : String) : Except Thrown (MixedState D) :=
  match c with
  | 'P' => pure { s with t := s.t.setTimeSystem (env.asTimeSystem v) }
  | 'Q' => do
    let r ← lib (env.mjd.convertToCommonTime { env.mjd.ctor with mjd := env.asLongDouble v })
    pure { s with t := r }
  | 'J' => do
    let r ← lib (env.julian.convertToCommonTime { env.julian.ctor with jd := env.asLongDouble v })
    pure { s with t := r }
  | 'C' => do
    let z ← lib (env.zcount.setZcount32 env.zcount.ctor (env.asInt v))
    let r ← lib (env.zcount.convertToCommonTime z)
    pure { s with t := r }
  | 'K' => do
    let r ← lib (env.ansi.convertToCommonTime { env.ansi.ctor with time := env.asInt v })
    pure { s with t := r }
  | 'U' => do
    let r ← mixedUnix env info
    pure { s with t := r }
  | 'u' => do
    let r ← mixedUnix env info
    pure { s with t := r }
  | 'N' => do
    let r ← mixedPosix env info
    pure { s with t := r }
  | 'W' => do
    let r ← mixedPosix env info
    pure { s with t := r }
  | 'z' => pure { s with hzcount := true, izcount := env.asInt v }
  | 'Z' => pure { s with hzcount := true, izcount := env.asInt v }
  | 's' => pure { s with hsod := true, isod := env.asDouble v }
  | 'g' => pure { s with hsow := true, isow := env.asDouble v }
  | 'w' => pure { s with idow := env.asInt v, hdow := true }
  | 'G' => pure { s with hweek := true, iweek := env.asInt v }
  | 'F' => pure { s with hfullweek := true, ifullweek := env.asInt v }
  | 'j' => pure { s with hdoy := true, idoy := env.asInt v }
  | 'b' =>
    if env.monthAbbrev v < 1 then throw (.invalidMonthAbbreviation v)
    else pure { s with hmonth := true, imonth := env.monthAbbrev v }
  | 'B' =>
    if env.monthLong v < 1 then throw (.invalidMonthName v)
    else pure { s with hmonth := true, imonth := env.monthLong v }
  | 'Y' => pure { s with hyear := true, iyear := env.asInt v }
  | 'y' =>
    if v.length > 2 then throw .invalidYearFormat
    else if env.asInt v ≥ 69 then pure { s with hyear := true, iyear := env.asInt v + 1900 }
    else pure { s with hyear := true, iyear := env.asInt v + 2000 }
  | 'a' =>
    match weekdayIndex env v with
    | some i => pure { s with hdow := true, idow := i }
    | none => pure { s with hdow := true }
  | 'A' =>
    match weekdayIndex env v with
    | some i => pure { s with hdow := true, idow := i }
    | none => pure { s with hdow := true }
  | 'm' => pure { s with hmonth := true, imonth := env.asInt v }
  | 'd' => pure { s with hday := true, iday := env.asInt v }
  | 'H' => pure { s with hhour := true, ihour := env.asInt v }
  | 'M' => pure { s with hmin := true, imin := env.asInt v }
  | 'S' => pure { s with hsec := true, isec := env.asDouble v }
  | 'f' => pure { s with hsec := true, isec := env.asDouble v }
  | 'c' => pure { s with hzcount29 := true, izcount29 := env.asInt v }
  | 'E' => pure { s with hepoch := true, iepoch := env.asInt v }
  | 'R' => pure { s with hepoch := true, hbdse := true, iepoch := env.asInt v }
  | 'T' => pure { s with hepoch := true, hgale := true, iepoch := env.asInt v }
  | 'V' => pure { s with hepoch := true, hqzse := true, iepoch := env.asInt v }
  | 'X' => pure { s with hepoch := true, hirne := true, iepoch := env.asInt v }
  | 'D' => pure { s with hfullweek := true, hbdsfw := true }
  | 'e' => pure { s with hweek := true, hbdsw := true }
  | 'L' => pure { s with hfullweek := true, hgalfw := true }
  | 'l' => pure { s with hweek := true, hgalw := true }
  | 'I' => pure { s with hfullweek := true, hqzsfw := true }
  | 'i' => pure { s with hweek := true, hqzsw := true }
  | 'O' => pure { s with hfullweek := true, hirnfw := true }
  | 'o' => pure { s with hweek := true, hirnw := true }
  | _ => pure s

/-- The loop of `mixedScanTime` over the entries that remain: the locals when
it ends, and the exception that ended it, if any. -/
def mixedLoop {D : Type} (env : Env D) (info : IdToValue) :
    List (Char × String) → MixedState D → MixedState D × Option Thrown
  | [], s => (s, none)
  | e :: rest, s =>
    match mixedCase env info s e.1 e.2 with
    | .ok s2 => mixedLoop env info rest s2
    | .error x => (s, some x)

/-- The week-and-seconds class behind `ptt` in `mixedScanTime`, from
`hbds`, `hqzs`, `hgal`, `hirn`. -/
def mixedWeekOps {D : Type} (env : Env D) (s : MixedState D) : WeekSecondOps D :=
  if s.hbdse || s.hbdsfw || s.hbdsw then env.bds
  else if s.hqzse || s.hqzsfw || s.hqzsw then env.qzs
  else if s.hgale || s.hgalfw || s.hgalw then env.gal
  else if s.hirne || s.hirnfw || s.hirnw then env.irn
  else env.gps

/-- The block `if( hepoch )`. -/
def overrideEpoch {D : Type} (env : Env D) (s : MixedState D) (ct : CommonTime D) :
    Except Thrown (CommonTime D) := do
  let ptt ← lib ((mixedWeekOps env s).convertFromCommonTime ct)
  lib ((mixedWeekOps env s).convertToCommonTime ((mixedWeekOps env s).setEpoch ptt s.iepoch))

/-- The block `if( hyear )`. -/
def overrideYear {D : Type} (env : Env D) (s : MixedState D) (ct : CommonTime D) :
    Except Thrown (CommonTime D) := do
  let tt ← lib (env.yds.convertFromCommonTime ct)
  lib (env.yds.convertToCommonTime { tt with year := s.iyear })

/-- The block `if( hmonth )`. -/
def overrideMonth {D : Type} (env : Env D) (s : MixedState D) (ct : CommonTime D) :
    Except Thrown (CommonTime D) := do
  let tt ← lib (env.civil.convertFromCommonTime ct)
  lib (env.civil.convertToCommonTime { tt with month := s.imonth })

/-- The block `if( hfullweek )`, with its workaround for an instant equal to
`CommonTime::BEGINNING_OF_TIME`. -/
def overrideFullWeek {D : Type} (env : Env D) (s : MixedState D) (ct : CommonTime D) :
    Except Thrown (CommonTime D) :=
  if env.eqCommonTime ct env.BEGINNING_OF_TIME then
    lib ((mixedWeekOps env s).convertToCommonTime
      { (mixedWeekOps env s).ctor with week := s.ifullweek })
  else do
    let ptt ← lib ((mixedWeekOps env s).convertFromCommonTime ct)
    lib ((mixedWeekOps env s).convertToCommonTime { ptt with week := s.ifullweek })

/-- The block `if( hweek )`. -/
def overrideModWeek {D : Type} (env : Env D) (s : MixedState D) (ct : CommonTime D) :
    Except Thrown (CommonTime D) := do
  let ptt ← lib ((mixedWeekOps env s).convertFromCommonTime ct)
  lib ((mixedWeekOps env s).convertToCommonTime ((mixedWeekOps env s).setModWeek ptt s.iweek))

/-- The block `if( hdow )`. -/
def overrideDayOfWeek {D : Type} (env : Env D) (s : MixedState D) (ct : CommonTime D) :
    Except Thrown (CommonTime D) := do
  let ptt ← lib ((mixedWeekOps env s).convertFromCommonTime ct)
  lib ((mixedWeekOps env s).convertToCommonTime
    { ptt with sow := env.mul (env.ofInt s.idow) (env.ofInt SEC_PER_DAY) })

/-- The block `if( hday )`. -/
def overrideDay {D : Type} (env : Env D) (s : MixedState D) (ct : CommonTime D) :
    Except Thrown (CommonTime D) := do
  let tt ← lib (env.civil.convertFromCommonTime ct)
  lib (env.civil.convertToCommonTime { tt with day := s.iday })

/-- The block `if( hdoy )`. -/
def overrideDayOfYear {D : Type} (env : Env D) (s : MixedState D) (ct : CommonTime D) :
    Except Thrown (CommonTime D) := do
  let tt ← lib (env.yds.convertFromCommonTime ct)
  lib (env.yds.convertToCommonTime { tt with doy := s.idoy })

/-- The block `if( hzcount29 )`. -/
def overrideZcount29 {D : Type} (env : Env D) (s : MixedState D) (ct : CommonTime D) :
    Except Thrown (CommonTime D) := do
  let tt ← lib (env.zcount.convertFromCommonTime ct)
  let tt2 ← lib (env.zcount.setZcount29 tt s.izcount29)
  lib (env.zcount.convertToCommonTime tt2)

/-- The block `if( hzcount )`. -/
def overrideZcount {D : Type} (env : Env D) (s : MixedState D) (ct : CommonTime D) :
    Except Thrown (CommonTime D) := do
  let tt ← lib (env.zcount.convertFromCommonTime ct)
  lib (env.zcount.convertToCommonTime { tt with zcount := s.izcount })

/-- The block `if( hhour )`. -/
def overrideHour {D : Type} (env : Env D) (s : MixedState D) (ct : CommonTime D) :
    Except Thrown (CommonTime D) := do
  let tt ← lib (env.civil.convertFromCommonTime ct)
  lib (env.civil.convertToCommonTime { tt with hour := s.ihour })

/-- The block `if( hmin )`. -/
def overrideMinute {D : Type} (env : Env D) (s : MixedState D) (ct : CommonTime D) :
    Except Thrown (CommonTime D) := do
  let tt ← lib (env.civil.convertFromCommonTime ct)
  lib (env.civil.convertToCommonTime { tt with minute := s.imin })

/-- The block `if( hsow )`. -/
def overrideSecondOfWeek {D : Type} (env : Env D) (s : MixedState D) (ct : CommonTime D) :
    Except Thrown (CommonTime D) := do
  let ptt ← lib ((mixedWeekOps env s).convertFromCommonTime ct)
  lib ((mixedWeekOps env s).convertToCommonTime { ptt with sow := s.isow })

/-- The block `if( hsod )`. -/
def overrideSecondOfDay {D : Type} (env : Env D) (s : MixedState D) (ct : CommonTime D) :
    Except Thrown (CommonTime D) := do
  let tt ← lib (env.yds.convertFromCommonTime ct)
  lib (env.yds.convertToCommonTime { tt with sod := s.isod })

/-- The block `if( hsec )`. -/
def overrideSecond {D : Type} (env : Env D) (s : MixedState D) (ct : CommonTime D) :
    Except Thrown (CommonTime D) := do
  let tt ← lib (env.civil.convertFromCommonTime ct)
  lib (env.civil.convertToCommonTime { tt with second := s.isec })

/-- The part of `mixedScanTime` from `CommonTime ct(t);` to `t = ct;`: the
fifteen `if` blocks in the order of the text, each working on `ct`. -/
def mixedOverrides {D : Type} (env : Env D) (s : MixedState D) (ct : CommonTime D) :
    Except Thrown (CommonTime D) := do
  let ct := ct.setTimeSystem ct.getTimeSystem
  let ct ← (if s.hepoch then overrideEpoch env s ct else pure ct)
  let ct ← (if s.hyear then overrideYear env s ct else pure ct)
  let ct ← (if s.hmonth then overrideMonth env s ct else pure ct)
  let ct ← (if s.hfullweek then overrideFullWeek env s ct else pure ct)
  let ct ← (if s.hweek then overrideModWeek env s ct else pure ct)
  let ct ← (if s.hdow then overrideDayOfWeek env s ct else pure ct)
  let ct ← (if s.hday then overrideDay env s ct else pure ct)
  let ct ← (if s.hdoy then overrideDayOfYear env s ct else pure ct)
  let ct ← (if s.hzcount29 then overrideZcount29 env s ct else pure ct)
  let ct ← (if s.hzcount then overrideZcount env s ct else pure ct)
  let ct ← (if s.hhour then overrideHour env s ct else pure ct)
  let ct ← (if s.hmin then overrideMinute env s ct else pure ct)
  let ct ← (if s.hsow then overrideSecondOfWeek env s ct else pure ct)
  let ct ← (if s.hsod then overrideSecondOfDay env s ct else pure ct)
  let ct ← (if s.hsec then overrideSecond env s ct else pure ct)
  pure ct

/-- The body of `mixedScanTime` after `TimeTag::getInfo` has filled `info`.
`u` holds the indeterminate values of the uninitialised locals.  `t` is
written by the loop and by the final `t = ct;`. -/
def mixedScanTimeInfo {D : Type} (env : Env D) (u : Indeterminate D) (t : CommonTime D)
    (info : IdToValue) : Outcome D :=
  match mixedLoop env info info (MixedState.start t u) with
  | (s, some e) => { t := s.t, thrown := some e }
  | (s, none) =>
    match mixedOverrides env s s.t with
    | .ok ct => { t := ct, thrown := none }
    | .error e => { t := s.t, thrown := some e }

/-- The function `mixedScanTime( CommonTime& t, const string& str, const string& fmt )`. -/
def mixedScanTime {D : Type} (env : Env D) (u : Indeterminate D) (t : CommonTime D)
    (str fmt : String) : Outcome D :=
  match env.getInfo str fmt with
  | .error e => { t := t, thrown := some (.library e) }
  | .ok info => mixedScanTimeInfo env u t info

/-! ### The override order of mixedScanTime, in the words of the specification -/

/-- The fields `mixedScanTime` can override. -/
inductive MixedField where
  | epoch | year | month | fullWeek | modWeek | dayOfWeek | dayOfMonth | dayOfYear
  | zcount29 | zcount | hour | minute | secondOfWeek | secondOfDay | second
  deriving DecidableEq, Repr

/-- The codes of each field in the format mini-language of the specification:
"year(Y/y), month(m/b/B), day(d), hour(H), minute(M), second(S/f),
day-of-year(j), day-of-week(w/a/A), GNSS week (plain G, full F, and
per-constellation variants e/l/i/o for mod-week and D/L/h/O for full-week),
seconds-of-week(g), Z-count(z/Z/c/C)", "per-constellation epoch
counters(E/R/T/V/X)"; the seconds of day are the code `s` of `YDSTime`. -/
def MixedField.codes : MixedField → List Char
  | .epoch => epochCodes
  | .year => yearCodes
  | .month => monthCodes
  | .fullWeek => fullWeekCodes
  | .modWeek => modWeekCodes
  | .dayOfWeek => ['w', 'a', 'A']
  | .dayOfMonth => ['d']
  | .dayOfYear => ['j']
  | .zcount29 => ['c']
  | .zcount => zcountCodes
  | .hour => ['H']
  | .minute => ['M']
  | .secondOfWeek => ['g']
  | .secondOfDay => ['s']
  | .second => secondCodes

/-- The value of a field once the map is read: the entries are taken in the order
of the map, an entry whose text gives the field a value (`read`) replaces
the value held so far, and `init` is held while no entry has given one. -/
def lastValue {α : Type} (read : Char → String → Option α) (init : α) (info : IdToValue) : α :=
  info.foldl (fun a e => (read e.1 e.2).getD a) init

/-- The values of the fields as the texts of the map give them: a number is read
with `asInt`, seconds with `asDouble`, a two digit year gets its century,
a month name or abbreviation its number, a weekday name its index.  Only `G`
gives the week a value and only `F` the full week; `u` holds what a field has
when no text gives it one. -/
def parsedValues {D : Type} (env : Env D) (u : Indeterminate D) (info : IdToValue) :
    Indeterminate D :=
  { isow := lastValue (fun c v => if c = 'g' then some (env.asDouble v) else none) u.isow info,
    isod := lastValue (fun c v => if c = 's' then some (env.asDouble v) else none) u.isod info,
    isec := lastValue
      (fun c v => if c = 'S' ∨ c = 'f' then some (env.asDouble v) else none) u.isec info,
    iweek := lastValue (fun c v => if c = 'G' then some (env.asInt v) else none) u.iweek info,
    ifullweek :=
      lastValue (fun c v => if c = 'F' then some (env.asInt v) else none) u.ifullweek info,
    idow := lastValue
      (fun c v => if c = 'w' then some (env.asInt v)
        else if c = 'a' ∨ c = 'A' then weekdayIndex env v else none) u.idow info,
    iyear := lastValue
      (fun c v => if c = 'Y' then some (env.asInt v)
        else if c = 'y' then
          some (if env.asInt v ≥ 69 then env.asInt v + 1900 else env.asInt v + 2000)
        else none) u.iyear info,
    imonth := lastValue
      (fun c v => if c = 'm' then some (env.asInt v)
        else if c = 'b' then some (env.monthAbbrev v)
        else if c = 'B' then some (env.monthLong v) else none) u.imonth info,
    iday := lastValue (fun c v => if c = 'd' then some (env.asInt v) else none) u.iday info,
    izcount := lastValue
      (fun c v => if c = 'z' ∨ c = 'Z' then some (env.asInt v) else none) u.izcount info,
    idoy := lastValue (fun c v => if c = 'j' then some (env.asInt v) else none) u.idoy info,
    izcount29 :=
      lastValue (fun c v => if c = 'c' then some (env.asInt v) else none) u.izcount29 info,
    ihour := lastValue (fun c v => if c = 'H' then some (env.asInt v) else none) u.ihour info,
    imin := lastValue (fun c v => if c = 'M' then some (env.asInt v) else none) u.imin info,
    iepoch := lastValue
      (fun c v => if c = 'E' ∨ c = 'R' ∨ c = 'T' ∨ c = 'V' ∨ c = 'X' then some (env.asInt v)
        else none) u.iepoch info }

/-- An override as the specification describes it: "each override re-derives the
instant through the relevant variant's convert-from/convert-to-canonical round
trip": the instant is converted to the variant, the field of the variant is
rewritten, and the variant is converted back. -/
def roundTrip {D V : Type} (ops : TimeTagOps D V) (rewrite : V → Except LibExn V)
    (ct : CommonTime D) : Except Thrown (CommonTime D) :=
  lib (ops.convertFromCommonTime ct >>= rewrite >>= ops.convertToCommonTime)

/-- The override of each field: the variant it goes through and the field it
rewrites, with the week class `w` of the input and the values `x` of the
fields.  The full week is the exception of the specification: on the all-zero
default instant the week is set on a default variant, without the round
trip. -/
def MixedField.override {D : Type} (env : Env D) (w : WeekSecondOps D) (x : Indeterminate D) :
    MixedField → CommonTime D → Except Thrown (CommonTime D)
  | .epoch => roundTrip w.toTimeTagOps (fun v => .ok (w.setEpoch v x.iepoch))
  | .year => roundTrip env.yds (fun v => .ok { v with year := x.iyear })
  | .month => roundTrip env.civil (fun v => .ok { v with month := x.imonth })
  | .fullWeek => fun ct =>
    if env.eqCommonTime ct env.BEGINNING_OF_TIME then
      lib (w.convertToCommonTime { w.ctor with week := x.ifullweek })
    else roundTrip w.toTimeTagOps (fun v => .ok { v with week := x.ifullweek }) ct
  | .modWeek => roundTrip w.toTimeTagOps (fun v => .ok (w.setModWeek v x.iweek))
  | .dayOfWeek =>
    roundTrip w.toTimeTagOps
      (fun v => .ok { v with sow := env.mul (env.ofInt x.idow) (env.ofInt SEC_PER_DAY) })
  | .dayOfMonth => roundTrip env.civil (fun v => .ok { v with day := x.iday })
  | .dayOfYear => roundTrip env.yds (fun v => .ok { v with doy := x.idoy })
  | .zcount29 => roundTrip env.zcount.toTimeTagOps (fun v => env.zcount.setZcount29 v x.izcount29)
  | .zcount => roundTrip env.zcount.toTimeTagOps (fun v => .ok { v with zcount := x.izcount })
  | .hour => roundTrip env.civil (fun v => .ok { v with hour := x.ihour })
  | .minute => roundTrip env.civil (fun v => .ok { v with minute := x.imin })
  | .secondOfWeek => roundTrip w.toTimeTagOps (fun v => .ok { v with sow := x.isow })
  | .secondOfDay => roundTrip env.yds (fun v => .ok { v with sod := x.isod })
  | .second => roundTrip env.civil (fun v => .ok { v with second := x.isec })

/-- The order of the specification, "from least to most precise": epoch, year,
month, full week, week (mod), day of week, day, day of year, Z-count (29-bit),
Z-count (full), hour, minute, second of week, second of day, second. -/
def overrideOrder : List MixedField :=
  [.epoch, .year, .month, .fullWeek, .modWeek, .dayOfWeek, .dayOfMonth, .dayOfYear,
   .zcount29, .zcount, .hour, .minute, .secondOfWeek, .secondOfDay, .second]

/-- Apply the overrides of the listed fields one after the other, each to the
instant the previous one produced; the result is that of the last one, and an
exception ends the chain. -/
def applyOverrides {D : Type} (env : Env D) (w : WeekSecondOps D) (x : Indeterminate D) :
    List MixedField → CommonTime D → Except Thrown (CommonTime D)
  | [], ct => pure ct
  | f :: fs, ct => f.override env w x ct >>= applyOverrides env w x fs

/-- The codes whose case in the loop of `mixedScanTime` writes the instant itself:
time system `P`, Modified Julian Date `Q`, Julian Date `J`, 32-bit Z-count `C`,
ANSI time `K`, Unix time `U`/`u`, POSIX time `W`/`N`. -/
def instantCodes : List Char := ['P', 'Q', 'J', 'C', 'K', 'U', 'u', 'N', 'W']

/-- The codes that have a `case` in the loop of `mixedScanTime`. -/
def mixedCodes : List Char :=
  ['P', 'Q', 'J', 'C', 'K', 'U', 'u', 'N', 'W', 'z', 'Z', 's', 'g', 'w', 'G', 'F', 'j',
   'b', 'B', 'Y', 'y', 'a', 'A', 'm', 'd', 'H', 'M', 'S', 'f', 'c', 'E', 'R', 'T', 'V', 'X',
   'D', 'e', 'L', 'l', 'I', 'i', 'O', 'o']

/-! ## A reference environment

One concrete environment, on which statements are evaluated.  A value of type
`double` is a decimal number with nine fractional digits, held as the integer
count of its units of 1e-9, so that all arithmetic is exact. -/

namespace Ref

/-- Units per whole: a `double` `x` is held as `x * 10^9`. -/
def scale : Int := 1000000000

/-- Modelled from the spec: `StringUtils` is not among the embedded sources.  The
decimal digits at the head of a text, as a number, and the rest of the text. -/
def digits : List Char → Nat → Nat × List Char
  | [], acc => (acc, [])
  | c :: cs, acc =>
    if c.isDigit then digits cs (acc * 10 + (c.toNat - 48)) else (acc, c :: cs)

/-- Modelled from the spec: `StringUtils::asInt`, not among the embedded sources: the
integer written at the head of the text (blanks, a sign, decimal digits), 0
when there is none. -/
def asInt (s : String) : Int :=
  match s.toList.dropWhile (fun c => c == ' ') with
  | '-' :: cs => - ((digits cs 0).1 : Int)
  | '+' :: cs => ((digits cs 0).1 : Int)
  | cs => ((digits cs 0).1 : Int)

/-- The fraction digits after the decimal point, in units of 1e-9; `unit` is
the weight of the digit before the head. -/
def fraction : List Char → Nat → Nat
  | [], _ => 0
  | c :: cs, unit =>
    if c.isDigit then (c.toNat - 48) * (unit / 10) + fraction cs (unit / 10) else 0

/-- The unsigned decimal number at the head of the text, in units of 1e-9. -/
def decimal (cs : List Char) : Int :=
  match digits cs 0 with
  | (n, '.' :: rest) => (n : Int) * scale + (fraction rest 1000000000 : Int)
  | (n, _) => (n : Int) * scale

/-- Modelled from the spec: `StringUtils::asDouble`, not among the embedded sources:
the decimal number written at the head of the text, 0 when there is none. -/
def asDouble (s : String) : Int :=
  match s.toList.dropWhile (fun c => c == ' ') with
  | '-' :: cs => - decimal cs
  | '+' :: cs => decimal cs
  | cs => decimal cs

/-- Modelled from the spec: `StringUtils::asTimeSystem`, not among the embedded
sources: the tag whose three letter name the text is, `Unknown` otherwise. -/
def asTimeSystem (s : String) : TimeSystem :=
  if s = "Any" then .Any
  else if s = "GPS" then .GPS
  else if s = "GLO" then .GLO
  else if s = "GAL" then .GAL
  else if s = "QZS" then .QZS
  else if s = "BDT" then .BDT
  else if s = "IRN" then .IRN
  else if s = "UTC" then .UTC
  else if s = "TAI" then .TAI
  else .Unknown

/-- Modelled from the spec: `StringUtils::firstWord`, not among the embedded sources:
the text up to the first blank, leading blanks skipped. -/
def firstWord (s : String) : String :=
  String.mk ((s.toList.dropWhile (fun c => c == ' ')).takeWhile (fun c => c != ' '))

/-- Modelled from the spec: `StringUtils::lowerCase`, not among the embedded sources. -/
def lowerCase (s : String) : String :=
  String.mk (s.toList.map Char.toLower)

/-- Modelled from the spec: `StringUtils::isLike`, not among the embedded sources.
The patterns `scanTime` passes are three letters followed by `.*`, "begins
with these letters"; any other pattern must equal the text. -/
def isLike (s pattern : String) : Bool :=
  match pattern.toList.reverse with
  | '*' :: '.' :: stem => List.isPrefixOf stem.reverse s.toList
  | _ => s == pattern

/-- Integer to `double`. -/
def ofInt (n : Int) : Int := n * scale

/-- Product of two `double`s. -/
def mul (a b : Int) : Int := a * b / scale

/-- Modelled from the spec: `convertSODtoTime` of `TimeConverters`, not among
the embedded sources: hour, minute and second (with its fraction) of a seconds of
day value. -/
def convertSODtoTime (sod : Int) : Int × Int × Int :=
  let whole := sod / scale
  (whole / 3600, (whole % 3600) / 60, sod - (whole / 60) * 60 * scale)

/-- Modelled from the spec: `convertTimeToSOD` of `TimeConverters`, not among
the embedded sources: `hh * 3600 + mm * 60 + sec`. -/
def convertTimeToSOD (hh mm : Int) (sec : Int) : Int :=
  (hh * 3600 + mm * 60) * scale + sec

/-- Position (from 1) of a text in a table, 0 when it is not there. -/
def position (table : List String) (s : String) : Int :=
  match table.indexOf? s with
  | some i => (i : Int) + 1
  | none => 0

/-- Modelled from the spec: `CivilTime::monthAbbrev`, not among the embedded sources:
the month number of a three letter abbreviation, 0 when it is none. -/
def monthAbbrev (s : String) : Int :=
  position ["jan", "feb", "mar", "apr", "may", "jun", "jul", "aug", "sep", "oct", "nov", "dec"]
    (lowerCase s)

/-- Modelled from the spec: `CivilTime::monthLong`, not among the embedded sources:
the month number of a month name, 0 when it is none. -/
def monthLong (s : String) : Int :=
  position ["january", "february", "march", "april", "may", "june", "july", "august",
    "september", "october", "november", "december"] (lowerCase s)

/-- Walk the format and the text in lockstep. -/
def getInfoFrom : List Char → List Char → IdToValue → Except LibExn IdToValue
  | [], _, info => .ok info
  | '%' :: c :: rest, str, info =>
    match rest with
    | [] => .ok (info.assign c (String.mk str))
    | stop :: _ =>
      getInfoFrom rest (str.dropWhile (fun x => x != stop))
        (info.assign c (String.mk (str.takeWhile (fun x => x != stop))))
  | x :: rest, y :: str, info =>
    if x = y then getInfoFrom rest str info
    else .error { kind := .StringException, text := "format mismatch" }
  | _ :: _, [], _ => .error { kind := .StringException, text := "format mismatch" }

/-- Modelled from the spec: `TimeTag::getInfo`, not among the embedded sources: "walks
the format string and the raw string in lockstep, consuming ... delimiter
bounded tokens per code, recording each into the map; fails with a parse error
on literal-text mismatch".  A code is a percent sign and one character; its
token runs up to the character that follows the code in the format. -/
def getInfo (str fmt : String) : Except LibExn IdToValue :=
  getInfoFrom fmt.toList str.toList []

/-- An `InvalidRequest` of the library. -/
def invalid (text : String) : LibExn := { kind := .InvalidRequest, text := text }

/-- Units of 1e-9 second in a day. -/
def dayLength : Int := 86400 * scale

/-- Modelled from the spec: `CommonTime::operator==` is declared in
`CommonTime.hpp` without a body: "equality uses exact field comparison", the
time systems being equal or one of them `Any`. -/
def eqCommonTime (a b : CommonTime Int) : Bool :=
  decide (a.m_day = b.m_day) && decide (a.m_msod = b.m_msod) && decide (a.m_fsod = b.m_fsod) &&
    (decide (a.m_timeSystem = .Any) || decide (b.m_timeSystem = .Any) ||
      decide (a.m_timeSystem = b.m_timeSystem))

/-- Modelled from the spec: `CommonTime::BEGINNING_OF_TIME` is declared in
`CommonTime.hpp` without a value: the earliest representable instant, day 0. -/
def BEGINNING_OF_TIME : CommonTime Int :=
  { m_day := 0, m_msod := 0, m_fsod := 0, m_timeSystem := .Any }

/-- Modelled from the spec: `CommonTime::END_LIMIT_JDAY` is declared in
`CommonTime.hpp` without a value: the day of 1/1/4713 C.E. -/
def END_LIMIT_JDAY : Int := 3442448

/-- Modelled from the spec: `CommonTime::set(day, sod, timeSystem)` is declared in
`CommonTime.hpp` without a body: "validates ranges", the seconds of day split
into milliseconds and the remainder below a millisecond. -/
def set (day sod : Int) (timeSystem : TimeSystem) : Except LibExn (CommonTime Int) :=
  if day < 0 ∨ END_LIMIT_JDAY ≤ day then .error (invalid "day out of range")
  else if sod < 0 ∨ dayLength ≤ sod then .error (invalid "seconds of day out of range")
  else .ok { m_day := day, m_msod := sod / 1000000, m_fsod := sod % 1000000,
             m_timeSystem := timeSystem }

/-- Seconds of day of an instant, fraction included. -/
def sodOf (t : CommonTime Int) : Int := t.m_msod * 1000000 + t.m_fsod

/-- Leap years of the proleptic Gregorian calendar. -/
def isLeap (y : Int) : Bool :=
  decide (y % 4 = 0) && (decide (y % 100 ≠ 0) || decide (y % 400 = 0))

/-- Days in a year. -/
def yearLength (y : Int) : Int := if isLeap y then 366 else 365

/-- Day number (days since midnight -4713/01/01) of January 1 of a year. -/
def yearStart (y : Int) : Int :=
  1721426 + 365 * (y - 1) + (y - 1) / 4 - (y - 1) / 100 + (y - 1) / 400

/-- The year a day number falls in. -/
def yearOf (day : Int) : Int :=
  let guess := 400 * (day - 1721426) / 146097 + 1
  if yearStart (guess + 1) ≤ day then guess + 1
  else if day < yearStart guess then guess - 1
  else guess

/-- Days in each month of a year. -/
def monthLengths (y : Int) : List Int :=
  [31, if isLeap y then 29 else 28, 31, 30, 31, 30, 31, 31, 30, 31, 30, 31]

/-- Days of the year before the first of a month. -/
def daysBeforeMonth (y month : Int) : Int :=
  ((monthLengths y).take (month - 1).toNat).foldl (fun a b => a + b) 0

/-- Month and day of month of a day of year: walk the months that remain. -/
def monthDay : List Int → Int → Int → Int × Int
  | [], month, doy => (month, doy)
  | len :: rest, month, doy =>
    if doy ≤ len then (month, doy) else monthDay rest (month + 1) (doy - len)

/-- Modelled from the spec: the class `YDSTime` is not among the embedded sources.
`convertToCommonTime` "fails with an invalid-request error if fields are out
of each variant's valid domain". -/
def ydsToCommon (a : YDSTime Int) : Except LibExn (CommonTime Int) :=
  if a.doy < 1 ∨ yearLength a.year < a.doy then .error (invalid "day of year out of range")
  else set (yearStart a.year + a.doy - 1) a.sod a.timeSystem

/-- Modelled from the spec: `YDSTime::convertFromCommonTime`. -/
def ydsFromCommon (t : CommonTime Int) : Except LibExn (YDSTime Int) :=
  .ok { year := yearOf t.m_day, doy := t.m_day - yearStart (yearOf t.m_day) + 1,
        sod := sodOf t, timeSystem := t.m_timeSystem }

/-- The year a two digit year stands for, by the rule `mixedScanTime` quotes
from POSIX `strptime`. -/
def century (n : Int) : Int := if n ≥ 69 then n + 1900 else n + 2000

/-- Modelled from the spec: `YDSTime::setFromInfo`: year `Y`/`y`, day of year `j`,
seconds of day `s`, time system `P`. -/
def ydsSetFromInfo (a : YDSTime Int) (info : IdToValue) : Except LibExn (YDSTime Int × Bool) :=
  .ok (info.foldl (fun a e =>
    if e.1 = 'Y' then { a with year := asInt e.2 }
    else if e.1 = 'y' then { a with year := century (asInt e.2) }
    else if e.1 = 'j' then { a with doy := asInt e.2 }
    else if e.1 = 's' then { a with sod := asDouble e.2 }
    else if e.1 = 'P' then { a with timeSystem := asTimeSystem e.2 }
    else a) a, true)

/-- The class `YDSTime`. -/
def yds : TimeTagOps Int (YDSTime Int) :=
  { ctor := { year := 0, doy := 0, sod := 0, timeSystem := .Unknown },
    setFromInfo := ydsSetFromInfo,
    convertToCommonTime := ydsToCommon,
    convertFromCommonTime := ydsFromCommon }

/-- Modelled from the spec: the class `CivilTime` is not among the embedded sources.
`convertToCommonTime` "fails with an invalid-request error if fields are out
of each variant's valid domain (e.g., month outside 1-12)". -/
def civilToCommon (a : CivilTime Int) : Except LibExn (CommonTime Int) :=
  if a.month < 1 ∨ 12 < a.month then .error (invalid "month out of range")
  else if a.day < 1 ∨ ((monthLengths a.year).getD (a.month - 1).toNat 0) < a.day then
    .error (invalid "day out of range")
  else if a.hour < 0 ∨ 23 < a.hour ∨ a.minute < 0 ∨ 59 < a.minute ∨
      a.second < 0 ∨ 60 * scale ≤ a.second then
    .error (invalid "time of day out of range")
  else set (yearStart a.year + daysBeforeMonth a.year a.month + a.day - 1)
    (convertTimeToSOD a.hour a.minute a.second) a.timeSystem

/-- Modelled from the spec: `CivilTime::convertFromCommonTime`. -/
def civilFromCommon (t : CommonTime Int) : Except LibExn (CivilTime Int) :=
  let year := yearOf t.m_day
  let md := monthDay (monthLengths year) 1 (t.m_day - yearStart year + 1)
  let hms := convertSODtoTime (sodOf t)
  .ok { year := year, month := md.1, day := md.2, hour := hms.1, minute := hms.2.1,
        second := hms.2.2, timeSystem := t.m_timeSystem }

/-- One entry of the map, as `CivilTime::setFromInfo` reads it; `none` when a
month name is not one. -/
def civilField (a : CivilTime Int) (e : Char × String) : Option (CivilTime Int) :=
  if e.1 = 'Y' then some { a with year := asInt e.2 }
  else if e.1 = 'y' then some { a with year := century (asInt e.2) }
  else if e.1 = 'm' then some { a with month := asInt e.2 }
  else if e.1 = 'b' then
    if monthAbbrev e.2 < 1 then none else some { a with month := monthAbbrev e.2 }
  else if e.1 = 'B' then
    if monthLong e.2 < 1 then none else some { a with month := monthLong e.2 }
  else if e.1 = 'd' then some { a with day := asInt e.2 }
  else if e.1 = 'H' then some { a with hour := asInt e.2 }
  else if e.1 = 'M' then some { a with minute := asInt e.2 }
  else if e.1 = 'S' then some { a with second := asDouble e.2 }
  else if e.1 = 'f' then some { a with second := asDouble e.2 }
  else if e.1 = 'P' then some { a with timeSystem := asTimeSystem e.2 }
  else some a

/-- Modelled from the spec: `CivilTime::setFromInfo`: year `Y`/`y`, month
`m`/`b`/`B`, day `d`, hour `H`, minute `M`, second `S`/`f`, time system `P`;
it stops and returns `false` at a month name that is none. -/
def civilSetFromInfo : CivilTime Int → IdToValue → Except LibExn (CivilTime Int × Bool)
  | a, [] => .ok (a, true)
  | a, e :: rest =>
    match civilField a e with
    | some b => civilSetFromInfo b rest
    | none => .ok (a, false)

/-- The class `CivilTime`. -/
def civil : TimeTagOps Int (CivilTime Int) :=
  { ctor := { year := 0, month := 0, day := 0, hour := 0, minute := 0, second := 0,
              timeSystem := .Unknown },
    setFromInfo := civilSetFromInfo,
    convertToCommonTime := civilToCommon,
    convertFromCommonTime := civilFromCommon }

/-- The distance between two week numbers. -/
def weekDistance (a b : Int) : Int := if a ≤ b then b - a else a - b

/-- Modelled from the spec: `setModWeek` is a member of the week classes, none of
which is among the embedded sources (`mixedScanTime` only calls it).  This is
the rule of the testable properties: "`setModWeek(n)` for n in [0,1023] must
select the full week in `{W - W%M + n - M, W - W%M + n, W - W%M + n + M}` nearest
to W; ties resolve toward the lower candidate".  The candidates are compared
from the lowest up and a higher one is taken only when it is strictly
nearer. -/
def nearestWeek (modulus current n : Int) : Int :=
  let pick := current - current % modulus + n
  let best :=
    if weekDistance pick current < weekDistance (pick - modulus) current then pick
    else pick - modulus
  if weekDistance (pick + modulus) current < weekDistance best current then pick + modulus
  else best

/-- Modelled from the spec: the rule of `setModWeek` as the component design words
it: "the full week is `currentFullWeek - currentFullWeek mod M + n`, adjusted by
plus or minus M if that choice is more than M/2 away from the current full
week".  It differs from `nearestWeek` only where the unadjusted week is exactly
M/2 above the current one. -/
def adjustedWeek (modulus current n : Int) : Int :=
  let pick := current - current % modulus + n
  if pick - current > modulus / 2 then pick - modulus
  else if current - pick > modulus / 2 then pick + modulus
  else pick

/-- What tells the five week-and-seconds classes apart: the day number of the
first day of week 0, the number of weeks before the broadcast week rolls
over, the time system, and the codes of epoch, full week and week. -/
structure WeekSystem where
  epochDay : Int
  modulus : Int
  timeSystem : TimeSystem
  epochCode : Char
  fullWeekCode : Char
  modWeekCode : Char

/-- Modelled from the spec: `convertToCommonTime` of a week-and-seconds class, not
among the embedded sources. -/
def weekToCommon (sys : WeekSystem) (a : WeekSecond Int) : Except LibExn (CommonTime Int) :=
  if a.week < 0 then .error (invalid "week out of range")
  else if a.sow < 0 ∨ 7 * dayLength ≤ a.sow then .error (invalid "seconds of week out of range")
  else set (sys.epochDay + 7 * a.week + a.sow / dayLength) (a.sow % dayLength) a.timeSystem

/-- Modelled from the spec: `convertFromCommonTime` of a week-and-seconds class;
an instant before the first week cannot be represented. -/
def weekFromCommon (sys : WeekSystem) (t : CommonTime Int) : Except LibExn (WeekSecond Int) :=
  if t.m_day < sys.epochDay then .error (invalid "instant before the first week")
  else .ok { week := (t.m_day - sys.epochDay) / 7,
             sow := (t.m_day - sys.epochDay) % 7 * dayLength + sodOf t,
             timeSystem := t.m_timeSystem }

/-- Modelled from the spec: `setEpoch`: the count of whole rollovers is replaced. -/
def weekSetEpoch (sys : WeekSystem) (a : WeekSecond Int) (e : Int) : WeekSecond Int :=
  { a with week := a.week % sys.modulus + e * sys.modulus }

/-- Modelled from the spec: `setModWeek`, by the nearest-candidate rule. -/
def weekSetModWeek (sys : WeekSystem) (a : WeekSecond Int) (n : Int) : WeekSecond Int :=
  { a with week := nearestWeek sys.modulus a.week n }

/-- Modelled from the spec: `setFromInfo` of a week-and-seconds class: its epoch,
full week and week codes, day of week `w`, seconds of week `g`, time system
`P`. -/
def weekSetFromInfo (sys : WeekSystem) (a : WeekSecond Int) (info : IdToValue) :
    Except LibExn (WeekSecond Int × Bool) :=
  .ok (info.foldl (fun a e =>
    if e.1 = sys.epochCode then weekSetEpoch sys a (asInt e.2)
    else if e.1 = sys.fullWeekCode then { a with week := asInt e.2 }
    else if e.1 = sys.modWeekCode then weekSetModWeek sys a (asInt e.2)
    else if e.1 = 'w' then { a with sow := ofInt (asInt e.2 * SEC_PER_DAY) }
    else if e.1 = 'g' then { a with sow := asDouble e.2 }
    else if e.1 = 'P' then { a with timeSystem := asTimeSystem e.2 }
    else a) a, true)

/-- A week-and-seconds class. -/
def weekClass (sys : WeekSystem) : WeekSecondOps Int :=
  { ctor := { week := 0, sow := 0, timeSystem := sys.timeSystem },
    setFromInfo := weekSetFromInfo sys,
    convertToCommonTime := weekToCommon sys,
    convertFromCommonTime := weekFromCommon sys,
    setEpoch := weekSetEpoch sys,
    setModWeek := weekSetModWeek sys }

/-- GPS: weeks from 1980-01-06, 10-bit week. -/
def gpsSystem : WeekSystem :=
  { epochDay := 2444245, modulus := 1024, timeSystem := .GPS,
    epochCode := 'E', fullWeekCode := 'F', modWeekCode := 'G' }

/-- BeiDou: weeks from 2006-01-01, 13-bit week. -/
def bdsSystem : WeekSystem :=
  { epochDay := 2453737, modulus := 8192, timeSystem := .BDT,
    epochCode := 'R', fullWeekCode := 'D', modWeekCode := 'e' }

/-- QZSS: weeks from 1980-01-06, 10-bit week. -/
def qzsSystem : WeekSystem :=
  { epochDay := 2444245, modulus := 1024, timeSystem := .QZS,
    epochCode := 'V', fullWeekCode := 'h', modWeekCode := 'i' }

/-- Galileo: weeks from 1999-08-22, 12-bit week. -/
def galSystem : WeekSystem :=
  { epochDay := 2451413, modulus := 4096, timeSystem := .GAL,
    epochCode := 'T', fullWeekCode := 'L', modWeekCode := 'l' }

/-- IRNSS: weeks from 1999-08-22, 10-bit week. -/
def irnSystem : WeekSystem :=
  { epochDay := 2451413, modulus := 1024, timeSystem := .IRN,
    epochCode := 'X', fullWeekCode := 'O', modWeekCode := 'o' }

/-- Z-counts (units of 1.5 s) in a day. -/
def zcountsPerDay : Int := 57600

/-- Modelled from the spec: `GPSWeekZcount::convertToCommonTime`, not among
the embedded sources. -/
def zcountToCommon (a : GPSWeekZcount) : Except LibExn (CommonTime Int) :=
  if a.week < 0 then .error (invalid "week out of range")
  else if a.zcount < 0 ∨ 7 * zcountsPerDay ≤ a.zcount then
    .error (invalid "Z-count out of range")
  else set (gpsSystem.epochDay + 7 * a.week + a.zcount / zcountsPerDay)
    (a.zcount % zcountsPerDay * 1500000000) a.timeSystem

/-- Modelled from the spec: `GPSWeekZcount::convertFromCommonTime`. -/
def zcountFromCommon (t : CommonTime Int) : Except LibExn GPSWeekZcount :=
  if t.m_day < gpsSystem.epochDay then .error (invalid "instant before the first week")
  else .ok { week := (t.m_day - gpsSystem.epochDay) / 7,
             zcount := (t.m_day - gpsSystem.epochDay) % 7 * zcountsPerDay
               + sodOf t / 1500000000,
             timeSystem := t.m_timeSystem }

/-- Modelled from the spec: `setZcount29`: ten bits of week above nineteen bits of
Z-count, the week disambiguated against the current one. -/
def setZcount29 (a : GPSWeekZcount) (z : Int) : Except LibExn GPSWeekZcount :=
  .ok { a with week := nearestWeek 1024 a.week (z / 524288 % 1024), zcount := z % 524288 }

/-- Modelled from the spec: `setZcount32`: "self-contained", the full week above
nineteen bits of Z-count. -/
def setZcount32 (a : GPSWeekZcount) (z : Int) : Except LibExn GPSWeekZcount :=
  .ok { a with week := z / 524288, zcount := z % 524288 }

/-- One entry of the map, as `GPSWeekZcount::setFromInfo` reads it. -/
def zcountField (a : GPSWeekZcount) (e : Char × String) : GPSWeekZcount :=
  if e.1 = 'E' then { a with week := a.week % 1024 + asInt e.2 * 1024 }
  else if e.1 = 'F' then { a with week := asInt e.2 }
  else if e.1 = 'G' then { a with week := nearestWeek 1024 a.week (asInt e.2) }
  else if e.1 = 'w' then { a with zcount := asInt e.2 * zcountsPerDay }
  else if e.1 = 'z' ∨ e.1 = 'Z' then { a with zcount := asInt e.2 }
  else if e.1 = 'c' then
    { a with week := nearestWeek 1024 a.week (asInt e.2 / 524288 % 1024),
             zcount := asInt e.2 % 524288 }
  else if e.1 = 'C' then { a with week := asInt e.2 / 524288, zcount := asInt e.2 % 524288 }
  else if e.1 = 'P' then { a with timeSystem := asTimeSystem e.2 }
  else a

/-- The class `GPSWeekZcount`. -/
def zcount : ZcountOps Int :=
  { ctor := { week := 0, zcount := 0, timeSystem := .GPS },
    setFromInfo := fun a info => .ok (info.foldl zcountField a, true),
    convertToCommonTime := zcountToCommon,
    convertFromCommonTime := zcountFromCommon,
    setZcount29 := setZcount29,
    setZcount32 := setZcount32 }

/-- Modelled from the spec: the class `MJD`, not among the embedded sources: days and
fraction of a day since day number 2400001. -/
def mjd : TimeTagOps Int (MJD Int) :=
  { ctor := { mjd := 0, timeSystem := .Unknown },
    setFromInfo := fun a info => .ok (info.foldl (fun a e =>
      if e.1 = 'Q' then { a with mjd := asDouble e.2 }
      else if e.1 = 'P' then { a with timeSystem := asTimeSystem e.2 }
      else a) a, true),
    convertToCommonTime := fun a =>
      set (2400001 + a.mjd / scale) (a.mjd % scale * 86400) a.timeSystem,
    convertFromCommonTime := fun t =>
      .ok { mjd := (t.m_day - 2400001) * scale + sodOf t / 86400,
            timeSystem := t.m_timeSystem } }

/-- Modelled from the spec: the class `JulianDate`, not among the embedded sources:
days and fraction of a day, the day starting at noon. -/
def julian : TimeTagOps Int (JulianDate Int) :=
  { ctor := { jd := 0, timeSystem := .Unknown },
    setFromInfo := fun a info => .ok (info.foldl (fun a e =>
      if e.1 = 'J' then { a with jd := asDouble e.2 }
      else if e.1 = 'P' then { a with timeSystem := asTimeSystem e.2 }
      else a) a, true),
    convertToCommonTime := fun a =>
      set ((a.jd + 500000000) / scale) ((a.jd + 500000000) % scale * 86400) a.timeSystem,
    convertFromCommonTime := fun t =>
      .ok { jd := t.m_day * scale - 500000000 + sodOf t / 86400,
            timeSystem := t.m_timeSystem } }

/-- Day number of 1970-01-01. -/
def unixEpochDay : Int := 2440588

/-- Modelled from the spec: the class `ANSITime`, not among the embedded sources:
seconds since 1970-01-01; an earlier instant cannot be represented. -/
def ansi : TimeTagOps Int ANSITime :=
  { ctor := { time := 0, timeSystem := .Unknown },
    setFromInfo := fun a info => .ok (info.foldl (fun a e =>
      if e.1 = 'K' then { a with time := asInt e.2 }
      else if e.1 = 'P' then { a with timeSystem := asTimeSystem e.2 }
      else a) a, true),
    convertToCommonTime := fun a =>
      set (unixEpochDay + a.time / 86400) (a.time % 86400 * scale) a.timeSystem,
    convertFromCommonTime := fun t =>
      if t.m_day < unixEpochDay then .error (invalid "instant before 1970")
      else .ok { time := (t.m_day - unixEpochDay) * 86400 + sodOf t / scale,
                 timeSystem := t.m_timeSystem } }

/-- Modelled from the spec: the class `UnixTime`, not among the embedded sources:
seconds and microseconds since 1970-01-01. -/
def unix : TimeTagOps Int UnixTime :=
  { ctor := { tv_sec := 0, tv_usec := 0, timeSystem := .Unknown },
    setFromInfo := fun a info => .ok (info.foldl (fun a e =>
      if e.1 = 'U' then { a with tv_sec := asInt e.2 }
      else if e.1 = 'u' then { a with tv_usec := asInt e.2 }
      else if e.1 = 'P' then { a with timeSystem := asTimeSystem e.2 }
      else a) a, true),
    convertToCommonTime := fun a =>
      set (unixEpochDay + a.tv_sec / 86400) (a.tv_sec % 86400 * scale + a.tv_usec * 1000)
        a.timeSystem,
    convertFromCommonTime := fun t =>
      if t.m_day < unixEpochDay then .error (invalid "instant before 1970")
      else .ok { tv_sec := (t.m_day - unixEpochDay) * 86400 + sodOf t / scale,
                 tv_usec := sodOf t % scale / 1000, timeSystem := t.m_timeSystem } }

/-- Modelled from the spec: the class `PosixTime`, not among the embedded sources:
seconds and nanoseconds since 1970-01-01. -/
def posix : TimeTagOps Int PosixTime :=
  { ctor := { tv_sec := 0, tv_nsec := 0, timeSystem := .Unknown },
    setFromInfo := fun a info => .ok (info.foldl (fun a e =>
      if e.1 = 'W' then { a with tv_sec := asInt e.2 }
      else if e.1 = 'N' then { a with tv_nsec := asInt e.2 }
      else if e.1 = 'P' then { a with timeSystem := asTimeSystem e.2 }
      else a) a, true),
    convertToCommonTime := fun a =>
      set (unixEpochDay + a.tv_sec / 86400) (a.tv_sec % 86400 * scale + a.tv_nsec)
        a.timeSystem,
    convertFromCommonTime := fun t =>
      if t.m_day < unixEpochDay then .error (invalid "instant before 1970")
      else .ok { tv_sec := (t.m_day - unixEpochDay) * 86400 + sodOf t / scale,
                 tv_nsec := sodOf t % scale, timeSystem := t.m_timeSystem } }

end Ref

/-- The reference environment. -/
def ref : Env Int :=
  { asInt := Ref.asInt, asDouble := Ref.asDouble, asLongDouble := Ref.asDouble,
    asTimeSystem := Ref.asTimeSystem, firstWord := Ref.firstWord,
    lowerCase := Ref.lowerCase, isLike := Ref.isLike,
    ofInt := Ref.ofInt, add := fun a b => a + b, mul := Ref.mul,
    convertSODtoTime := Ref.convertSODtoTime, convertTimeToSOD := Ref.convertTimeToSOD,
    monthAbbrev := Ref.monthAbbrev, monthLong := Ref.monthLong,
    getInfo := Ref.getInfo, eqCommonTime := Ref.eqCommonTime,
    BEGINNING_OF_TIME := Ref.BEGINNING_OF_TIME,
    civil := Ref.civil, yds := Ref.yds,
    gps := Ref.weekClass Ref.gpsSystem, bds := Ref.weekClass Ref.bdsSystem,
    qzs := Ref.weekClass Ref.qzsSystem, gal := Ref.weekClass Ref.galSystem,
    irn := Ref.weekClass Ref.irnSystem,
    zcount := Ref.zcount, mjd := Ref.mjd, julian := Ref.julian, ansi := Ref.ansi,
    unix := Ref.unix, posix := Ref.posix }

/-- Indeterminate values for the uninitialised locals of `mixedScanTime`, all
distinct from anything an input of the examples writes. -/
def someJunk : Indeterminate Int :=
  { isow := -1, isod := -2, isec := -3, iweek := -4, ifullweek := -5, idow := -6,
    iyear := -7, imonth := -8, iday := -9, izcount := -10, idoy := -11,
    izcount29 := -12, ihour := -13, imin := -14, iepoch := -15 }

/-- An instant on 2023-12-31, 12:00:00.5 UTC. -/
def lastDayOf2023 : CommonTime Int :=
  { m_day := 2460310, m_msod := 43200500, m_fsod := 0, m_timeSystem := .UTC }

/-- An instant on 2024-12-31 (day 366 of a leap year), 12:00:00.5 UTC. -/
def lastDayOf2024 : CommonTime Int :=
  { m_day := 2460676, m_msod := 43200500, m_fsod := 0, m_timeSystem := .UTC }


/-! ## printTime -/

/-- The `printf` of each of the thirteen time tag classes, which `TimeString.cpp`
calls and whose text is not among the embedded sources: the template with the
codes the class recognises replaced, or the exception raised. -/
structure Printers (D : Type) where
  ansi : ANSITime → String → Except LibExn String
  civil : CivilTime D → String → Except LibExn String
  gps : WeekSecond D → String → Except LibExn String
  zcount : GPSWeekZcount → String → Except LibExn String
  julian : JulianDate D → String → Except LibExn String
  mjd : MJD D → String → Except LibExn String
  unix : UnixTime → String → Except LibExn String
  posix : PosixTime → String → Except LibExn String
  yds : YDSTime D → String → Except LibExn String
  gal : WeekSecond D → String → Except LibExn String
  bds : WeekSecond D → String → Except LibExn String
  qzs : WeekSecond D → String → Except LibExn String
  irn : WeekSecond D → String → Except LibExn String

/-- One line of `printTime`,
`try {rv = V(t).printf( rv );} catch (gpstk::InvalidRequest e){};`:
the object is built from `t` by `convertFromCommonTime`, its `printf` runs on
`rv`; an `InvalidRequest` from either leaves `rv` as it was, any other
exception escapes. -/
def tryPrintf {D T : Type} (convertFromCommonTime : CommonTime D → Except LibExn T)
    (printf : T → String → Except LibExn String) (t : CommonTime D) (rv : String) :
    Except Thrown String :=
  match convertFromCommonTime t >>= fun tt => printf tt rv with
  | .ok s => .ok s
  | .error e => if e.kind = .InvalidRequest then .ok rv else .error (.library e)

/-- The function `printTime( const CommonTime& t, const string& fmt )`: thirteen
guarded lines in the order of the text. -/
def printTime {D : Type} (env : Env D) (pr : Printers D) (t : CommonTime D) (fmt : String) :
    Except Thrown String := do
  let rv := fmt
  let rv ← tryPrintf env.ansi.convertFromCommonTime pr.ansi t rv
  let rv ← tryPrintf env.civil.convertFromCommonTime pr.civil t rv
  let rv ← tryPrintf env.gps.convertFromCommonTime pr.gps t rv
  let rv ← tryPrintf env.zcount.convertFromCommonTime pr.zcount t rv
  let rv ← tryPrintf env.julian.convertFromCommonTime pr.julian t rv
  let rv ← tryPrintf env.mjd.convertFromCommonTime pr.mjd t rv
  let rv ← tryPrintf env.unix.convertFromCommonTime pr.unix t rv
  let rv ← tryPrintf env.posix.convertFromCommonTime pr.posix t rv
  let rv ← tryPrintf env.yds.convertFromCommonTime pr.yds t rv
  let rv ← tryPrintf env.gal.convertFromCommonTime pr.gal t rv
  let rv ← tryPrintf env.bds.convertFromCommonTime pr.bds t rv
  let rv ← tryPrintf env.qzs.convertFromCommonTime pr.qzs t rv
  let rv ← tryPrintf env.irn.convertFromCommonTime pr.irn t rv
  pure rv

/-! ### The format precedence list of printTime, in the words of the specification -/

/-- The fixed order in which the print engine tries the variants. -/
def printOrder : List Variant :=
  [.ANSI, .Civil, .GPSWeek, .WeekZcount, .Julian, .MJD, .Unix, .Posix, .YDS,
   .GALWeek, .BDSWeek, .QZSWeek, .IRNWeek]

/-- What a variant, built from the instant, makes of a string: its `printf`; the
exception when building it or printing fails. -/
def Variant.printf {D : Type} (env : Env D) (pr : Printers D) (t : CommonTime D) :
    Variant → String → Except LibExn String
  | .ANSI, rv => env.ansi.convertFromCommonTime t >>= fun tt => pr.ansi tt rv
  | .Civil, rv => env.civil.convertFromCommonTime t >>= fun tt => pr.civil tt rv
  | .GPSWeek, rv => env.gps.convertFromCommonTime t >>= fun tt => pr.gps tt rv
  | .WeekZcount, rv => env.zcount.convertFromCommonTime t >>= fun tt => pr.zcount tt rv
  | .Julian, rv => env.julian.convertFromCommonTime t >>= fun tt => pr.julian tt rv
  | .MJD, rv => env.mjd.convertFromCommonTime t >>= fun tt => pr.mjd tt rv
  | .Unix, rv => env.unix.convertFromCommonTime t >>= fun tt => pr.unix tt rv
  | .Posix, rv => env.posix.convertFromCommonTime t >>= fun tt => pr.posix tt rv
  | .YDS, rv => env.yds.convertFromCommonTime t >>= fun tt => pr.yds tt rv
  | .GALWeek, rv => env.gal.convertFromCommonTime t >>= fun tt => pr.gal tt rv
  | .BDSWeek, rv => env.bds.convertFromCommonTime t >>= fun tt => pr.bds tt rv
  | .QZSWeek, rv => env.qzs.convertFromCommonTime t >>= fun tt => pr.qzs tt rv
  | .IRNWeek, rv => env.irn.convertFromCommonTime t >>= fun tt => pr.irn tt rv

/-- A variant's turn in the chain: the string it produces; the string it was
given when it raises `InvalidRequest`; any other exception ends the chain. -/
def Variant.substitute {D : Type} (env : Env D) (pr : Printers D) (t : CommonTime D)
    (v : Variant) (rv : String) : Except Thrown String :=
  match v.printf env pr t rv with
  | .ok s => .ok s
  | .error e => if e.kind = .InvalidRequest then .ok rv else .error (.library e)

/-- Thread a string through the listed variants, each receiving the string the
previous one produced. -/
def threadThrough {D : Type} (env : Env D) (pr : Printers D) (t : CommonTime D) :
    List Variant → String → Except Thrown String
  | [], rv => pure rv
  | v :: vs, rv => v.substitute env pr t rv >>= threadThrough env pr t vs

/-! ## scanTime (TimeTag&, str, fmt) -/

/-- The function `scanTime( TimeTag& btime, const string& str, const string& fmt )`,
for a target of the class with operations `ops`: the target as the call
leaves it, or the exception that escapes. -/
def scanTimeTag {D T : Type} (env : Env D) (ops : TimeTagOps D T) (btime : T)
    (str fmt : String) : Except Thrown T := do
  let info ← lib (env.getInfo str fmt)
  let r ← lib (ops.setFromInfo btime info)
  if r.2 then
    pure r.1
  else
    let ct ← lib (ops.convertToCommonTime r.1)
    let ct2 ← (scanTime env ct str fmt).result
    lib (ops.convertFromCommonTime ct2)

namespace Ref

/-- Modelled from the spec: `formatSubstitute(template)`, "replaces every code this
variant recognizes with the corresponding native field's textual form,
leaving unrecognized codes untouched": a code is a percent sign and one
character; `table` gives the text of each code the variant recognises. -/
def substitute (table : List (Char × String)) : List Char → List Char
  | '%' :: c :: rest =>
    match table.lookup c with
    | some text => text.toList ++ substitute table rest
    | none => '%' :: c :: substitute table rest
  | x :: rest => x :: substitute table rest
  | [] => []

/-- The `printf` of a variant whose codes and their texts are `table`. -/
def render (table : List (Char × String)) (fmt : String) : Except LibExn String :=
  .ok (String.mk (substitute table fmt.toList))

/-- The digits of a natural number below `10 ^ width`, padded with zeros. -/
def padded : Nat → Nat → List Char
  | 0, _ => []
  | width + 1, n => padded width (n / 10) ++ [Char.ofNat (48 + n % 10)]

/-- Text of a `double`: the whole part, a point, nine decimals. -/
def showDouble (x : Int) : String :=
  toString (x / scale) ++ "." ++ String.mk (padded 9 (x % scale).toNat)

/-- Text of a time system: its three letter name. -/
def showTimeSystem : TimeSystem → String
  | .Unknown => "UNK" | .Any => "Any" | .GPS => "GPS" | .GLO => "GLO" | .GAL => "GAL"
  | .QZS => "QZS" | .BDT => "BDT" | .IRN => "IRN" | .UTC => "UTC" | .TAI => "TAI"

/-- The codes of a week-and-seconds variant: its epoch, full week and week codes,
day of week `w`, seconds of week `g`, time system `P`. -/
def weekTable (sys : WeekSystem) (a : WeekSecond Int) : List (Char × String) :=
  [(sys.epochCode, toString (a.week / sys.modulus)), (sys.fullWeekCode, toString a.week),
   (sys.modWeekCode, toString (a.week % sys.modulus)), ('w', toString (a.sow / dayLength)),
   ('g', showDouble a.sow), ('P', showTimeSystem a.timeSystem)]

/-- Modelled from the spec: the `printf` of the thirteen variants, each replacing
the codes of the format mini-language that belong to it. -/
def printers : Printers Int :=
  { ansi := fun a => render [('K', toString a.time), ('P', showTimeSystem a.timeSystem)],
    civil := fun a => render
      [('Y', toString a.year), ('y', toString (a.year % 100)), ('m', toString a.month),
       ('d', toString a.day), ('H', toString a.hour), ('M', toString a.minute),
       ('S', toString (a.second / scale)), ('f', showDouble a.second),
       ('P', showTimeSystem a.timeSystem)],
    gps := fun a => render (weekTable gpsSystem a),
    zcount := fun a => render
      [('E', toString (a.week / 1024)), ('F', toString a.week), ('G', toString (a.week % 1024)),
       ('w', toString (a.zcount / zcountsPerDay)), ('z', toString a.zcount),
       ('Z', toString a.zcount), ('c', toString (a.week % 1024 * 524288 + a.zcount)),
       ('C', toString (a.week * 524288 + a.zcount)), ('P', showTimeSystem a.timeSystem)],
    julian := fun a => render [('J', showDouble a.jd), ('P', showTimeSystem a.timeSystem)],
    mjd := fun a => render [('Q', showDouble a.mjd), ('P', showTimeSystem a.timeSystem)],
    unix := fun a => render
      [('U', toString a.tv_sec), ('u', toString a.tv_usec), ('P', showTimeSystem a.timeSystem)],
    posix := fun a => render
      [('W', toString a.tv_sec), ('N', toString a.tv_nsec), ('P', showTimeSystem a.timeSystem)],
    yds := fun a => render
      [('Y', toString a.year), ('y', toString (a.year % 100)), ('j', toString a.doy),
       ('s', showDouble a.sod), ('P', showTimeSystem a.timeSystem)],
    gal := fun a => render (weekTable galSystem a),
    bds := fun a => render (weekTable bdsSystem a),
    qzs := fun a => render (weekTable qzsSystem a),
    irn := fun a => render (weekTable irnSystem a) }

/-- Printers that refuse every template with `InvalidRequest`: the extreme case of
`printTime`, in which no variant substitutes anything. -/
def refusing : Printers Int :=
  { ansi := fun _ _ => .error (invalid "refused"),
    civil := fun _ _ => .error (invalid "refused"),
    gps := fun _ _ => .error (invalid "refused"),
    zcount := fun _ _ => .error (invalid "refused"),
    julian := fun _ _ => .error (invalid "refused"),
    mjd := fun _ _ => .error (invalid "refused"),
    unix := fun _ _ => .error (invalid "refused"),
    posix := fun _ _ => .error (invalid "refused"),
    yds := fun _ _ => .error (invalid "refused"),
    gal := fun _ _ => .error (invalid "refused"),
    bds := fun _ _ => .error (invalid "refused"),
    qzs := fun _ _ => .error (invalid "refused"),
    irn := fun _ _ => .error (invalid "refused") }

end Ref

/-- An instant on 1969-07-20, 20:17:40 UTC, before the first day of `ANSITime`,
`UnixTime`, `PosixTime` and of every week count. -/
def beforeEpochs : CommonTime Int :=
  { m_day := 2440423, m_msod := 73060000, m_fsod := 0, m_timeSystem := .UTC }

/-- The first day of 2000 in GPS time, as a `CivilTime`. -/
def firstDayOf2000 : CivilTime Int :=
  { year := 2000, month := 1, day := 1, hour := 0, minute := 0, second := 0,
    timeSystem := .GPS }

/-! ## CommonTime: the operations of the header

`CommonTime.hpp` has the bodies of `getInternal`, `setTimeSystem`, `reset` and
of the constructors; `set`, `setInternal`, `add`, `normalize` and the
arithmetic operations are declared there and defined in `CommonTime.cpp`, which
is not among the embedded sources.  A `double` is an element of a linearly
ordered field with a floor function. -/

namespace CommonTime

/-- Inline `CommonTime::getInternal(day, msod, fsod, timeSystem)`:
`day = m_day; msod = m_msod; fsod = m_fsod; timeSystem = m_timeSystem;`. -/
def getInternal {D : Type} (t : CommonTime D) : Int × Int × D × TimeSystem :=
  (t.m_day, t.m_msod, t.m_fsod, t.m_timeSystem)

/-- Inline `CommonTime::reset()`:
`m_day = m_msod = 0; m_fsod = 0.0; m_timeSystem = TimeSystem::Unknown;`. -/
def reset {D : Type} [Zero D] (_t : CommonTime D) : CommonTime D :=
  { m_day := 0, m_msod := 0, m_fsod := 0, m_timeSystem := .Unknown }

/-- The table of valid ranges in the comment of the class: `day` in 0 .. 2^31,
`msod` in 0 .. 86400000, `fsod` in 0 .. 0.001, the upper ends excluded. -/
def InDocumentedRanges {D : Type} [LinearOrderedField D] (t : CommonTime D) : Prop :=
  (0 ≤ t.m_day ∧ t.m_day < 2 ^ 31) ∧ (0 ≤ t.m_msod ∧ t.m_msod < 86400000) ∧
    (0 ≤ t.m_fsod ∧ t.m_fsod < 1 / 1000)

instance {D : Type} [LinearOrderedField D] (t : CommonTime D) :
    Decidable (InDocumentedRanges t) := by
  unfold InDocumentedRanges
  infer_instance

/-- Modelled from the spec: `CommonTime::BEGIN_LIMIT_JDAY` is declared in
`CommonTime.hpp` without a value: the day of the "earliest epoch expressible",
the first day of the count. -/
def BEGIN_LIMIT_JDAY : Int := 0

/-- Modelled from the spec: `CommonTime::END_LIMIT_JDAY`, declared without a value:
the same day as in the reference environment. -/
def END_LIMIT_JDAY : Int := Ref.END_LIMIT_JDAY

/-- Milliseconds in a day. -/
def MS_PER_DAY : Int := 86400000

/-- The invariant of the data model: "`0 <= milliseconds_of_day < 86400000`,
`0 <= fractional_seconds_of_day < 0.001`, `BEGIN_LIMIT <= day < END_LIMIT`". -/
def Valid {D : Type} [LinearOrderedField D] (t : CommonTime D) : Prop :=
  (0 ≤ t.m_msod ∧ t.m_msod < MS_PER_DAY) ∧ (0 ≤ t.m_fsod ∧ t.m_fsod < 1 / 1000) ∧
    (BEGIN_LIMIT_JDAY ≤ t.m_day ∧ t.m_day < END_LIMIT_JDAY)

instance {D : Type} [LinearOrderedField D] (t : CommonTime D) : Decidable (Valid t) := by
  unfold Valid
  infer_instance

/-- Modelled from the spec: `CommonTime::normalize()` is declared in `CommonTime.hpp`
without a body ("takes out of bounds values and rolls other values
appropriately", "true if m_day is valid"): the spec "normalizes
fractional-seconds carry into milliseconds and milliseconds carry into days":
the whole milliseconds held in `m_fsod` move to `m_msod`, the whole days held
in `m_msod` move to `m_day`, with borrow for negative values; the flag tells
whether the day is inside the limits. -/
def normalize {D : Type} [LinearOrderedField D] [FloorRing D] (t : CommonTime D) :
    CommonTime D × Bool :=
  let carry : Int := ⌊t.m_fsod * 1000⌋
  let msod : Int := t.m_msod + carry
  let day : Int := t.m_day + msod / MS_PER_DAY
  ({ m_day := day, m_msod := msod % MS_PER_DAY, m_fsod := t.m_fsod - (carry : D) / 1000,
     m_timeSystem := t.m_timeSystem },
   decide (BEGIN_LIMIT_JDAY ≤ day ∧ day < END_LIMIT_JDAY))

/-- The exception of the set family: a value out of its bounds. -/
def outOfRange : LibExn := { kind := .InvalidParameter, text := "value out of bounds" }

/-- The `InvalidRequest` of the addition family, on overflow and on underflow. -/
def overflow : LibExn := { kind := .InvalidRequest, text := "over- or underflow" }

/-- Modelled from the spec: `CommonTime::setInternal(day, msod, fsod, timeSys)` is
declared in `CommonTime.hpp` without a body.  Its comment there: "Set the data
members of this object directly.  Checks the validity of the given time
representation and throws an exception if any values are out of bounds"; the
spec: "validates ranges", a value outside its domain being an error "raised
immediately", "never silently clamped".  The bounds are those of the internal
representation: the day inside the limits, the milliseconds of day in
0 .. 86400000, the fractional seconds in 0 .. 0.001; a call that passes the
three checks stores its arguments as they are. -/
def setInternal {D : Type} [LinearOrderedField D] (day msod : Int) (fsod : D)
    (timeSys : TimeSystem) : Except LibExn (CommonTime D) :=
  if day < BEGIN_LIMIT_JDAY ∨ END_LIMIT_JDAY ≤ day then .error outOfRange
  else if msod < 0 ∨ MS_PER_DAY ≤ msod then .error outOfRange
  else if fsod < 0 ∨ 1 / 1000 ≤ fsod then .error outOfRange
  else .ok { m_day := day, m_msod := msod, m_fsod := fsod, m_timeSystem := timeSys }

/-- Modelled from the spec: `CommonTime::set(day, sod, fsod, timeSystem)` is declared
in `CommonTime.hpp` without a body.  Its comment there: "accepts values for
day, seconds of day and fractional seconds of day.  It also checks the
validity of the arguments and throws an exception if any values are out of
bounds"; the spec: "validates ranges, normalizes fractional-seconds carry into
milliseconds".  The arguments are the quantities of the interface ("the
interface is based on three quantites: days, seconds of day, and fractional
seconds of day", the internal representation being "slightly different"): the
day inside the limits, the seconds of day in 0 .. 86400, the fraction of a
second in 0 .. 1; the whole milliseconds of the fraction go to the
milliseconds of day and the rest, which is in the range 0 .. 0.001 of the
stored fractional seconds, stays. -/
def set {D : Type} [LinearOrderedField D] [FloorRing D] (day sod : Int) (fsod : D)
    (timeSystem : TimeSystem) : Except LibExn (CommonTime D) :=
  if day < BEGIN_LIMIT_JDAY ∨ END_LIMIT_JDAY ≤ day then .error outOfRange
  else if sod < 0 ∨ SEC_PER_DAY ≤ sod then .error outOfRange
  else if fsod < 0 ∨ 1 ≤ fsod then .error outOfRange
  else
    let msec : Int := ⌊fsod * 1000⌋
    .ok { m_day := day, m_msod := sod * 1000 + msec, m_fsod := fsod - (msec : D) / 1000,
          m_timeSystem := timeSystem }

/-- Modelled from the spec: `CommonTime::set(long day, double sod, timeSystem)`,
declared without a body ("checks the validity of the arguments and throws an
exception if any values are out of bounds"): the whole seconds and the rest
of the seconds of day, handed to the form above, which checks them. -/
def setSod {D : Type} [LinearOrderedField D] [FloorRing D] (day : Int) (sod : D)
    (timeSystem : TimeSystem) : Except LibExn (CommonTime D) :=
  set day ⌊sod⌋ (sod - (⌊sod⌋ : Int)) timeSystem

/-- Modelled from the spec: `CommonTime::set(double day, timeSys)`, declared without
a body ("checks the validity of the argument and throws an exception if its
value is out of bounds"): the whole days, and the rest of the day as seconds
of day, handed to the form above, which checks them. -/
def setDay {D : Type} [LinearOrderedField D] [FloorRing D] (day : D)
    (timeSys : TimeSystem) : Except LibExn (CommonTime D) :=
  setSod ⌊day⌋ ((day - (⌊day⌋ : Int)) * 86400) timeSys

/-- The default constructor `CommonTime(timeSystem)`: `set(0, 0, 0.0, timeSystem)`. -/
def ctor {D : Type} [LinearOrderedField D] [FloorRing D] (timeSystem : TimeSystem) :
    Except LibExn (CommonTime D) :=
  set 0 0 0 timeSystem

/-- Modelled from the spec: the protected `CommonTime::add(days, msod, fsod)`,
declared without a body ("the result of calling the normalize() function"):
the three quantities are added to the fields and the sum is normalized. -/
def add {D : Type} [LinearOrderedField D] [FloorRing D] (t : CommonTime D) (days msod : Int)
    (fsod : D) : CommonTime D × Bool :=
  normalize { t with m_day := t.m_day + days, m_msod := t.m_msod + msod,
                     m_fsod := t.m_fsod + fsod }

/-- Modelled from the spec: `CommonTime::addSeconds(double)`, declared without a
body: "adds seconds with carry/borrow into days; fails with a range error on
overflow past the representable day limits". -/
def addSeconds {D : Type} [LinearOrderedField D] [FloorRing D] (t : CommonTime D)
    (seconds : D) : Except LibExn (CommonTime D) :=
  let r := t.add 0 0 seconds
  if r.2 then .ok r.1 else .error overflow

/-- Modelled from the spec: `CommonTime::addSeconds(long)`, declared without a
body. -/
def addSecondsLong {D : Type} [LinearOrderedField D] [FloorRing D] (t : CommonTime D)
    (seconds : Int) : Except LibExn (CommonTime D) :=
  let r := t.add 0 (seconds * 1000) 0
  if r.2 then .ok r.1 else .error overflow

/-- Modelled from the spec: `CommonTime::addDays(long)`, declared without a body. -/
def addDays {D : Type} [LinearOrderedField D] [FloorRing D] (t : CommonTime D)
    (days : Int) : Except LibExn (CommonTime D) :=
  let r := t.add days 0 0
  if r.2 then .ok r.1 else .error overflow

/-- Modelled from the spec: `CommonTime::addMilliseconds(long)`, declared without a
body. -/
def addMilliseconds {D : Type} [LinearOrderedField D] [FloorRing D] (t : CommonTime D)
    (ms : Int) : Except LibExn (CommonTime D) :=
  let r := t.add 0 ms 0
  if r.2 then .ok r.1 else .error overflow

/-- Modelled from the spec: `operator+(double)` and `operator+=(double)`, declared
without a body: `addSeconds` on the seconds given. -/
def operator_plus {D : Type} [LinearOrderedField D] [FloorRing D] (t : CommonTime D)
    (seconds : D) : Except LibExn (CommonTime D) :=
  t.addSeconds seconds

/-- Modelled from the spec: `operator-(double)` and `operator-=(double)`, declared
without a body: `addSeconds` on the seconds negated. -/
def operator_minus {D : Type} [LinearOrderedField D] [FloorRing D] (t : CommonTime D)
    (seconds : D) : Except LibExn (CommonTime D) :=
  t.addSeconds (-seconds)

/-- The values a caller can hold: what the public operations of the class
return, each applied to values obtained the same way. -/
inductive Produced {D : Type} [LinearOrderedField D] [FloorRing D] : CommonTime D → Prop
  | ctor (ts : TimeSystem) (r : CommonTime D) : CommonTime.ctor ts = .ok r → Produced r
  | set (day sod : Int) (fsod : D) (ts : TimeSystem) (r : CommonTime D) :
      CommonTime.set day sod fsod ts = .ok r → Produced r
  | setSod (day : Int) (sod : D) (ts : TimeSystem) (r : CommonTime D) :
      CommonTime.setSod day sod ts = .ok r → Produced r
  | setDay (day : D) (ts : TimeSystem) (r : CommonTime D) :
      CommonTime.setDay day ts = .ok r → Produced r
  | setInternal (day msod : Int) (fsod : D) (ts : TimeSystem) (r : CommonTime D) :
      CommonTime.setInternal day msod fsod ts = .ok r → Produced r
  | setTimeSystem (t : CommonTime D) (ts : TimeSystem) :
      Produced t → Produced (t.setTimeSystem ts)
  | reset (t : CommonTime D) : Produced t → Produced t.reset
  | addSeconds (t : CommonTime D) (seconds : D) (r : CommonTime D) :
      Produced t → t.addSeconds seconds = .ok r → Produced r
  | addSecondsLong (t : CommonTime D) (seconds : Int) (r : CommonTime D) :
      Produced t → t.addSecondsLong seconds = .ok r → Produced r
  | addDays (t : CommonTime D) (days : Int) (r : CommonTime D) :
      Produced t → t.addDays days = .ok r → Produced r
  | addMilliseconds (t : CommonTime D) (ms : Int) (r : CommonTime D) :
      Produced t → t.addMilliseconds ms = .ok r → Produced r
  | operator_plus (t : CommonTime D) (seconds : D) (r : CommonTime D) :
      Produced t → t.operator_plus seconds = .ok r → Produced r
  | operator_minus (t : CommonTime D) (seconds : D) (r : CommonTime D) :
      Produced t → t.operator_minus seconds = .ok r → Produced r

end CommonTime

/-! ## stl_helpers.hpp -/

/-- The call `std::find(vec.begin(), vec.end(), value)`, as the distance of the
iterator it returns from `vec.begin()`: the position of the first element
equal to `value`, the size of the vector when there is none. -/
def std_find {T : Type} [DecidableEq T] : List T → T → Nat
  | [], _ => 0
  | x :: xs, value => if x = value then 0 else std_find xs value + 1

/-- The conversion `int(x)` of the difference of two iterators, a signed 64-bit
number, to a 32-bit `int`: the value modulo `2^32` in the range
`-2^31 .. 2^31 - 1`. -/
def asInt32 (x : Int) : Int := (x + 2 ^ 31) % 2 ^ 32 - 2 ^ 31

/-- The template `vectorindex(vec, value)`:
`it = std::find(...); if(it == vec.end()) return -1; return int(it - vec.begin());`. -/
def vectorindex {T : Type} [DecidableEq T] (vec : List T) (value : T) : Int :=
  if std_find vec value = vec.length then -1 else asInt32 (std_find vec value)

/-- One loop of `vec_notintersect`: the elements of the vector walked through that
`std::find` does not find in `other` are pushed to the back of `vinter`. -/
def pushMissing {T : Type} [DecidableEq T] (other : List T) : List T → List T → List T
  | [], vinter => vinter
  | x :: rest, vinter =>
    pushMissing other rest (if std_find other x = other.length then vinter ++ [x] else vinter)

/-- The template `vec_notintersect(v1, v2)`: the loop over `v1` against `v2`, then the
loop over `v2` against `v1`, both pushing to the same `vinter`. -/
def vec_notintersect {T : Type} [DecidableEq T] (v1 v2 : List T) : List T :=
  pushMissing v1 v2 (pushMissing v2 v1 [])

/-! ## mergePCodeWords.h -/

/-- The constant `gpstk::MAX_BIT` of `gpstkplatform.h`, which is not among the embedded
sources: the number of bits of a code word, 32. -/
def MAX_BIT : Int := 32

/-- The inline function `merge(w1, w2, first_bit)` on `uint32_t` words, held as natural
numbers below `2^32`: `outword = w1; if (first_bit==0) return(outword);
outword <<= first_bit; outword |= w2 >> (gpstk::MAX_BIT - first_bit);`, the left
shift keeping the low 32 bits.  A shift by a negative count or by 32 or more
has no defined result: the function is `none` there. -/
def merge (w1 w2 : Nat) (first_bit : Int) : Option Nat :=
  if first_bit = 0 then some w1
  else if first_bit < 0 ∨ 32 ≤ first_bit ∨ MAX_BIT - first_bit < 0 ∨ 32 ≤ MAX_BIT - first_bit then
    none
  else some (((w1 <<< first_bit.toNat) % 2 ^ 32) ||| (w2 >>> (MAX_BIT - first_bit).toNat))

/-! ## CommandLine

The class `CommandLine` of `CommandLine.hpp` and `CommandLine.cpp` (in the source
it is outside namespace `gpstk`).  Left out of the embedding: the targets
`p_output` of the options, which no branch reads except to print a default or
to toggle a `bool`, and the syntax page (`Usage`, `syntaxPage`,
`syntaxPageBuilt`, `optionsize`, `Option::syntax`, `BuildSyntaxPage`,
`SyntaxPage`), on which neither the return code nor `Errors` nor `Unrecog`
depends; `LOG(...)` lines write to the log only.  The exceptions that the
constructor of `RinexSatID` can raise in `Postprocess` are kept. -/

namespace CommandLine

/-- The enumeration `OptionTypeEnum`. -/
inductive typeOpt
  | typeUndefined | typeBool | typeInt | typeVectorInt | typeDouble | typeString
  | typeVectorString | typeSat | typeVectorSat | typeCount
  deriving DecidableEq, Repr

/-- The value of an enumerator: `typeUndefined=-1`, then counting from 0. -/
def typeOpt.toInt : typeOpt → Int
  | .typeUndefined => -1
  | .typeBool => 0
  | .typeInt => 1
  | .typeVectorInt => 2
  | .typeDouble => 3
  | .typeString => 4
  | .typeVectorString => 5
  | .typeSat => 6
  | .typeVectorSat => 7
  | .typeCount => 8

/-- The class `CommandLine::Option`, without `p_output` and `syntax`; `repeat_` is
the member `repeat`. -/
structure Opt where
  shortOpt : Char
  longOpt : String
  arg : String
  predesc : String
  desc : String
  repeat_ : Bool
  required : Bool
  expand : Bool
  toggle : Bool
  type : typeOpt
  doc : Bool
  values : List String
  deriving DecidableEq, Repr

/-- The constructor `Option(s, l, a, predes, des, rep, req, t, ptr, d)`, which sets
`expand = true` and `toggle = false`; `values` starts empty. -/
def Opt.ctor (s : Char) (l a predes des : String) (rep req : Bool) (t : typeOpt) (d : Bool) :
    Opt :=
  { shortOpt := s, longOpt := l, arg := a, predesc := predes, desc := des, repeat_ := rep,
    required := req, expand := true, toggle := false, type := t, doc := d, values := [] }

end CommandLine

/-- The member data of `CommandLine` that the processing reads or writes, and with
them the variables that live outside the object: the three `static` locals of
`PreProcessArgs` (`found_cfg_file`, `ignore_opts`, `ignore_once`) and the
reporting level of the logger, `ConfigureLOG::ReportingLevel()`.  The map
`deprec_opts` is the list of its entries. -/
structure CommandLine where
  help : Bool
  verbose : Bool
  helponly : Bool
  foundErrors : Bool
  requireOneArg : Bool
  debug : Int
  options : List CommandLine.Opt
  ignore_opts_with_arg : List String
  ignore_opts_without_arg : List String
  ignore_on_opts : List String
  ignore_off_opts : List String
  deprec_opts : List (String × String)
  found_cfg_file : Bool
  ignore_opts : Bool
  ignore_once : Bool
  ReportingLevel : Int
  deriving DecidableEq, Repr

namespace CommandLine

/-- The library code that `CommandLine.cpp` calls and that is not among the
embedded sources: the logger levels, `StringUtils`, the file system and
`expandtilde`, and the constructor of `RinexSatID` from a string.
`getlines filename` is `none` when the stream cannot be opened, otherwise the
successive buffers that `getline` delivers until the stream ends.
`stripFirstWord s d` is the word returned and the string left behind.
`words s d` are the successive non-empty results of `stripFirstWord(s, d)`
up to the first empty one.  `expand_list_file` is `none` when it returns
false, otherwise the values it appends. -/
structure CLEnv where
  Level : String → Int
  asInt : String → Int
  asString : Int → String
  firstWord : String → String
  stripFirstWord : String → Char → String × String
  stripTrailing : String → Char → String
  words : String → Char → List String
  getlines : String → Option (List String)
  isDigitString : String → Bool
  isScientificString : String → Bool
  expand_filename : String → String
  expand_list_file : String → Option (List String)
  RinexSatID : String → Except LibExn Unit

/-- The expression `s.substr(pos, len)` for `pos` not beyond the end. -/
def substr (s : String) (pos len : Nat) : String := String.mk ((s.toList.drop pos).take len)

/-- The expression `s.substr(pos)` for `pos` not beyond the end. -/
def substrFrom (s : String) (pos : Nat) : String := String.mk (s.toList.drop pos)

/-- The expression `s[i]` of a `std::string`: the null character at the end. -/
def charAt (s : String) (i : Nat) : Char := s.toList.getD i (Char.ofNat 0)

/-- The tag of the messages of `ValidateCommandLine`. -/
def tag : String := "Error (CommandLine): option "

/-- The inner loop `for(j=0; j<i; j++)` of `ValidateCommandLine`: the messages
that option `o` adds given the options declared before it. -/
def validateAgainstEarlier (o : Opt) : List Opt → List String
  | [] => []
  | p :: earlier =>
    (if o.longOpt = p.longOpt then [tag ++ "\x27" ++ o.longOpt ++ "\x27 is repeated.\n"]
      else []) ++
    (if o.shortOpt ≠ Char.ofNat 0 ∧ o.shortOpt = p.shortOpt then
        [tag ++ "\x27" ++ o.longOpt ++ "\x27 short form is already used in option \x27" ++
          p.longOpt ++ "\x27.\n"]
      else []) ++
    validateAgainstEarlier o earlier

/-- The body of the first loop of `ValidateCommandLine` for option `o` with the
options `earlier` declared before it. -/
def validateOption (c : CommandLine) (earlier : List Opt) (o : Opt) : List String :=
  (if vectorindex c.ignore_opts_with_arg ("--" ++ o.longOpt) ≠ -1 then
      [tag ++ o.longOpt ++ " (with arg) is both valid and to be ignored.\n"] else []) ++
  (if vectorindex c.ignore_opts_without_arg ("--" ++ o.longOpt) ≠ -1 then
      [tag ++ o.longOpt ++ " (w/o arg) is both valid and to be ignored.\n"] else []) ++
  (if vectorindex c.ignore_on_opts ("--" ++ o.longOpt) ≠ -1 then
      [tag ++ o.longOpt ++ " is both valid and an \x27ignore on\x27 option.\n"] else []) ++
  (if vectorindex c.ignore_off_opts ("--" ++ o.longOpt) ≠ -1 then
      [tag ++ o.longOpt ++ " is both valid and an \x27ignore off\x27 option.\n"] else []) ++
  validateAgainstEarlier o earlier

/-- The first loop of `ValidateCommandLine` over the options that remain. -/
def validateOptions (c : CommandLine) : List Opt → List Opt → List String
  | _, [] => []
  | earlier, o :: rest => validateOption c earlier o ++ validateOptions c (earlier ++ [o]) rest

/-- The loop over `deprec_opts` of `ValidateCommandLine`: a replacement must be
`--longOpt` or `-shortOpt` of a declared option. -/
def validateDeprecated (c : CommandLine) : List (String × String) → List String
  | [] => []
  | it :: rest =>
    (if c.options.any (fun o =>
          decide (it.2 = "--" ++ o.longOpt) || decide (it.2 = "-" ++ String.singleton o.shortOpt))
      then []
      else [tag ++ it.2 ++ ", the replacement for deprecated option " ++ it.1 ++
        ", is not found.\n"]) ++
    validateDeprecated c rest

/-- The function `CommandLine::ValidateCommandLine(msg)`: the message and the value
returned.  Every statement that writes a message to `oss` also sets `isValid`
to false, and nothing else does: the messages are kept as a list, the
returned string is their concatenation and `isValid` tells that the list is
empty. -/
def ValidateCommandLine (c : CommandLine) : String × Bool :=
  let msgs := validateOptions c [] c.options ++ validateDeprecated c c.deprec_opts
  (String.join msgs, msgs.isEmpty)

/-- The loop over the buffer of one line of an options file in `PreProcessArgs`;
`again` is the local `again_cfg_file` and `call` the recursive call
`PreProcessArgs(word.c_str(), Args, Errors)`.  The result is `none` when the
loop has not ended after `fuel` rounds. -/
def fileBuffer (env : CLEnv)
    (call : String → CommandLine × List String → Option (CommandLine × List String)) :
    Nat → String → Bool → CommandLine × List String →
      Option (Bool × (CommandLine × List String))
  | 0, _, _, _ => none
  | fuel + 1, buffer, again, st =>
    if buffer = "" then some (again, st)
    else
      let word := env.firstWord buffer
      if again then
        match call ("-f" ++ word) st with
        | none => none
        | some st2 => fileBuffer env call fuel (env.stripFirstWord buffer ' ').2 false st2
      else if charAt word 0 = '#' then
        fileBuffer env call fuel (env.stripFirstWord "" ' ').2 again st
      else if word = "--file" ∨ word = "-f" then
        fileBuffer env call fuel (env.stripFirstWord buffer ' ').2 true st
      else if charAt word 0 = '"' then
        match call (env.stripFirstWord buffer '"').1 st with
        | none => none
        | some st2 =>
          fileBuffer env call fuel
            (env.stripFirstWord ("dummy " ++ (env.stripFirstWord buffer '"').2) ' ').2 again st2
      else
        match call word st with
        | none => none
        | some st2 => fileBuffer env call fuel (env.stripFirstWord buffer ' ').2 again st2

/-- The loop `while(1)` over the lines of an options file in `PreProcessArgs`. -/
def fileLines (env : CLEnv)
    (call : String → CommandLine × List String → Option (CommandLine × List String))
    (fuel : Nat) :
    List String → Bool → CommandLine × List String → Option (CommandLine × List String)
  | [], _, st => some st
  | line :: rest, again, st =>
    match fileBuffer env call fuel (env.stripTrailing line '\r') again st with
    | none => none
    | some r => fileLines env call fuel rest r.1 r.2

/-- The function `CommandLine::PreProcessArgs(in_arg, Args, Errors)`, which never
writes `Errors`.  An options file can name itself, so the recursion is
bounded by `fuel`, and the result is `none` when `fuel` does not suffice. -/
def PreProcessArgs (env : CLEnv) :
    Nat → String → CommandLine × List String → Option (CommandLine × List String)
  | 0, _, _ => none
  | fuel + 1, in_arg, (c, Args) =>
    if in_arg = "" then some (c, Args)
    else if c.ignore_once then some ({ c with ignore_once := false }, Args)
    else if in_arg ∈ c.ignore_opts_without_arg then some (c, Args)
    else if in_arg ∈ c.ignore_opts_with_arg then some ({ c with ignore_once := true }, Args)
    else if in_arg ∈ c.ignore_on_opts then some ({ c with ignore_opts := true }, Args)
    else if in_arg ∈ c.ignore_off_opts then some ({ c with ignore_opts := false }, Args)
    else if c.ignore_opts then some (c, Args)
    else if in_arg = "--file" ∨ in_arg = "-f" then some ({ c with found_cfg_file := true }, Args)
    else if c.found_cfg_file = true ∨ (charAt in_arg 0 = '-' ∧ charAt in_arg 1 = 'f') then
      let filename := if c.found_cfg_file then in_arg else substrFrom in_arg 2
      let c1 := { c with found_cfg_file := false }
      match env.getlines filename with
      | none => some (c1, Args)
      | some lines =>
        match fileLines env (PreProcessArgs env fuel) fuel lines false (c1, Args) with
        | none => none
        | some (c2, Args2) => some ({ c2 with ignore_opts := false }, Args2)
    else if in_arg = "-h" ∨ in_arg = "--help" then some ({ c with help := true }, Args)
    else if substr in_arg 0 2 = "-d" ∨ substr in_arg 0 7 = "--debug" then
      let debug : Int :=
        if in_arg = "-d" ∨ in_arg = "--debug" then 0
        else env.asInt (if charAt in_arg 1 = 'd' then substrFrom in_arg 2 else substrFrom in_arg 7)
      if 0 ≤ debug ∧ debug ≤ 7 then
        some ({ c with debug := debug, verbose := true,
                       ReportingLevel :=
                         env.Level (if debug > 0 then "DEBUG" ++ env.asString debug
                                    else "DEBUG") }, Args)
      else some ({ c with debug := debug }, Args)
    else if in_arg = "-v" ∨ in_arg = "--verbose" then
      some ({ c with verbose := true,
                     ReportingLevel :=
                       if c.debug = -1 then env.Level "VERBOSE" else c.ReportingLevel }, Args)
    else
      match c.deprec_opts.lookup in_arg with
      | some replacement => some (c, Args ++ [replacement])
      | none => some (c, Args ++ [in_arg])

/-- The loop `for(j=1; j<argc; j++) PreProcessArgs(argv[j],Args,Errors)`. -/
def preProcessAll (env : CLEnv) (fuel : Nat) :
    List String → CommandLine × List String → Option (CommandLine × List String)
  | [], st => some st
  | a :: rest, st =>
    match PreProcessArgs env fuel a st with
    | none => none
    | some st2 => preProcessAll env fuel rest st2

/-- The test of `Parse` that argument `arg` names option `o`: `-c` with the short
form, or `--name` with the long one. -/
def matchesOption (arg : String) (o : Opt) : Bool :=
  (decide (arg.length = 2) && decide (charAt arg 0 = '-') &&
      decide (charAt arg 1 = o.shortOpt)) ||
    (decide (substr arg 0 2 = "--") && decide (substrFrom arg 2 = o.longOpt))

/-- The value of `j` after the loop `for(j=0; j<options.size(); ++j)` of `Parse`: the
index of the first option that `arg` names, `options.size()` when there is
none. -/
def findOption (arg : String) : List Opt → Nat
  | [] => 0
  | o :: rest => if matchesOption arg o then 0 else findOption arg rest + 1

/-- The statement `options[j].values.push_back(val)`. -/
def pushValue : List Opt → Nat → String → List Opt
  | [], _, _ => []
  | o :: rest, 0, val => { o with values := o.values ++ [val] } :: rest
  | o :: rest, j + 1, val => o :: pushValue rest j val

/-- The first loop of `Parse`, over the arguments that remain (the last argument,
`i == Args.size()-1`, apart): an option of a type above `typeBool` takes the
next argument as its value unless there is none or it starts with `--`; an
argument that names no option goes to `Unrecog`. -/
def parseArgs : List String → List Opt → String → List String →
    List Opt × String × List String
  | [], options, Errors, Unrecog => (options, Errors, Unrecog)
  | [arg], options, Errors, Unrecog =>
    match options.get? (findOption arg options) with
    | none => (options, Errors, Unrecog ++ [arg])
    | some o =>
      if o.type.toInt > typeOpt.typeBool.toInt then
        (options, Errors ++ "Error - option " ++ arg ++ " without value.\n", Unrecog)
      else (pushValue options (findOption arg options) "T", Errors, Unrecog)
  | arg :: val :: rest, options, Errors, Unrecog =>
    match options.get? (findOption arg options) with
    | none => parseArgs (val :: rest) options Errors (Unrecog ++ [arg])
    | some o =>
      if o.type.toInt > typeOpt.typeBool.toInt then
        if substr val 0 2 = "--" then
          parseArgs (val :: rest) options
            (Errors ++ "Error - option " ++ arg ++ " without value.\n") Unrecog
        else parseArgs rest (pushValue options (findOption arg options) val) Errors Unrecog
      else parseArgs (val :: rest) (pushValue options (findOption arg options) "T") Errors Unrecog

/-- The start of the body of the second loop of `Parse`: the options named `help`,
`verbose` and `debug` get a value from what `PreProcessArgs` found. -/
def parseSpecial (env : CLEnv) (c : CommandLine) (o : Opt) : Opt :=
  if c.help = true ∧ o.longOpt = "help" then { o with values := o.values ++ ["T"] }
  else if c.verbose = true ∧ o.longOpt = "verbose" then { o with values := o.values ++ ["T"] }
  else if c.debug > -1 ∧ o.longOpt = "debug" then
    { o with values := o.values ++ [env.asString c.debug] }
  else o

/-- The end of the body of the second loop of `Parse`: what option `o` adds to
`Errors`. -/
def parseCheck (o : Opt) : String :=
  (if o.required = true ∧ o.values.length = 0 then
      "Required option " ++ o.longOpt ++ " is not found.\n" else "") ++
  (if o.repeat_ = false ∧ o.values.length > 1 then
      "Not-repeatable option " ++ o.longOpt ++ " was repeated.\n" else "")

/-- The second loop of `Parse`. -/
def parseChecks (env : CLEnv) (c : CommandLine) : List Opt → String → List Opt × String
  | [], Errors => ([], Errors)
  | o :: rest, Errors =>
    let r := parseChecks env c rest (Errors ++ parseCheck (parseSpecial env c o))
    (parseSpecial env c o :: r.1, r.2)

/-- The function `CommandLine::Parse(Args, Errors, Unrecog)`. -/
def Parse (env : CLEnv) (c : CommandLine) (Args : List String) (Errors : String)
    (Unrecog : List String) : CommandLine × String × List String :=
  let r := parseArgs Args c.options Errors Unrecog
  let r2 := parseChecks env c r.1 r.2.1
  ({ c with options := r2.1 }, r2.2, r.2.2)

/-- The inner loop of `expand_args` over the pieces of one value: a piece that
starts with `@` names a list file. -/
def expandPieces (env : CLEnv) : List String → List String × String → List String × String
  | [], r => r
  | arg :: rest, (newvalues, msg) =>
    if substr arg 0 1 = "@" then
      match env.expand_list_file (env.expand_filename (substrFrom arg 1)) with
      | none =>
        expandPieces env rest
          (newvalues, msg ++ "  Error - Argument list file " ++
            env.expand_filename (substrFrom arg 1) ++ " could not be opened.")
      | some vs => expandPieces env rest (newvalues ++ vs, msg)
    else expandPieces env rest (newvalues ++ [arg], msg)

/-- The function `expand_args(oldvalues, newvalues, msg)`: the values split on
commas, list files read. -/
def expand_args (env : CLEnv) : List String → List String × String → List String × String
  | [], r => r
  | v :: rest, r => expand_args env rest (expandPieces env (env.words v ',') r)

/-- The constructor `RinexSatID(values[k])` called for each value in turn. -/
def checkSats (env : CLEnv) : List String → Except LibExn Unit
  | [] => pure ()
  | v :: rest => env.RinexSatID v >>= fun _ => checkSats env rest

/-- What the values that are not integers add to `oss` for a `typeVectorInt`. -/
def checkInts (env : CLEnv) (longOpt : String) : List String → String
  | [] => ""
  | v :: rest =>
    (if env.isDigitString v then ""
      else "Error: non-integer value for --" ++ longOpt ++ ": " ++ v ++ "\n") ++
    checkInts env longOpt rest

/-- The body of the loop of `Postprocess` for option `o`: the locals `errStr` (which
is never cleared) and `oss` afterwards, or the exception of `RinexSatID`. -/
def postOption (env : CLEnv) (o : Opt) (errStr oss : String) : Except LibExn (String × String) :=
  if o.values.length = 0 then pure (errStr, oss)
  else if o.type = .typeBool then pure (errStr, oss)
  else
    let expanding : Bool := o.expand &&
      (decide (o.type = .typeVectorString) || decide (o.type = .typeVectorSat) ||
        decide (o.type = .typeVectorInt))
    let ex := expand_args env o.values ([], errStr)
    let values := if expanding then ex.1 else o.values
    let errStr2 := if expanding then ex.2 else errStr
    let oss2 := if expanding ∧ errStr2 ≠ "" then
        oss ++ errStr2 ++ " for option --" ++ o.longOpt ++ "\n" else oss
    match o.type with
    | .typeInt =>
      pure (errStr2,
        if env.isDigitString (values.headD "") then oss2
        else oss2 ++ "Error: non-integer value for --" ++ o.longOpt ++ ": " ++
          values.headD "" ++ "\n")
    | .typeVectorInt => pure (errStr2, oss2 ++ checkInts env o.longOpt values)
    | .typeDouble =>
      pure (errStr2,
        if env.isScientificString (values.headD "") then oss2
        else oss2 ++ "Error: invalid value for --" ++ o.longOpt ++ ": " ++
          values.headD "" ++ "\n")
    | .typeSat => env.RinexSatID (values.headD "") >>= fun _ => pure (errStr2, oss2)
    | .typeVectorSat => checkSats env values >>= fun _ => pure (errStr2, oss2)
    | _ => pure (errStr2, oss2)

/-- The loop of `Postprocess` over the options. -/
def postOptions (env : CLEnv) : List Opt → String → String → Except LibExn (String × String)
  | [], errStr, oss => pure (errStr, oss)
  | o :: rest, errStr, oss =>
    postOption env o errStr oss >>= fun r => postOptions env rest r.1 r.2

/-- The function `CommandLine::Postprocess(Errors, Unrecog)`: the new `Errors`
(`Errors += oss.str()`), or the exception. -/
def Postprocess (env : CLEnv) (c : CommandLine) (Errors : String) : Except LibExn String :=
  postOptions env c.options "" "" >>= fun r => pure (Errors ++ r.2)

/-- What a call of `ProcessCommandLine` leaves: the object, the strings `Errors` and
`Unrecog` of the caller, and the value returned. -/
structure Processed where
  c : CommandLine
  Errors : String
  Unrecog : List String
  code : Int
  deriving DecidableEq, Repr

/-- The start of `ProcessCommandLine`: `debug` follows a reporting level of `DEBUG`
or above that the caller has set, and `helponly = foundErrors = false`. -/
def preliminaries (env : CLEnv) (c : CommandLine) : CommandLine :=
  { (if c.ReportingLevel ≥ env.Level "DEBUG" then
      { c with debug := c.ReportingLevel - 4 } else c) with
    helponly := false, foundErrors := false }

/-- The function `CommandLine::ProcessCommandLine(argc, argv, PrgmDesc, Usage,
Errors, Unrecog)`, with the arguments `argv[1]`, ... as `args` (so `argc` is one
more than the length of `args`).  The result is `none` when `fuel` does not
suffice for an options file, `error` when `Postprocess` raises an
exception. -/
def ProcessCommandLine (env : CLEnv) (fuel : Nat) (c : CommandLine) (args : List String) :
    Option (Except LibExn Processed) :=
  let c2 := preliminaries env c
  if (ValidateCommandLine c2).2 = false then
    some (.ok { c := c2, Errors := (ValidateCommandLine c2).1, Unrecog := [], code := -3 })
  else
    let c3 := if args.length + 1 = 1 ∧ c2.requireOneArg = true then
        { c2 with helponly := true } else c2
    match preProcessAll env fuel args (c3, []) with
    | none => none
    | some (c4, Args) =>
      let c5 := if (c4.requireOneArg = true ∧ Args.length = 0) ∨ c4.helponly = true then
          { c4 with help := true } else c4
      let r := Parse env c5 Args "" []
      match Postprocess env r.1 r.2.1 with
      | .error e => some (.error e)
      | .ok Errors =>
        if r.1.help then some (.ok { c := r.1, Errors := Errors, Unrecog := r.2.2, code := 1 })
        else if Errors ≠ "" then
          some (.ok { c := { r.1 with foundErrors := true }, Errors := Errors,
                      Unrecog := r.2.2, code := -1 })
        else some (.ok { c := r.1, Errors := Errors, Unrecog := r.2.2, code := 0 })

/-- The constructor `CommandLine()`: `help(false), debug(-1), verbose(false),
requireOneArg(true)`, the lists empty; `helponly` and `foundErrors` are not
initialized and are taken as given, like the reporting level of the logger;
the `static` locals of `PreProcessArgs` start as false. -/
def ctor (helponly foundErrors : Bool) (ReportingLevel : Int) : CommandLine :=
  { help := false, verbose := false, helponly := helponly, foundErrors := foundErrors,
    requireOneArg := true, debug := -1, options := [], ignore_opts_with_arg := [],
    ignore_opts_without_arg := [], ignore_on_opts := [], ignore_off_opts := [],
    deprec_opts := [], found_cfg_file := false, ignore_opts := false, ignore_once := false,
    ReportingLevel := ReportingLevel }

/-- The eight overloads of `CommandLine::Add`, which differ in the type of the
target and so in the `typeOpt` handed to the constructor of `Option`. -/
def Add (c : CommandLine) (t : typeOpt) (s : Char) (l a : String) (rep req : Bool)
    (predes des : String) (doc : Bool) : CommandLine :=
  { c with options := c.options ++ [Opt.ctor s l a predes des rep req t doc] }

/-- Splitting on a delimiter: the non-empty runs between delimiters. -/
def splitChars (d : Char) : List Char → List Char → List String
  | [], cur => if cur = [] then [] else [String.mk cur]
  | x :: xs, cur =>
    if x = d then (if cur = [] then splitChars d xs [] else String.mk cur :: splitChars d xs [])
    else splitChars d xs (cur ++ [x])

/-- A plain environment to run `ProcessCommandLine` in: the levels of the logger from
`VERBOSE` = 3 and `DEBUG` = 4 up, words split on the delimiter, no file that
can be opened, integers as runs of digits with an optional sign, real
numbers as integers with an optional fraction, and satellite identifiers
of three characters. -/
def plainEnv : CLEnv :=
  { Level := fun s =>
      if s = "VERBOSE" then 3
      else if substr s 0 5 = "DEBUG" then 4 + Ref.asInt (substrFrom s 5)
      else 2,
    asInt := Ref.asInt,
    asString := fun n => toString n,
    firstWord := fun s => (splitChars ' ' s.toList []).headD "",
    stripFirstWord := fun s d =>
      ((splitChars d s.toList []).headD "",
       String.mk (((s.toList.dropWhile (fun x => x = d)).dropWhile (fun x => x ≠ d)).dropWhile
         (fun x => x = d))),
    stripTrailing := fun s d => String.mk ((s.toList.reverse.dropWhile (fun x => x = d)).reverse),
    words := fun s d => splitChars d s.toList [],
    getlines := fun _ => none,
    isDigitString := fun s =>
      match s.toList with
      | [] => false
      | x :: xs =>
        if x = '-' ∨ x = '+' then !xs.isEmpty && xs.all Char.isDigit
        else (x :: xs).all Char.isDigit,
    isScientificString := fun s =>
      !s.isEmpty && s.toList.all (fun x => x.isDigit || x = '.' || x = '-' || x = '+'),
    expand_filename := fun s => s,
    expand_list_file := fun _ => none,
    RinexSatID := fun s =>
      if s.length = 3 then pure ()
      else .error { kind := .Exception, text := "invalid satellite identifier" } }

/-- A program with one required option `--input <file>` (short form `-i`), a string. -/
def needsInput : CommandLine :=
  Add (ctor false false 2) .typeString 'i' "input" "file" false true "" "Input file" true

/-- The plain environment with one options file, `opts`, of two lines. -/
def withOptionsFile : CLEnv :=
  { plainEnv with
    getlines := fun f =>
      if f = "opts" then some ["--input a.obs # the input", "-v"] else none }

end CommandLine

namespace CommandLine

/-- The options an argument list names, in the words of the specification: the arguments
are read from the left as the first loop of `Parse` reads them, an argument in
its `--name` or `-c` form names the first declared option it matches, and the
argument that such an option of a type above `typeBool` takes as its value
(the next one, unless it starts with `--`) names nothing.  The result lists
the indices of the options named, in order. -/
def namedOptions (options : List Opt) : List String → List Nat
  | [] => []
  | [arg] =>
    match options.get? (findOption arg options) with
    | none => []
    | some _ => [findOption arg options]
  | arg :: val :: rest =>
    match options.get? (findOption arg options) with
    | none => namedOptions options (val :: rest)
    | some o =>
      if o.type.toInt > typeOpt.typeBool.toInt then
        if substr val 0 2 = "--" then
          findOption arg options :: namedOptions options (val :: rest)
        else findOption arg options :: namedOptions options rest
      else findOption arg options :: namedOptions options (val :: rest)

/-- The number of values option `j` holds. -/
def valuesOf (options : List Opt) (j : Nat) : Nat :=
  match options.get? j with
  | none => 0
  | some o => o.values.length

/-- An option as declared: without the values found so far. -/
def Opt.declared (o : Opt) : Opt := { o with values := [] }

/-- The argument list `name value name value ...` of an option given several times,
each time followed by a value. -/
def withValues (name : String) : List String → List String
  | [] => []
  | v :: rest => name :: v :: withValues name rest

end CommandLine
namespace CommandLine

/-- A program with one repeatable option `--input <file>` (short form `-i`), a vector
of strings. -/
def manyInputs : CommandLine :=
  Add (ctor false false 2) .typeVectorString 'i' "input" "file" true false "" "Input files"
    true

end CommandLine
/-- Indeterminate values that happen to be in range: what the uninitialised locals of
`mixedScanTime` hold in a run where the stack is not zeroed. -/
def staleValues : Indeterminate Int :=
  { isow := 0, isod := 0, isec := 0, iweek := 7, ifullweek := 1234, idow := 3,
    iyear := 1999, imonth := 5, iday := 17, izcount := 0, idoy := 100,
    izcount29 := 0, ihour := 1, imin := 2, iepoch := 1 }

/-- The first description of the new full week in the claim on `setModWeek`, said of
a week `r`: it is one of the three candidates `W - W mod M + n - M`,
`W - W mod M + n`, `W - W mod M + n + M`, no candidate is nearer to `W`, and
no candidate as near is lower ("the lower candidate on a tie"). -/
def NearestLowerCandidate (M W n r : Int) : Prop :=
  (r = W - W % M + n - M ∨ r = W - W % M + n ∨ r = W - W % M + n + M) ∧
  ∀ c : Int, c = W - W % M + n - M ∨ c = W - W % M + n ∨ c = W - W % M + n + M →
    |r - W| ≤ |c - W| ∧ (|c - W| = |r - W| → r ≤ c)

/-! # Theorems -/

/-! ## The loop of scanTime: every flag in terms of the codes of the map -/

theorem IdToValue.hasAny_nil (info : IdToValue) : info.hasAny [] = false := by
  simp [IdToValue.hasAny]

theorem IdToValue.hasAny_cons (info : IdToValue) (c : Char) (cs : List Char) :
    info.hasAny (c :: cs) = (info.has c || info.hasAny cs) := by
  induction info with
  | nil => simp [IdToValue.hasAny, IdToValue.has]
  | cons e l ih =>
    simp only [IdToValue.hasAny, IdToValue.has, List.any_cons] at ih ⊢
    rw [ih, List.contains_cons]
    have hbeq : (e.1 == c) = decide (e.1 = c) := rfl
    rw [hbeq]
    generalize decide (e.1 = c) = a
    generalize List.contains cs e.1 = b
    generalize (l.any fun e => decide (e.1 = c)) = x
    generalize (l.any fun e => cs.contains e.1) = y
    cases a <;> cases b <;> cases x <;> cases y <;> rfl

/-- One turn of the loop sets a flag exactly on the codes of its `case` labels. -/
theorem scanCase_flags {D : Type} (env : Env D) (s : ScanState D) (c : Char) (v : String) :
    (scanCase env s c v).hmjd = (s.hmjd || ['Q'].contains c)
    ∧ (scanCase env s c v).hsow = (s.hsow || ['g'].contains c)
    ∧ (scanCase env s c v).hweek = (s.hweek || ['G', 'e', 'l', 'i', 'o'].contains c)
    ∧ (scanCase env s c v).hfullweek = (s.hfullweek || ['F', 'D', 'L', 'h', 'O'].contains c)
    ∧ (scanCase env s c v).hyear = (s.hyear || ['Y', 'y'].contains c)
    ∧ (scanCase env s c v).hmonth = (s.hmonth || ['b', 'B', 'm'].contains c)
    ∧ (scanCase env s c v).hday = (s.hday || ['d'].contains c)
    ∧ (scanCase env s c v).hzcount = (s.hzcount || ['Z', 'z'].contains c)
    ∧ (scanCase env s c v).hdoy = (s.hdoy || ['j'].contains c)
    ∧ (scanCase env s c v).hzcount29 = (s.hzcount29 || ['c'].contains c)
    ∧ (scanCase env s c v).hzcount32 = (s.hzcount32 || ['C'].contains c)
    ∧ (scanCase env s c v).hhour = (s.hhour || ['H'].contains c)
    ∧ (scanCase env s c v).hmin = (s.hmin || ['M'].contains c)
    ∧ (scanCase env s c v).hsec = (s.hsec || ['S', 'f'].contains c)
    ∧ (scanCase env s c v).hsod = (s.hsod || ['s'].contains c)
    ∧ (scanCase env s c v).hunixsec = (s.hunixsec || ['U'].contains c)
    ∧ (scanCase env s c v).hunixusec = (s.hunixusec || ['u'].contains c)
    ∧ (scanCase env s c v).hepoch = (s.hepoch || ['E', 'R', 'T', 'V', 'X'].contains c)
    ∧ (scanCase env s c v).hansi = (s.hansi || ['K'].contains c)
    ∧ (scanCase env s c v).hjulian = (s.hjulian || ['J'].contains c)
    ∧ (scanCase env s c v).hbdsw = (s.hbdsw || ['e'].contains c)
    ∧ (scanCase env s c v).hqzsw = (s.hqzsw || ['i'].contains c)
    ∧ (scanCase env s c v).hgalw = (s.hgalw || ['l'].contains c)
    ∧ (scanCase env s c v).hirnw = (s.hirnw || ['o'].contains c)
    ∧ (scanCase env s c v).hbdsfw = (s.hbdsfw || ['D'].contains c)
    ∧ (scanCase env s c v).hqzsfw = (s.hqzsfw || ['h'].contains c)
    ∧ (scanCase env s c v).hgalfw = (s.hgalfw || ['L'].contains c)
    ∧ (scanCase env s c v).hirnfw = (s.hirnfw || ['O'].contains c)
    ∧ (scanCase env s c v).hbdse = (s.hbdse || ['R'].contains c)
    ∧ (scanCase env s c v).hqzse = (s.hqzse || ['V'].contains c)
    ∧ (scanCase env s c v).hgale = (s.hgale || ['T'].contains c)
    ∧ (scanCase env s c v).hirne = (s.hirne || ['X'].contains c)
    ∧ (scanCase env s c v).hposixsec = (s.hposixsec || ['W'].contains c)
    ∧ (scanCase env s c v).hposixnsec = (s.hposixnsec || ['N'].contains c) := by
  unfold scanCase
  split <;> (try split) <;> simp_all

theorem scanFold_flag {D : Type} (env : Env D) (proj : ScanState D → Bool) (codes : List Char)
    (hstep : ∀ s c v, proj (scanCase env s c v) = (proj s || codes.contains c)) :
    ∀ (l : IdToValue) (s : ScanState D),
      proj (l.foldl (fun s e => scanCase env s e.1 e.2) s) = (proj s || IdToValue.hasAny l codes) := by
  intro l
  induction l with
  | nil => intro s; simp [IdToValue.hasAny]
  | cons e l ih =>
    intro s
    simp only [List.foldl_cons, ih, hstep, IdToValue.hasAny, List.any_cons, Bool.or_assoc]

theorem scanLoop_hmjd {D : Type} (env : Env D) (t : CommonTime D) (info : IdToValue) :
    (scanLoop env t info).hmjd = (info.has 'Q') := by
  have h := scanFold_flag env (fun s => s.hmjd) ['Q'] (fun s c v => (scanCase_flags env s c v).1) info
    (ScanState.start t info)
  simpa [scanLoop, ScanState.start, IdToValue.hasAny_cons, IdToValue.hasAny_nil, Bool.or_assoc] using h

theorem scanLoop_hsow {D : Type} (env : Env D) (t : CommonTime D) (info : IdToValue) :
    (scanLoop env t info).hsow = (info.has 'g') := by
  have h := scanFold_flag env (fun s => s.hsow) ['g'] (fun s c v => (scanCase_flags env s c v).2.1) info
    (ScanState.start t info)
  simpa [scanLoop, ScanState.start, IdToValue.hasAny_cons, IdToValue.hasAny_nil, Bool.or_assoc] using h

theorem scanLoop_hweek {D : Type} (env : Env D) (t : CommonTime D) (info : IdToValue) :
    (scanLoop env t info).hweek = (info.has 'G' || info.has 'e' || info.has 'l' || info.has 'i' || info.has 'o') := by
  have h := scanFold_flag env (fun s => s.hweek) ['G', 'e', 'l', 'i', 'o'] (fun s c v => (scanCase_flags env s c v).2.2.1) info
    (ScanState.start t info)
  simpa [scanLoop, ScanState.start, IdToValue.hasAny_cons, IdToValue.hasAny_nil, Bool.or_assoc] using h

theorem scanLoop_hfullweek {D : Type} (env : Env D) (t : CommonTime D) (info : IdToValue) :
    (scanLoop env t info).hfullweek = (info.has 'F' || info.has 'D' || info.has 'L' || info.has 'h' || info.has 'O') := by
  have h := scanFold_flag env (fun s => s.hfullweek) ['F', 'D', 'L', 'h', 'O'] (fun s c v => (scanCase_flags env s c v).2.2.2.1) info
    (ScanState.start t info)
  simpa [scanLoop, ScanState.start, IdToValue.hasAny_cons, IdToValue.hasAny_nil, Bool.or_assoc] using h

theorem scanLoop_hyear {D : Type} (env : Env D) (t : CommonTime D) (info : IdToValue) :
    (scanLoop env t info).hyear = (info.has 'Y' || info.has 'y') := by
  have h := scanFold_flag env (fun s => s.hyear) ['Y', 'y'] (fun s c v => (scanCase_flags env s c v).2.2.2.2.1) info
    (ScanState.start t info)
  simpa [scanLoop, ScanState.start, IdToValue.hasAny_cons, IdToValue.hasAny_nil, Bool.or_assoc] using h

theorem scanLoop_hmonth {D : Type} (env : Env D) (t : CommonTime D) (info : IdToValue) :
    (scanLoop env t info).hmonth = (info.has 'b' || info.has 'B' || info.has 'm') := by
  have h := scanFold_flag env (fun s => s.hmonth) ['b', 'B', 'm'] (fun s c v => (scanCase_flags env s c v).2.2.2.2.2.1) info
    (ScanState.start t info)
  simpa [scanLoop, ScanState.start, IdToValue.hasAny_cons, IdToValue.hasAny_nil, Bool.or_assoc] using h

theorem scanLoop_hday {D : Type} (env : Env D) (t : CommonTime D) (info : IdToValue) :
    (scanLoop env t info).hday = (info.has 'd') := by
  have h := scanFold_flag env (fun s => s.hday) ['d'] (fun s c v => (scanCase_flags env s c v).2.2.2.2.2.2.1) info
    (ScanState.start t info)
  simpa [scanLoop, ScanState.start, IdToValue.hasAny_cons, IdToValue.hasAny_nil, Bool.or_assoc] using h

theorem scanLoop_hzcount {D : Type} (env : Env D) (t : CommonTime D) (info : IdToValue) :
    (scanLoop env t info).hzcount = (info.has 'Z' || info.has 'z') := by
  have h := scanFold_flag env (fun s => s.hzcount) ['Z', 'z'] (fun s c v => (scanCase_flags env s c v).2.2.2.2.2.2.2.1) info
    (ScanState.start t info)
  simpa [scanLoop, ScanState.start, IdToValue.hasAny_cons, IdToValue.hasAny_nil, Bool.or_assoc] using h

theorem scanLoop_hdoy {D : Type} (env : Env D) (t : CommonTime D) (info : IdToValue) :
    (scanLoop env t info).hdoy = (info.has 'j') := by
  have h := scanFold_flag env (fun s => s.hdoy) ['j'] (fun s c v => (scanCase_flags env s c v).2.2.2.2.2.2.2.2.1) info
    (ScanState.start t info)
  simpa [scanLoop, ScanState.start, IdToValue.hasAny_cons, IdToValue.hasAny_nil, Bool.or_assoc] using h

theorem scanLoop_hzcount29 {D : Type} (env : Env D) (t : CommonTime D) (info : IdToValue) :
    (scanLoop env t info).hzcount29 = (info.has 'c') := by
  have h := scanFold_flag env (fun s => s.hzcount29) ['c'] (fun s c v => (scanCase_flags env s c v).2.2.2.2.2.2.2.2.2.1) info
    (ScanState.start t info)
  simpa [scanLoop, ScanState.start, IdToValue.hasAny_cons, IdToValue.hasAny_nil, Bool.or_assoc] using h

theorem scanLoop_hzcount32 {D : Type} (env : Env D) (t : CommonTime D) (info : IdToValue) :
    (scanLoop env t info).hzcount32 = (info.has 'C') := by
  have h := scanFold_flag env (fun s => s.hzcount32) ['C'] (fun s c v => (scanCase_flags env s c v).2.2.2.2.2.2.2.2.2.2.1) info
    (ScanState.start t info)
  simpa [scanLoop, ScanState.start, IdToValue.hasAny_cons, IdToValue.hasAny_nil, Bool.or_assoc] using h

theorem scanLoop_hhour {D : Type} (env : Env D) (t : CommonTime D) (info : IdToValue) :
    (scanLoop env t info).hhour = (info.has 'H') := by
  have h := scanFold_flag env (fun s => s.hhour) ['H'] (fun s c v => (scanCase_flags env s c v).2.2.2.2.2.2.2.2.2.2.2.1) info
    (ScanState.start t info)
  simpa [scanLoop, ScanState.start, IdToValue.hasAny_cons, IdToValue.hasAny_nil, Bool.or_assoc] using h

theorem scanLoop_hmin {D : Type} (env : Env D) (t : CommonTime D) (info : IdToValue) :
    (scanLoop env t info).hmin = (info.has 'M') := by
  have h := scanFold_flag env (fun s => s.hmin) ['M'] (fun s c v => (scanCase_flags env s c v).2.2.2.2.2.2.2.2.2.2.2.2.1) info
    (ScanState.start t info)
  simpa [scanLoop, ScanState.start, IdToValue.hasAny_cons, IdToValue.hasAny_nil, Bool.or_assoc] using h

theorem scanLoop_hsec {D : Type} (env : Env D) (t : CommonTime D) (info : IdToValue) :
    (scanLoop env t info).hsec = (info.has 'S' || info.has 'f') := by
  have h := scanFold_flag env (fun s => s.hsec) ['S', 'f'] (fun s c v => (scanCase_flags env s c v).2.2.2.2.2.2.2.2.2.2.2.2.2.1) info
    (ScanState.start t info)
  simpa [scanLoop, ScanState.start, IdToValue.hasAny_cons, IdToValue.hasAny_nil, Bool.or_assoc] using h

theorem scanLoop_hsod {D : Type} (env : Env D) (t : CommonTime D) (info : IdToValue) :
    (scanLoop env t info).hsod = (info.has 's') := by
  have h := scanFold_flag env (fun s => s.hsod) ['s'] (fun s c v => (scanCase_flags env s c v).2.2.2.2.2.2.2.2.2.2.2.2.2.2.1) info
    (ScanState.start t info)
  simpa [scanLoop, ScanState.start, IdToValue.hasAny_cons, IdToValue.hasAny_nil, Bool.or_assoc] using h

theorem scanLoop_hunixsec {D : Type} (env : Env D) (t : CommonTime D) (info : IdToValue) :
    (scanLoop env t info).hunixsec = (info.has 'U') := by
  have h := scanFold_flag env (fun s => s.hunixsec) ['U'] (fun s c v => (scanCase_flags env s c v).2.2.2.2.2.2.2.2.2.2.2.2.2.2.2.1) info
    (ScanState.start t info)
  simpa [scanLoop, ScanState.start, IdToValue.hasAny_cons, IdToValue.hasAny_nil, Bool.or_assoc] using h

theorem scanLoop_hunixusec {D : Type} (env : Env D) (t : CommonTime D) (info : IdToValue) :
    (scanLoop env t info).hunixusec = (info.has 'u') := by
  have h := scanFold_flag env (fun s => s.hunixusec) ['u'] (fun s c v => (scanCase_flags env s c v).2.2.2.2.2.2.2.2.2.2.2.2.2.2.2.2.1) info
    (ScanState.start t info)
  simpa [scanLoop, ScanState.start, IdToValue.hasAny_cons, IdToValue.hasAny_nil, Bool.or_assoc] using h

theorem scanLoop_hepoch {D : Type} (env : Env D) (t : CommonTime D) (info : IdToValue) :
    (scanLoop env t info).hepoch = (info.has 'E' || info.has 'R' || info.has 'T' || info.has 'V' || info.has 'X') := by
  have h := scanFold_flag env (fun s => s.hepoch) ['E', 'R', 'T', 'V', 'X'] (fun s c v => (scanCase_flags env s c v).2.2.2.2.2.2.2.2.2.2.2.2.2.2.2.2.2.1) info
    (ScanState.start t info)
  simpa [scanLoop, ScanState.start, IdToValue.hasAny_cons, IdToValue.hasAny_nil, Bool.or_assoc] using h

theorem scanLoop_hansi {D : Type} (env : Env D) (t : CommonTime D) (info : IdToValue) :
    (scanLoop env t info).hansi = (info.has 'K') := by
  have h := scanFold_flag env (fun s => s.hansi) ['K'] (fun s c v => (scanCase_flags env s c v).2.2.2.2.2.2.2.2.2.2.2.2.2.2.2.2.2.2.1) info
    (ScanState.start t info)
  simpa [scanLoop, ScanState.start, IdToValue.hasAny_cons, IdToValue.hasAny_nil, Bool.or_assoc] using h

theorem scanLoop_hjulian {D : Type} (env : Env D) (t : CommonTime D) (info : IdToValue) :
    (scanLoop env t info).hjulian = (info.has 'J') := by
  have h := scanFold_flag env (fun s => s.hjulian) ['J'] (fun s c v => (scanCase_flags env s c v).2.2.2.2.2.2.2.2.2.2.2.2.2.2.2.2.2.2.2.1) info
    (ScanState.start t info)
  simpa [scanLoop, ScanState.start, IdToValue.hasAny_cons, IdToValue.hasAny_nil, Bool.or_assoc] using h

theorem scanLoop_hbdsw {D : Type} (env : Env D) (t : CommonTime D) (info : IdToValue) :
    (scanLoop env t info).hbdsw = (info.has 'e') := by
  have h := scanFold_flag env (fun s => s.hbdsw) ['e'] (fun s c v => (scanCase_flags env s c v).2.2.2.2.2.2.2.2.2.2.2.2.2.2.2.2.2.2.2.2.1) info
    (ScanState.start t info)
  simpa [scanLoop, ScanState.start, IdToValue.hasAny_cons, IdToValue.hasAny_nil, Bool.or_assoc] using h

theorem scanLoop_hqzsw {D : Type} (env : Env D) (t : CommonTime D) (info : IdToValue) :
    (scanLoop env t info).hqzsw = (info.has 'i') := by
  have h := scanFold_flag env (fun s => s.hqzsw) ['i'] (fun s c v => (scanCase_flags env s c v).2.2.2.2.2.2.2.2.2.2.2.2.2.2.2.2.2.2.2.2.2.1) info
    (ScanState.start t info)
  simpa [scanLoop, ScanState.start, IdToValue.hasAny_cons, IdToValue.hasAny_nil, Bool.or_assoc] using h

theorem scanLoop_hgalw {D : Type} (env : Env D) (t : CommonTime D) (info : IdToValue) :
    (scanLoop env t info).hgalw = (info.has 'l') := by
  have h := scanFold_flag env (fun s => s.hgalw) ['l'] (fun s c v => (scanCase_flags env s c v).2.2.2.2.2.2.2.2.2.2.2.2.2.2.2.2.2.2.2.2.2.2.1) info
    (ScanState.start t info)
  simpa [scanLoop, ScanState.start, IdToValue.hasAny_cons, IdToValue.hasAny_nil, Bool.or_assoc] using h

theorem scanLoop_hirnw {D : Type} (env : Env D) (t : CommonTime D) (info : IdToValue) :
    (scanLoop env t info).hirnw = (info.has 'o') := by
  have h := scanFold_flag env (fun s => s.hirnw) ['o'] (fun s c v => (scanCase_flags env s c v).2.2.2.2.2.2.2.2.2.2.2.2.2.2.2.2.2.2.2.2.2.2.2.1) info
    (ScanState.start t info)
  simpa [scanLoop, ScanState.start, IdToValue.hasAny_cons, IdToValue.hasAny_nil, Bool.or_assoc] using h

theorem scanLoop_hbdsfw {D : Type} (env : Env D) (t : CommonTime D) (info : IdToValue) :
    (scanLoop env t info).hbdsfw = (info.has 'D') := by
  have h := scanFold_flag env (fun s => s.hbdsfw) ['D'] (fun s c v => (scanCase_flags env s c v).2.2.2.2.2.2.2.2.2.2.2.2.2.2.2.2.2.2.2.2.2.2.2.2.1) info
    (ScanState.start t info)
  simpa [scanLoop, ScanState.start, IdToValue.hasAny_cons, IdToValue.hasAny_nil, Bool.or_assoc] using h

theorem scanLoop_hqzsfw {D : Type} (env : Env D) (t : CommonTime D) (info : IdToValue) :
    (scanLoop env t info).hqzsfw = (info.has 'h') := by
  have h := scanFold_flag env (fun s => s.hqzsfw) ['h'] (fun s c v => (scanCase_flags env s c v).2.2.2.2.2.2.2.2.2.2.2.2.2.2.2.2.2.2.2.2.2.2.2.2.2.1) info
    (ScanState.start t info)
  simpa [scanLoop, ScanState.start, IdToValue.hasAny_cons, IdToValue.hasAny_nil, Bool.or_assoc] using h

theorem scanLoop_hgalfw {D : Type} (env : Env D) (t : CommonTime D) (info : IdToValue) :
    (scanLoop env t info).hgalfw = (info.has 'L') := by
  have h := scanFold_flag env (fun s => s.hgalfw) ['L'] (fun s c v => (scanCase_flags env s c v).2.2.2.2.2.2.2.2.2.2.2.2.2.2.2.2.2.2.2.2.2.2.2.2.2.2.1) info
    (ScanState.start t info)
  simpa [scanLoop, ScanState.start, IdToValue.hasAny_cons, IdToValue.hasAny_nil, Bool.or_assoc] using h

theorem scanLoop_hirnfw {D : Type} (env : Env D) (t : CommonTime D) (info : IdToValue) :
    (scanLoop env t info).hirnfw = (info.has 'O') := by
  have h := scanFold_flag env (fun s => s.hirnfw) ['O'] (fun s c v => (scanCase_flags env s c v).2.2.2.2.2.2.2.2.2.2.2.2.2.2.2.2.2.2.2.2.2.2.2.2.2.2.2.1) info
    (ScanState.start t info)
  simpa [scanLoop, ScanState.start, IdToValue.hasAny_cons, IdToValue.hasAny_nil, Bool.or_assoc] using h

theorem scanLoop_hbdse {D : Type} (env : Env D) (t : CommonTime D) (info : IdToValue) :
    (scanLoop env t info).hbdse = (info.has 'R') := by
  have h := scanFold_flag env (fun s => s.hbdse) ['R'] (fun s c v => (scanCase_flags env s c v).2.2.2.2.2.2.2.2.2.2.2.2.2.2.2.2.2.2.2.2.2.2.2.2.2.2.2.2.1) info
    (ScanState.start t info)
  simpa [scanLoop, ScanState.start, IdToValue.hasAny_cons, IdToValue.hasAny_nil, Bool.or_assoc] using h

theorem scanLoop_hqzse {D : Type} (env : Env D) (t : CommonTime D) (info : IdToValue) :
    (scanLoop env t info).hqzse = (info.has 'V') := by
  have h := scanFold_flag env (fun s => s.hqzse) ['V'] (fun s c v => (scanCase_flags env s c v).2.2.2.2.2.2.2.2.2.2.2.2.2.2.2.2.2.2.2.2.2.2.2.2.2.2.2.2.2.1) info
    (ScanState.start t info)
  simpa [scanLoop, ScanState.start, IdToValue.hasAny_cons, IdToValue.hasAny_nil, Bool.or_assoc] using h

theorem scanLoop_hgale {D : Type} (env : Env D) (t : CommonTime D) (info : IdToValue) :
    (scanLoop env t info).hgale = (info.has 'T') := by
  have h := scanFold_flag env (fun s => s.hgale) ['T'] (fun s c v => (scanCase_flags env s c v).2.2.2.2.2.2.2.2.2.2.2.2.2.2.2.2.2.2.2.2.2.2.2.2.2.2.2.2.2.2.1) info
    (ScanState.start t info)
  simpa [scanLoop, ScanState.start, IdToValue.hasAny_cons, IdToValue.hasAny_nil, Bool.or_assoc] using h

theorem scanLoop_hirne {D : Type} (env : Env D) (t : CommonTime D) (info : IdToValue) :
    (scanLoop env t info).hirne = (info.has 'X') := by
  have h := scanFold_flag env (fun s => s.hirne) ['X'] (fun s c v => (scanCase_flags env s c v).2.2.2.2.2.2.2.2.2.2.2.2.2.2.2.2.2.2.2.2.2.2.2.2.2.2.2.2.2.2.2.1) info
    (ScanState.start t info)
  simpa [scanLoop, ScanState.start, IdToValue.hasAny_cons, IdToValue.hasAny_nil, Bool.or_assoc] using h

theorem scanLoop_hposixsec {D : Type} (env : Env D) (t : CommonTime D) (info : IdToValue) :
    (scanLoop env t info).hposixsec = (info.has 'W') := by
  have h := scanFold_flag env (fun s => s.hposixsec) ['W'] (fun s c v => (scanCase_flags env s c v).2.2.2.2.2.2.2.2.2.2.2.2.2.2.2.2.2.2.2.2.2.2.2.2.2.2.2.2.2.2.2.2.1) info
    (ScanState.start t info)
  simpa [scanLoop, ScanState.start, IdToValue.hasAny_cons, IdToValue.hasAny_nil, Bool.or_assoc] using h

theorem scanLoop_hposixnsec {D : Type} (env : Env D) (t : CommonTime D) (info : IdToValue) :
    (scanLoop env t info).hposixnsec = (info.has 'N') := by
  have h := scanFold_flag env (fun s => s.hposixnsec) ['N'] (fun s c v => (scanCase_flags env s c v).2.2.2.2.2.2.2.2.2.2.2.2.2.2.2.2.2.2.2.2.2.2.2.2.2.2.2.2.2.2.2.2.2) info
    (ScanState.start t info)
  simpa [scanLoop, ScanState.start, IdToValue.hasAny_cons, IdToValue.hasAny_nil, Bool.or_assoc] using h

/-! ## The code map after the loop -/

theorem IdToValue.at_assign_ne (info : IdToValue) (c d : Char) (v : String) (h : c ≠ d) :
    (info.assign c v).at d = info.at d := by
  induction info with
  | nil => simp [IdToValue.assign, IdToValue.at, IdToValue.find, h]
  | cons e l ih =>
    obtain ⟨k, w⟩ := e
    unfold IdToValue.assign
    by_cases hk : k = c
    · subst hk
      simp [IdToValue.at, IdToValue.find, List.find?_cons, h]
    · by_cases hlt : c < k
      · simp [hk, hlt, IdToValue.at, IdToValue.find, List.find?_cons, h]
      · simp only [hk, hlt, if_false]
        simp only [IdToValue.at, IdToValue.find, List.find?_cons] at ih ⊢
        by_cases hd : (k == d) = true
        · simp [hd]
        · simp only [hd]
          exact ih

theorem IdToValue.assign_assign (info : IdToValue) (c : Char) (v : String) :
    (info.assign c v).assign c v = info.assign c v := by
  induction info with
  | nil => simp [IdToValue.assign]
  | cons e l ih =>
    obtain ⟨k, w⟩ := e
    by_cases hk : k = c
    · simp [IdToValue.assign, hk]
    · by_cases hlt : c < k
      · simp [IdToValue.assign, hk, hlt]
      · simp [IdToValue.assign, hk, hlt, ih]

theorem scanCase_info {D : Type} (env : Env D) (s : ScanState D) (c : Char) (v : String) :
    (scanCase env s c v).info =
      if c = 'f' then s.info.assign 'S' (s.info.at 'f') else s.info := by
  unfold scanCase
  split <;> (try split) <;> simp_all

theorem scanFold_info {D : Type} (env : Env D) (info : IdToValue) :
    ∀ (l : IdToValue) (s : ScanState D),
      (s.info = info ∨ s.info = info.assign 'S' (info.at 'f')) →
      (l.foldl (fun s e => scanCase env s e.1 e.2) s).info =
        if l.has 'f' then info.assign 'S' (info.at 'f') else s.info := by
  intro l
  induction l with
  | nil => intro s _; simp [IdToValue.has]
  | cons e l ih =>
    intro s hs
    simp only [List.foldl_cons]
    have hstep := scanCase_info env s e.1 e.2
    by_cases hf : e.1 = 'f'
    · have hA : (scanCase env s e.1 e.2).info = info.assign 'S' (info.at 'f') := by
        rw [hstep, if_pos hf]
        rcases hs with hs | hs
        · rw [hs]
        · rw [hs, IdToValue.at_assign_ne _ _ _ _ (by decide), IdToValue.assign_assign]
      rw [ih _ (Or.inr hA), hA]
      simp [IdToValue.has, hf]
    · have hS : (scanCase env s e.1 e.2).info = s.info := by
        rw [hstep, if_neg hf]
      have hdec : decide (e.1 = 'f') = false := by simp [hf]
      rw [ih _ (hS ▸ hs), hS]
      simp only [IdToValue.has, List.any_cons, hdec, Bool.false_or]

/-- The map `scanTime` passes on is the extracted one, with the text of `f` stored
under `S` when the code `f` is present. -/
theorem scanLoop_info {D : Type} (env : Env D) (t : CommonTime D) (info : IdToValue) :
    (scanLoop env t info).info = scanInfo info := by
  have h := scanFold_info env info info (ScanState.start t info) (Or.inl rfl)
  simpa [scanLoop, scanInfo, ScanState.start] using h

theorem scanInfo_at_ne (info : IdToValue) (d : Char) (h : 'S' ≠ d) :
    (scanInfo info).at d = info.at d := by
  unfold scanInfo
  split
  · exact IdToValue.at_assign_ne _ _ _ _ h
  · rfl

/-! ## The chain of ifs of scanTime, in terms of the codes of the map -/

theorem weekVariant_scanLoop {D : Type} (env : Env D) (t : CommonTime D) (info : IdToValue) :
    weekVariant (scanLoop env t info) = weekPrecedence info := by
  simp only [weekVariant, weekPrecedence, scanLoop_hbdse, scanLoop_hbdsfw, scanLoop_hbdsw,
    scanLoop_hqzse, scanLoop_hqzsfw, scanLoop_hqzsw, scanLoop_hgale, scanLoop_hgalfw,
    scanLoop_hgalw, scanLoop_hirne, scanLoop_hirnfw, scanLoop_hirnw,
    bdsCodes, qzsCodes, galCodes, irnCodes, IdToValue.hasAny_cons, IdToValue.hasAny_nil,
    Bool.or_false, Bool.or_assoc]

/-- The chain of `if`s selects by the resolution order of the specification. -/
theorem selectVariant_scanLoop {D : Type} (env : Env D) (t : CommonTime D) (info : IdToValue) :
    selectVariant (scanLoop env t info) = resolution info := by
  simp only [selectVariant, resolution, standAlone, zcountRule, weekRule,
    weekVariant_scanLoop, scanLoop_hyear, scanLoop_hmonth, scanLoop_hday, scanLoop_hzcount32,
    scanLoop_hfullweek, scanLoop_hzcount, scanLoop_hzcount29, scanLoop_hepoch, scanLoop_hweek,
    scanLoop_hmjd, scanLoop_hjulian, scanLoop_hansi, scanLoop_hunixsec, scanLoop_hunixusec,
    scanLoop_hposixsec, scanLoop_hposixnsec,
    yearCodes, monthCodes, fullWeekCodes, zcountCodes, epochCodes, modWeekCodes,
    IdToValue.hasAny_cons, IdToValue.hasAny_nil, Bool.or_false, Bool.or_assoc]

theorem scanTime_eq {D : Type} (env : Env D) (t : CommonTime D) (str fmt : String)
    (info : IdToValue) (hinfo : env.getInfo str fmt = .ok info) :
    (scanTime env t str fmt).result =
      match resolution info with
      | none => .error .incompleteSpecification
      | some v => scanBuild env (scanLoop env t info) v := by
  simp only [scanTime, hinfo, scanTimeInfo, selectVariant_scanLoop]
  cases resolution info with
  | none => rfl
  | some v =>
    simp only
    cases scanBuild env (scanLoop env t info) v <;> rfl

/-- C1. `scanTime(CommonTime&, str, fmt)`, rule 1: when the extracted map has a year
code (`Y` or `y`), a month code (`m`, `b` or `B`) and the day code `d`, the
outcome is that of converting to `CommonTime` the `CivilTime` which
`setFromInfo` populated from the map the function holds (the extracted one,
with `info['S'] = info['f']` done when `f` is present), whatever other codes
are in the map; and when `s` is in the map, hour, minute and second of that
`CivilTime` are first overwritten with what `convertSODtoTime` derives from
the `s` text. -/
theorem scanTime_civil_rule {D : Type} (env : Env D) (t : CommonTime D) (str fmt : String)
    (info : IdToValue) (hinfo : env.getInfo str fmt = .ok info)
    (hyear : info.hasAny yearCodes = true) (hmonth : info.hasAny monthCodes = true)
    (hday : info.has 'd' = true) :
    (scanTime env t str fmt).result =
      (lib (env.civil.setFromInfo env.civil.ctor (scanInfo info)) >>= fun r =>
        lib (env.civil.convertToCommonTime
          (if info.has 's' = true then
            { r.1 with
              hour := (env.convertSODtoTime (env.asDouble (info.at 's'))).1
              minute := (env.convertSODtoTime (env.asDouble (info.at 's'))).2.1
              second := (env.convertSODtoTime (env.asDouble (info.at 's'))).2.2 }
          else r.1))) := by
  rw [scanTime_eq env t str fmt info hinfo]
  simp only [resolution, hyear, hmonth, hday, Bool.and_self, if_true, scanBuild, scanCivil,
    scanLoop_info, scanLoop_hsod, scanInfo_at_ne info 's' (by decide)]
  cases lib (env.civil.setFromInfo env.civil.ctor (scanInfo info)) with
  | error e => rfl
  | ok r => cases info.has 's' <;> rfl

/-- C2. `scanTime(CommonTime&, str, fmt)`, rule 2: when the extracted map has a year
code and not both a month code and the day code (in particular when month and
day are absent), the outcome is that of converting to `CommonTime` the
`YDSTime` which `setFromInfo` populated from the map the function holds; its
seconds of day are overwritten with `convertTimeToSOD(H, M, S)` exactly when
the hour code `H`, the minute code `M` and a second code (`S` or `f`) are all
present, and otherwise left as `setFromInfo` set them. -/
theorem scanTime_yds_rule {D : Type} (env : Env D) (t : CommonTime D) (str fmt : String)
    (info : IdToValue) (hinfo : env.getInfo str fmt = .ok info)
    (hyear : info.hasAny yearCodes = true)
    (hmd : (info.hasAny monthCodes && info.has 'd') = false) :
    (scanTime env t str fmt).result =
      (lib (env.yds.setFromInfo env.yds.ctor (scanInfo info)) >>= fun r =>
        lib (env.yds.convertToCommonTime
          (if (info.has 'H' && info.has 'M' && info.hasAny secondCodes) = true then
            { r.1 with
              sod := env.convertTimeToSOD (env.asInt (info.at 'H')) (env.asInt (info.at 'M'))
                (env.asDouble ((scanInfo info).at 'S')) }
          else r.1))) := by
  rw [scanTime_eq env t str fmt info hinfo]
  simp only [resolution, hyear, hmd, if_true, scanBuild, scanYDS,
    scanLoop_info, scanLoop_hhour, scanLoop_hmin, scanLoop_hsec, secondCodes,
    IdToValue.hasAny_cons, IdToValue.hasAny_nil, Bool.or_false,
    scanInfo_at_ne info 'H' (by decide), scanInfo_at_ne info 'M' (by decide)]
  cases lib (env.yds.setFromInfo env.yds.ctor (scanInfo info)) with
  | error e => rfl
  | ok r => cases (info.has 'H' && info.has 'M' && (info.has 'S' || info.has 'f')) <;> rfl

/-- C3 (amended). `scanTime(CommonTime&, str, fmt)`, rule 3: for a map without a year
code the instant is built from `GPSWeekZcount` if and only if the map has the
32-bit Z-count code `C`, or a full-week code together with a Z-count code
(`z`, `Z` or the 29-bit `c`), or an epoch code together with either the 29-bit
Z-count `c` alone or both a mod-week code and a Z-count code `z`/`Z`; and then
the outcome is that of converting the `GPSWeekZcount` set from the map. -/
theorem scanTime_zcount_rule {D : Type} (env : Env D) (t : CommonTime D) (str fmt : String)
    (info : IdToValue) (hinfo : env.getInfo str fmt = .ok info)
    (hyear : info.hasAny yearCodes = false) :
    (selectVariant (scanLoop env t info) = some .WeekZcount ↔
      (info.has 'C' = true ∨
       (info.hasAny fullWeekCodes = true ∧ (info.hasAny zcountCodes = true ∨ info.has 'c' = true)) ∨
       (info.hasAny epochCodes = true ∧
         (info.has 'c' = true ∨
          (info.hasAny modWeekCodes = true ∧ info.hasAny zcountCodes = true))))) ∧
    (selectVariant (scanLoop env t info) = some .WeekZcount →
      (scanTime env t str fmt).result =
        (lib (env.zcount.setFromInfo env.zcount.ctor (scanInfo info)) >>= fun r =>
          lib (env.zcount.convertToCommonTime r.1))) := by
  have hz : (zcountRule info = true) ↔
      (info.has 'C' = true ∨
       (info.hasAny fullWeekCodes = true ∧ (info.hasAny zcountCodes = true ∨ info.has 'c' = true)) ∨
       (info.hasAny epochCodes = true ∧
         (info.has 'c' = true ∨
          (info.hasAny modWeekCodes = true ∧ info.hasAny zcountCodes = true)))) := by
    simp only [zcountRule, Bool.or_eq_true, Bool.and_eq_true, or_assoc]
  have hw : weekPrecedence info ≠ .WeekZcount := by
    unfold weekPrecedence
    repeat' split
    all_goals simp
  have hs : ∀ v, standAlone info = some v → v ≠ .WeekZcount := by
    intro v
    unfold standAlone
    repeat' split
    all_goals simp
    all_goals (intro h; subst h; simp)
  rw [scanTime_eq env t str fmt info hinfo, selectVariant_scanLoop, ← hz]
  simp only [resolution, hyear, Bool.false_eq_true, if_false]
  by_cases hzr : zcountRule info = true
  · simp [hzr, scanBuild, scanLoop_info]
  · have hzf : zcountRule info = false := by simpa using hzr
    simp only [hzf, Bool.false_eq_true, if_false]
    have hne : (if weekRule info = true then some (weekPrecedence info) else standAlone info)
        ≠ some Variant.WeekZcount := by
      split
      · intro h; exact hw (Option.some.inj h)
      · intro h; exact hs _ h rfl
    exact ⟨⟨fun h => absurd h hne, False.elim⟩, fun h => absurd h hne⟩

/-- On a map that satisfies the week rule, the Z-count rule of the code and the
wording of the specification agree. -/
theorem zcountRule_eq_asClaimed (info : IdToValue) (hw : weekRule info = true) :
    zcountRule info = zcountRuleAsClaimed info := by
  unfold weekRule at hw
  unfold zcountRule zcountRuleAsClaimed
  revert hw
  cases info.has 'C' <;> cases info.hasAny fullWeekCodes <;> cases info.hasAny zcountCodes <;>
    cases info.has 'c' <;> cases info.hasAny epochCodes <;> cases info.hasAny modWeekCodes <;>
    simp

theorem weekOps_weekPrecedence {D : Type} (env : Env D) (info : IdToValue) :
    weekOps env (weekPrecedence info) =
      if info.hasAny bdsCodes = true then env.bds
      else if info.hasAny qzsCodes = true then env.qzs
      else if info.hasAny galCodes = true then env.gal
      else if info.hasAny irnCodes = true then env.irn
      else env.gps := by
  unfold weekPrecedence
  repeat' split
  all_goals rfl

theorem scanBuild_week {D : Type} (env : Env D) (s : ScanState D) (info : IdToValue) :
    scanBuild env s (weekPrecedence info) =
      (scanWeek env s (weekPrecedence info) >>= fun ptt =>
        lib ((weekOps env (weekPrecedence info)).convertToCommonTime ptt)) := by
  unfold weekPrecedence
  repeat' split
  all_goals rfl

/-- C4. `scanTime(CommonTime&, str, fmt)`, rule 4: when the extracted map has no year
code, does not satisfy the Z-count rule, and has a full-week code or both an
epoch code and a mod-week code, the instant is built from a week-and-seconds
class chosen by this precedence: BeiDou if one of `R`, `D`, `e` is present,
else QZSS (`V`, `h`, `i`), else Galileo (`T`, `L`, `l`), else IRNSS (`X`, `O`,
`o`), else GPS; the outcome is that of converting the object of that class set
from the map.  The Z-count rule may be read as the code tests it (`zcountRule`)
or as the specification words it (`zcountRuleAsClaimed`): on these maps the two
agree. -/
theorem scanTime_week_rule {D : Type} (env : Env D) (t : CommonTime D) (str fmt : String)
    (info : IdToValue) (hinfo : env.getInfo str fmt = .ok info)
    (hyear : info.hasAny yearCodes = false)
    (hzcount : zcountRule info = false ∨ zcountRuleAsClaimed info = false)
    (hweek : info.hasAny fullWeekCodes = true ∨
      (info.hasAny epochCodes = true ∧ info.hasAny modWeekCodes = true)) :
    selectVariant (scanLoop env t info) = some (weekPrecedence info) ∧
    weekPrecedence info =
      (if info.hasAny ['R', 'D', 'e'] = true then Variant.BDSWeek
       else if info.hasAny ['V', 'h', 'i'] = true then Variant.QZSWeek
       else if info.hasAny ['T', 'L', 'l'] = true then Variant.GALWeek
       else if info.hasAny ['X', 'O', 'o'] = true then Variant.IRNWeek
       else Variant.GPSWeek) ∧
    weekOps env (weekPrecedence info) =
      (if info.hasAny ['R', 'D', 'e'] = true then env.bds
       else if info.hasAny ['V', 'h', 'i'] = true then env.qzs
       else if info.hasAny ['T', 'L', 'l'] = true then env.gal
       else if info.hasAny ['X', 'O', 'o'] = true then env.irn
       else env.gps) ∧
    (scanTime env t str fmt).result =
      (scanWeek env (scanLoop env t info) (weekPrecedence info) >>= fun ptt =>
        lib ((weekOps env (weekPrecedence info)).convertToCommonTime ptt)) := by
  have hw : weekRule info = true := by
    unfold weekRule
    rcases hweek with h | ⟨h1, h2⟩
    · simp [h]
    · simp [h1, h2]
  have hz : zcountRule info = false := by
    rcases hzcount with h | h
    · exact h
    · rw [zcountRule_eq_asClaimed info hw]
      exact h
  have hres : resolution info = some (weekPrecedence info) := by
    simp [resolution, hyear, hz, hw]
  refine ⟨?_, rfl, weekOps_weekPrecedence env info, ?_⟩
  · rw [selectVariant_scanLoop, hres]
  · rw [scanTime_eq env t str fmt info hinfo, hres]
    exact scanBuild_week env _ info

theorem except_bind_eq_ok {ε α β : Type} (x : Except ε α) (f : α → Except ε β) (b : β) :
    (x >>= f) = .ok b ↔ ∃ a, x = .ok a ∧ f a = .ok b := by
  cases x with
  | ok a => simp [bind, Except.bind]
  | error e => simp [bind, Except.bind]

/-- One turn of the loop that completes sets a flag exactly on the codes of its
`case` labels. -/
theorem mixedCase_flags {D : Type} (env : Env D) (info : IdToValue) (s s2 : MixedState D)
    (c : Char) (v : String) (h : mixedCase env info s c v = .ok s2) :
    s2.hsow = (s.hsow || ['g'].contains c)
    ∧ s2.hweek = (s.hweek || ['G', 'e', 'l', 'i', 'o'].contains c)
    ∧ s2.hfullweek = (s.hfullweek || ['F', 'D', 'L', 'I', 'O'].contains c)
    ∧ s2.hdow = (s.hdow || ['w', 'a', 'A'].contains c)
    ∧ s2.hyear = (s.hyear || ['Y', 'y'].contains c)
    ∧ s2.hmonth = (s.hmonth || ['b', 'B', 'm'].contains c)
    ∧ s2.hday = (s.hday || ['d'].contains c)
    ∧ s2.hzcount = (s.hzcount || ['z', 'Z'].contains c)
    ∧ s2.hdoy = (s.hdoy || ['j'].contains c)
    ∧ s2.hzcount29 = (s.hzcount29 || ['c'].contains c)
    ∧ s2.hhour = (s.hhour || ['H'].contains c)
    ∧ s2.hmin = (s.hmin || ['M'].contains c)
    ∧ s2.hsec = (s.hsec || ['S', 'f'].contains c)
    ∧ s2.hsod = (s.hsod || ['s'].contains c)
    ∧ s2.hepoch = (s.hepoch || ['E', 'R', 'T', 'V', 'X'].contains c)
    ∧ s2.hbdsw = (s.hbdsw || ['e'].contains c)
    ∧ s2.hqzsw = (s.hqzsw || ['i'].contains c)
    ∧ s2.hgalw = (s.hgalw || ['l'].contains c)
    ∧ s2.hirnw = (s.hirnw || ['o'].contains c)
    ∧ s2.hbdsfw = (s.hbdsfw || ['D'].contains c)
    ∧ s2.hqzsfw = (s.hqzsfw || ['I'].contains c)
    ∧ s2.hgalfw = (s.hgalfw || ['L'].contains c)
    ∧ s2.hirnfw = (s.hirnfw || ['O'].contains c)
    ∧ s2.hbdse = (s.hbdse || ['R'].contains c)
    ∧ s2.hqzse = (s.hqzse || ['V'].contains c)
    ∧ s2.hgale = (s.hgale || ['T'].contains c)
    ∧ s2.hirne = (s.hirne || ['X'].contains c) := by
  unfold mixedCase at h
  split at h
  all_goals (try split at h)
  all_goals (try split at h)
  all_goals simp only [except_bind_eq_ok, pure, Except.pure, throw, throwThe,
    MonadExceptOf.throw, Except.ok.injEq, reduceCtorEq] at h
  all_goals first
    | (subst h; simp; done)
    | (obtain ⟨_, _, h⟩ := h; subst h; simp)
    | (obtain ⟨_, _, _, _, h⟩ := h; subst h; simp)
    | (subst h; simp_all)

theorem mixedLoop_flag {D : Type} (env : Env D) (info : IdToValue)
    (proj : MixedState D → Bool) (codes : List Char)
    (hstep : ∀ s s2 c v, mixedCase env info s c v = .ok s2 →
      proj s2 = (proj s || codes.contains c)) :
    ∀ (l : IdToValue) (s s2 : MixedState D), mixedLoop env info l s = (s2, none) →
      proj s2 = (proj s || IdToValue.hasAny l codes) := by
  intro l
  induction l with
  | nil =>
    intro s s2 h
    simp only [mixedLoop, Prod.mk.injEq, and_true] at h
    subst h
    simp [IdToValue.hasAny]
  | cons e l ih =>
    intro s s2 h
    simp only [mixedLoop] at h
    cases hc : mixedCase env info s e.1 e.2 with
    | error x => simp [hc] at h
    | ok s1 =>
      simp only [hc] at h
      rw [ih s1 s2 h, hstep s s1 e.1 e.2 hc]
      simp only [IdToValue.hasAny, List.any_cons, Bool.or_assoc]

theorem mixedLoop_hsow {D : Type} (env : Env D) (u : Indeterminate D) (t : CommonTime D)
    (info : IdToValue) (s : MixedState D)
    (h : mixedLoop env info info (MixedState.start t u) = (s, none)) :
    s.hsow = info.hasAny ['g'] := by
  have h2 := mixedLoop_flag env info (fun s => s.hsow) ['g']
    (fun s s2 c v hc => (mixedCase_flags env info s s2 c v hc).1) info _ s h
  simpa [MixedState.start] using h2

theorem mixedLoop_hweek {D : Type} (env : Env D) (u : Indeterminate D) (t : CommonTime D)
    (info : IdToValue) (s : MixedState D)
    (h : mixedLoop env info info (MixedState.start t u) = (s, none)) :
    s.hweek = info.hasAny ['G', 'e', 'l', 'i', 'o'] := by
  have h2 := mixedLoop_flag env info (fun s => s.hweek) ['G', 'e', 'l', 'i', 'o']
    (fun s s2 c v hc => (mixedCase_flags env info s s2 c v hc).2.1) info _ s h
  simpa [MixedState.start] using h2

theorem mixedLoop_hfullweek {D : Type} (env : Env D) (u : Indeterminate D) (t : CommonTime D)
    (info : IdToValue) (s : MixedState D)
    (h : mixedLoop env info info (MixedState.start t u) = (s, none)) :
    s.hfullweek = info.hasAny ['F', 'D', 'L', 'I', 'O'] := by
  have h2 := mixedLoop_flag env info (fun s => s.hfullweek) ['F', 'D', 'L', 'I', 'O']
    (fun s s2 c v hc => (mixedCase_flags env info s s2 c v hc).2.2.1) info _ s h
  simpa [MixedState.start] using h2

theorem mixedLoop_hdow {D : Type} (env : Env D) (u : Indeterminate D) (t : CommonTime D)
    (info : IdToValue) (s : MixedState D)
    (h : mixedLoop env info info (MixedState.start t u) = (s, none)) :
    s.hdow = info.hasAny ['w', 'a', 'A'] := by
  have h2 := mixedLoop_flag env info (fun s => s.hdow) ['w', 'a', 'A']
    (fun s s2 c v hc => (mixedCase_flags env info s s2 c v hc).2.2.2.1) info _ s h
  simpa [MixedState.start] using h2

theorem mixedLoop_hyear {D : Type} (env : Env D) (u : Indeterminate D) (t : CommonTime D)
    (info : IdToValue) (s : MixedState D)
    (h : mixedLoop env info info (MixedState.start t u) = (s, none)) :
    s.hyear = info.hasAny ['Y', 'y'] := by
  have h2 := mixedLoop_flag env info (fun s => s.hyear) ['Y', 'y']
    (fun s s2 c v hc => (mixedCase_flags env info s s2 c v hc).2.2.2.2.1) info _ s h
  simpa [MixedState.start] using h2

theorem mixedLoop_hmonth {D : Type} (env : Env D) (u : Indeterminate D) (t : CommonTime D)
    (info : IdToValue) (s : MixedState D)
    (h : mixedLoop env info info (MixedState.start t u) = (s, none)) :
    s.hmonth = info.hasAny ['b', 'B', 'm'] := by
  have h2 := mixedLoop_flag env info (fun s => s.hmonth) ['b', 'B', 'm']
    (fun s s2 c v hc => (mixedCase_flags env info s s2 c v hc).2.2.2.2.2.1) info _ s h
  simpa [MixedState.start] using h2

theorem mixedLoop_hday {D : Type} (env : Env D) (u : Indeterminate D) (t : CommonTime D)
    (info : IdToValue) (s : MixedState D)
    (h : mixedLoop env info info (MixedState.start t u) = (s, none)) :
    s.hday = info.hasAny ['d'] := by
  have h2 := mixedLoop_flag env info (fun s => s.hday) ['d']
    (fun s s2 c v hc => (mixedCase_flags env info s s2 c v hc).2.2.2.2.2.2.1) info _ s h
  simpa [MixedState.start] using h2

theorem mixedLoop_hzcount {D : Type} (env : Env D) (u : Indeterminate D) (t : CommonTime D)
    (info : IdToValue) (s : MixedState D)
    (h : mixedLoop env info info (MixedState.start t u) = (s, none)) :
    s.hzcount = info.hasAny ['z', 'Z'] := by
  have h2 := mixedLoop_flag env info (fun s => s.hzcount) ['z', 'Z']
    (fun s s2 c v hc => (mixedCase_flags env info s s2 c v hc).2.2.2.2.2.2.2.1) info _ s h
  simpa [MixedState.start] using h2

theorem mixedLoop_hdoy {D : Type} (env : Env D) (u : Indeterminate D) (t : CommonTime D)
    (info : IdToValue) (s : MixedState D)
    (h : mixedLoop env info info (MixedState.start t u) = (s, none)) :
    s.hdoy = info.hasAny ['j'] := by
  have h2 := mixedLoop_flag env info (fun s => s.hdoy) ['j']
    (fun s s2 c v hc => (mixedCase_flags env info s s2 c v hc).2.2.2.2.2.2.2.2.1) info _ s h
  simpa [MixedState.start] using h2

theorem mixedLoop_hzcount29 {D : Type} (env : Env D) (u : Indeterminate D) (t : CommonTime D)
    (info : IdToValue) (s : MixedState D)
    (h : mixedLoop env info info (MixedState.start t u) = (s, none)) :
    s.hzcount29 = info.hasAny ['c'] := by
  have h2 := mixedLoop_flag env info (fun s => s.hzcount29) ['c']
    (fun s s2 c v hc => (mixedCase_flags env info s s2 c v hc).2.2.2.2.2.2.2.2.2.1) info _ s h
  simpa [MixedState.start] using h2

theorem mixedLoop_hhour {D : Type} (env : Env D) (u : Indeterminate D) (t : CommonTime D)
    (info : IdToValue) (s : MixedState D)
    (h : mixedLoop env info info (MixedState.start t u) = (s, none)) :
    s.hhour = info.hasAny ['H'] := by
  have h2 := mixedLoop_flag env info (fun s => s.hhour) ['H']
    (fun s s2 c v hc => (mixedCase_flags env info s s2 c v hc).2.2.2.2.2.2.2.2.2.2.1) info _ s h
  simpa [MixedState.start] using h2

theorem mixedLoop_hmin {D : Type} (env : Env D) (u : Indeterminate D) (t : CommonTime D)
    (info : IdToValue) (s : MixedState D)
    (h : mixedLoop env info info (MixedState.start t u) = (s, none)) :
    s.hmin = info.hasAny ['M'] := by
  have h2 := mixedLoop_flag env info (fun s => s.hmin) ['M']
    (fun s s2 c v hc => (mixedCase_flags env info s s2 c v hc).2.2.2.2.2.2.2.2.2.2.2.1) info _ s h
  simpa [MixedState.start] using h2

theorem mixedLoop_hsec {D : Type} (env : Env D) (u : Indeterminate D) (t : CommonTime D)
    (info : IdToValue) (s : MixedState D)
    (h : mixedLoop env info info (MixedState.start t u) = (s, none)) :
    s.hsec = info.hasAny ['S', 'f'] := by
  have h2 := mixedLoop_flag env info (fun s => s.hsec) ['S', 'f']
    (fun s s2 c v hc => (mixedCase_flags env info s s2 c v hc).2.2.2.2.2.2.2.2.2.2.2.2.1) info _ s h
  simpa [MixedState.start] using h2

theorem mixedLoop_hsod {D : Type} (env : Env D) (u : Indeterminate D) (t : CommonTime D)
    (info : IdToValue) (s : MixedState D)
    (h : mixedLoop env info info (MixedState.start t u) = (s, none)) :
    s.hsod = info.hasAny ['s'] := by
  have h2 := mixedLoop_flag env info (fun s => s.hsod) ['s']
    (fun s s2 c v hc => (mixedCase_flags env info s s2 c v hc).2.2.2.2.2.2.2.2.2.2.2.2.2.1) info _ s h
  simpa [MixedState.start] using h2

theorem mixedLoop_hepoch {D : Type} (env : Env D) (u : Indeterminate D) (t : CommonTime D)
    (info : IdToValue) (s : MixedState D)
    (h : mixedLoop env info info (MixedState.start t u) = (s, none)) :
    s.hepoch = info.hasAny ['E', 'R', 'T', 'V', 'X'] := by
  have h2 := mixedLoop_flag env info (fun s => s.hepoch) ['E', 'R', 'T', 'V', 'X']
    (fun s s2 c v hc => (mixedCase_flags env info s s2 c v hc).2.2.2.2.2.2.2.2.2.2.2.2.2.2.1) info _ s h
  simpa [MixedState.start] using h2

theorem mixedLoop_hbdsw {D : Type} (env : Env D) (u : Indeterminate D) (t : CommonTime D)
    (info : IdToValue) (s : MixedState D)
    (h : mixedLoop env info info (MixedState.start t u) = (s, none)) :
    s.hbdsw = info.hasAny ['e'] := by
  have h2 := mixedLoop_flag env info (fun s => s.hbdsw) ['e']
    (fun s s2 c v hc => (mixedCase_flags env info s s2 c v hc).2.2.2.2.2.2.2.2.2.2.2.2.2.2.2.1) info _ s h
  simpa [MixedState.start] using h2

theorem mixedLoop_hqzsw {D : Type} (env : Env D) (u : Indeterminate D) (t : CommonTime D)
    (info : IdToValue) (s : MixedState D)
    (h : mixedLoop env info info (MixedState.start t u) = (s, none)) :
    s.hqzsw = info.hasAny ['i'] := by
  have h2 := mixedLoop_flag env info (fun s => s.hqzsw) ['i']
    (fun s s2 c v hc => (mixedCase_flags env info s s2 c v hc).2.2.2.2.2.2.2.2.2.2.2.2.2.2.2.2.1) info _ s h
  simpa [MixedState.start] using h2

theorem mixedLoop_hgalw {D : Type} (env : Env D) (u : Indeterminate D) (t : CommonTime D)
    (info : IdToValue) (s : MixedState D)
    (h : mixedLoop env info info (MixedState.start t u) = (s, none)) :
    s.hgalw = info.hasAny ['l'] := by
  have h2 := mixedLoop_flag env info (fun s => s.hgalw) ['l']
    (fun s s2 c v hc => (mixedCase_flags env info s s2 c v hc).2.2.2.2.2.2.2.2.2.2.2.2.2.2.2.2.2.1) info _ s h
  simpa [MixedState.start] using h2

theorem mixedLoop_hirnw {D : Type} (env : Env D) (u : Indeterminate D) (t : CommonTime D)
    (info : IdToValue) (s : MixedState D)
    (h : mixedLoop env info info (MixedState.start t u) = (s, none)) :
    s.hirnw = info.hasAny ['o'] := by
  have h2 := mixedLoop_flag env info (fun s => s.hirnw) ['o']
    (fun s s2 c v hc => (mixedCase_flags env info s s2 c v hc).2.2.2.2.2.2.2.2.2.2.2.2.2.2.2.2.2.2.1) info _ s h
  simpa [MixedState.start] using h2

theorem mixedLoop_hbdsfw {D : Type} (env : Env D) (u : Indeterminate D) (t : CommonTime D)
    (info : IdToValue) (s : MixedState D)
    (h : mixedLoop env info info (MixedState.start t u) = (s, none)) :
    s.hbdsfw = info.hasAny ['D'] := by
  have h2 := mixedLoop_flag env info (fun s => s.hbdsfw) ['D']
    (fun s s2 c v hc => (mixedCase_flags env info s s2 c v hc).2.2.2.2.2.2.2.2.2.2.2.2.2.2.2.2.2.2.2.1) info _ s h
  simpa [MixedState.start] using h2

theorem mixedLoop_hqzsfw {D : Type} (env : Env D) (u : Indeterminate D) (t : CommonTime D)
    (info : IdToValue) (s : MixedState D)
    (h : mixedLoop env info info (MixedState.start t u) = (s, none)) :
    s.hqzsfw = info.hasAny ['I'] := by
  have h2 := mixedLoop_flag env info (fun s => s.hqzsfw) ['I']
    (fun s s2 c v hc => (mixedCase_flags env info s s2 c v hc).2.2.2.2.2.2.2.2.2.2.2.2.2.2.2.2.2.2.2.2.1) info _ s h
  simpa [MixedState.start] using h2

theorem mixedLoop_hgalfw {D : Type} (env : Env D) (u : Indeterminate D) (t : CommonTime D)
    (info : IdToValue) (s : MixedState D)
    (h : mixedLoop env info info (MixedState.start t u) = (s, none)) :
    s.hgalfw = info.hasAny ['L'] := by
  have h2 := mixedLoop_flag env info (fun s => s.hgalfw) ['L']
    (fun s s2 c v hc => (mixedCase_flags env info s s2 c v hc).2.2.2.2.2.2.2.2.2.2.2.2.2.2.2.2.2.2.2.2.2.1) info _ s h
  simpa [MixedState.start] using h2

theorem mixedLoop_hirnfw {D : Type} (env : Env D) (u : Indeterminate D) (t : CommonTime D)
    (info : IdToValue) (s : MixedState D)
    (h : mixedLoop env info info (MixedState.start t u) = (s, none)) :
    s.hirnfw = info.hasAny ['O'] := by
  have h2 := mixedLoop_flag env info (fun s => s.hirnfw) ['O']
    (fun s s2 c v hc => (mixedCase_flags env info s s2 c v hc).2.2.2.2.2.2.2.2.2.2.2.2.2.2.2.2.2.2.2.2.2.2.1) info _ s h
  simpa [MixedState.start] using h2

theorem mixedLoop_hbdse {D : Type} (env : Env D) (u : Indeterminate D) (t : CommonTime D)
    (info : IdToValue) (s : MixedState D)
    (h : mixedLoop env info info (MixedState.start t u) = (s, none)) :
    s.hbdse = info.hasAny ['R'] := by
  have h2 := mixedLoop_flag env info (fun s => s.hbdse) ['R']
    (fun s s2 c v hc => (mixedCase_flags env info s s2 c v hc).2.2.2.2.2.2.2.2.2.2.2.2.2.2.2.2.2.2.2.2.2.2.2.1) info _ s h
  simpa [MixedState.start] using h2

theorem mixedLoop_hqzse {D : Type} (env : Env D) (u : Indeterminate D) (t : CommonTime D)
    (info : IdToValue) (s : MixedState D)
    (h : mixedLoop env info info (MixedState.start t u) = (s, none)) :
    s.hqzse = info.hasAny ['V'] := by
  have h2 := mixedLoop_flag env info (fun s => s.hqzse) ['V']
    (fun s s2 c v hc => (mixedCase_flags env info s s2 c v hc).2.2.2.2.2.2.2.2.2.2.2.2.2.2.2.2.2.2.2.2.2.2.2.2.1) info _ s h
  simpa [MixedState.start] using h2

theorem mixedLoop_hgale {D : Type} (env : Env D) (u : Indeterminate D) (t : CommonTime D)
    (info : IdToValue) (s : MixedState D)
    (h : mixedLoop env info info (MixedState.start t u) = (s, none)) :
    s.hgale = info.hasAny ['T'] := by
  have h2 := mixedLoop_flag env info (fun s => s.hgale) ['T']
    (fun s s2 c v hc => (mixedCase_flags env info s s2 c v hc).2.2.2.2.2.2.2.2.2.2.2.2.2.2.2.2.2.2.2.2.2.2.2.2.2.1) info _ s h
  simpa [MixedState.start] using h2

theorem mixedLoop_hirne {D : Type} (env : Env D) (u : Indeterminate D) (t : CommonTime D)
    (info : IdToValue) (s : MixedState D)
    (h : mixedLoop env info info (MixedState.start t u) = (s, none)) :
    s.hirne = info.hasAny ['X'] := by
  have h2 := mixedLoop_flag env info (fun s => s.hirne) ['X']
    (fun s s2 c v hc => (mixedCase_flags env info s s2 c v hc).2.2.2.2.2.2.2.2.2.2.2.2.2.2.2.2.2.2.2.2.2.2.2.2.2.2) info _ s h
  simpa [MixedState.start] using h2

theorem CommonTime.setTimeSystem_getTimeSystem {D : Type} (t : CommonTime D) :
    t.setTimeSystem t.getTimeSystem = t := by
  cases t
  rfl

/-! ## mixedScanTime: the override order -/

theorem lib_bind {α β : Type} (x : Except LibExn α) (f : α → Except LibExn β) :
    lib (x >>= f) = (lib x >>= fun a => lib (f a)) := by
  cases x <;> rfl

theorem roundTrip_eq {D V : Type} (ops : TimeTagOps D V) (rewrite : V → Except LibExn V)
    (ct : CommonTime D) :
    roundTrip ops rewrite ct =
      (lib (ops.convertFromCommonTime ct) >>= fun v =>
        lib (rewrite v) >>= fun v2 => lib (ops.convertToCommonTime v2)) := by
  unfold roundTrip
  rw [lib_bind, lib_bind, bind_assoc]

/-- Each of the fifteen `if` blocks of `mixedScanTime` is the override of its field as
the specification describes it, on the week class and the values the loop
left. -/
theorem override_blocks {D : Type} (env : Env D) (s : MixedState D) (ct : CommonTime D) :
    overrideEpoch env s ct =
      MixedField.override env (mixedWeekOps env s) s.toIndeterminate .epoch ct ∧
    overrideYear env s ct =
      MixedField.override env (mixedWeekOps env s) s.toIndeterminate .year ct ∧
    overrideMonth env s ct =
      MixedField.override env (mixedWeekOps env s) s.toIndeterminate .month ct ∧
    overrideFullWeek env s ct =
      MixedField.override env (mixedWeekOps env s) s.toIndeterminate .fullWeek ct ∧
    overrideModWeek env s ct =
      MixedField.override env (mixedWeekOps env s) s.toIndeterminate .modWeek ct ∧
    overrideDayOfWeek env s ct =
      MixedField.override env (mixedWeekOps env s) s.toIndeterminate .dayOfWeek ct ∧
    overrideDay env s ct =
      MixedField.override env (mixedWeekOps env s) s.toIndeterminate .dayOfMonth ct ∧
    overrideDayOfYear env s ct =
      MixedField.override env (mixedWeekOps env s) s.toIndeterminate .dayOfYear ct ∧
    overrideZcount29 env s ct =
      MixedField.override env (mixedWeekOps env s) s.toIndeterminate .zcount29 ct ∧
    overrideZcount env s ct =
      MixedField.override env (mixedWeekOps env s) s.toIndeterminate .zcount ct ∧
    overrideHour env s ct =
      MixedField.override env (mixedWeekOps env s) s.toIndeterminate .hour ct ∧
    overrideMinute env s ct =
      MixedField.override env (mixedWeekOps env s) s.toIndeterminate .minute ct ∧
    overrideSecondOfWeek env s ct =
      MixedField.override env (mixedWeekOps env s) s.toIndeterminate .secondOfWeek ct ∧
    overrideSecondOfDay env s ct =
      MixedField.override env (mixedWeekOps env s) s.toIndeterminate .secondOfDay ct ∧
    overrideSecond env s ct =
      MixedField.override env (mixedWeekOps env s) s.toIndeterminate .second ct := by
  refine ⟨?_, ?_, ?_, ?_, ?_, ?_, ?_, ?_, ?_, ?_, ?_, ?_, ?_, ?_, ?_⟩
  · simp only [overrideEpoch, MixedField.override, roundTrip_eq]
    rfl
  · simp only [overrideYear, MixedField.override, roundTrip_eq]
    rfl
  · simp only [overrideMonth, MixedField.override, roundTrip_eq]
    rfl
  · simp only [overrideFullWeek, MixedField.override, roundTrip_eq]
    rfl
  · simp only [overrideModWeek, MixedField.override, roundTrip_eq]
    rfl
  · simp only [overrideDayOfWeek, MixedField.override, roundTrip_eq]
    rfl
  · simp only [overrideDay, MixedField.override, roundTrip_eq]
    rfl
  · simp only [overrideDayOfYear, MixedField.override, roundTrip_eq]
    rfl
  · simp only [overrideZcount29, MixedField.override, roundTrip_eq]
  · simp only [overrideZcount, MixedField.override, roundTrip_eq]
    rfl
  · simp only [overrideHour, MixedField.override, roundTrip_eq]
    rfl
  · simp only [overrideMinute, MixedField.override, roundTrip_eq]
    rfl
  · simp only [overrideSecondOfWeek, MixedField.override, roundTrip_eq]
    rfl
  · simp only [overrideSecondOfDay, MixedField.override, roundTrip_eq]
    rfl
  · simp only [overrideSecond, MixedField.override, roundTrip_eq]
    rfl

/-- One turn of the loop that completes gives each value the number of the text on
the codes that carry one for it, and keeps it on every other code. -/
theorem mixedCase_values {D : Type} (env : Env D) (info : IdToValue) (s s2 : MixedState D)
    (c : Char) (v : String) (h : mixedCase env info s c v = .ok s2) :
    s2.isow = ((if c = 'g' then some (env.asDouble v) else none).getD s.isow)
    ∧ s2.isod = ((if c = 's' then some (env.asDouble v) else none).getD s.isod)
    ∧ s2.isec = ((if c = 'S' ∨ c = 'f' then some (env.asDouble v) else none).getD s.isec)
    ∧ s2.iweek = ((if c = 'G' then some (env.asInt v) else none).getD s.iweek)
    ∧ s2.ifullweek = ((if c = 'F' then some (env.asInt v) else none).getD s.ifullweek)
    ∧ s2.idow = ((if c = 'w' then some (env.asInt v)
        else if c = 'a' ∨ c = 'A' then weekdayIndex env v else none).getD s.idow)
    ∧ s2.iyear = ((if c = 'Y' then some (env.asInt v)
        else if c = 'y' then
          some (if env.asInt v ≥ 69 then env.asInt v + 1900 else env.asInt v + 2000)
        else none).getD s.iyear)
    ∧ s2.imonth = ((if c = 'm' then some (env.asInt v)
        else if c = 'b' then some (env.monthAbbrev v)
        else if c = 'B' then some (env.monthLong v) else none).getD s.imonth)
    ∧ s2.iday = ((if c = 'd' then some (env.asInt v) else none).getD s.iday)
    ∧ s2.izcount = ((if c = 'z' ∨ c = 'Z' then some (env.asInt v) else none).getD s.izcount)
    ∧ s2.idoy = ((if c = 'j' then some (env.asInt v) else none).getD s.idoy)
    ∧ s2.izcount29 = ((if c = 'c' then some (env.asInt v) else none).getD s.izcount29)
    ∧ s2.ihour = ((if c = 'H' then some (env.asInt v) else none).getD s.ihour)
    ∧ s2.imin = ((if c = 'M' then some (env.asInt v) else none).getD s.imin)
    ∧ s2.iepoch = ((if c = 'E' ∨ c = 'R' ∨ c = 'T' ∨ c = 'V' ∨ c = 'X' then some (env.asInt v)
        else none).getD s.iepoch) := by
  unfold mixedCase at h
  split at h
  all_goals (try split at h)
  all_goals (try split at h)
  all_goals simp only [except_bind_eq_ok, pure, Except.pure, throw, throwThe,
    MonadExceptOf.throw, Except.ok.injEq, reduceCtorEq] at h
  all_goals first
    | (subst h; simp_all; done)
    | (obtain ⟨_, _, h⟩ := h; subst h; simp)
    | (obtain ⟨_, _, _, _, h⟩ := h; subst h; simp)
    | (subst h; simp; rw [if_neg (by omega)])

theorem mixedLoop_lastValue {D α : Type} (env : Env D) (info : IdToValue)
    (proj : MixedState D → α) (read : Char → String → Option α)
    (hstep : ∀ s s2 c v, mixedCase env info s c v = .ok s2 →
      proj s2 = (read c v).getD (proj s)) :
    ∀ (l : IdToValue) (s s2 : MixedState D), mixedLoop env info l s = (s2, none) →
      proj s2 = lastValue read (proj s) l := by
  intro l
  induction l with
  | nil =>
    intro s s2 h
    simp only [mixedLoop, Prod.mk.injEq, and_true] at h
    subst h
    rfl
  | cons e l ih =>
    intro s s2 h
    simp only [mixedLoop] at h
    cases hc : mixedCase env info s e.1 e.2 with
    | error x => simp [hc] at h
    | ok s1 =>
      simp only [hc] at h
      rw [ih s1 s2 h, hstep s s1 e.1 e.2 hc]
      rfl

/-- When the loop completes the values it holds are those the texts of the map
give. -/
theorem mixedLoop_values {D : Type} (env : Env D) (u : Indeterminate D) (t : CommonTime D)
    (info : IdToValue) (s : MixedState D)
    (h : mixedLoop env info info (MixedState.start t u) = (s, none)) :
    s.toIndeterminate = parsedValues env u info := by
  have hv := fun (α : Type) (proj : MixedState D → α) (read : Char → String → Option α)
      (hstep : ∀ s s2 c v, mixedCase env info s c v = .ok s2 →
        proj s2 = (read c v).getD (proj s)) =>
    mixedLoop_lastValue env info proj read hstep info _ s h
  have h1 := hv D (fun s => s.isow) _ (fun s s2 c v hc => (mixedCase_values env info s s2 c v hc).1)
  have h2 := hv D (fun s => s.isod) _
    (fun s s2 c v hc => (mixedCase_values env info s s2 c v hc).2.1)
  have h3 := hv D (fun s => s.isec) _
    (fun s s2 c v hc => (mixedCase_values env info s s2 c v hc).2.2.1)
  have h4 := hv Int (fun s => s.iweek) _
    (fun s s2 c v hc => (mixedCase_values env info s s2 c v hc).2.2.2.1)
  have h5 := hv Int (fun s => s.ifullweek) _
    (fun s s2 c v hc => (mixedCase_values env info s s2 c v hc).2.2.2.2.1)
  have h6 := hv Int (fun s => s.idow) _
    (fun s s2 c v hc => (mixedCase_values env info s s2 c v hc).2.2.2.2.2.1)
  have h7 := hv Int (fun s => s.iyear) _
    (fun s s2 c v hc => (mixedCase_values env info s s2 c v hc).2.2.2.2.2.2.1)
  have h8 := hv Int (fun s => s.imonth) _
    (fun s s2 c v hc => (mixedCase_values env info s s2 c v hc).2.2.2.2.2.2.2.1)
  have h9 := hv Int (fun s => s.iday) _
    (fun s s2 c v hc => (mixedCase_values env info s s2 c v hc).2.2.2.2.2.2.2.2.1)
  have h10 := hv Int (fun s => s.izcount) _
    (fun s s2 c v hc => (mixedCase_values env info s s2 c v hc).2.2.2.2.2.2.2.2.2.1)
  have h11 := hv Int (fun s => s.idoy) _
    (fun s s2 c v hc => (mixedCase_values env info s s2 c v hc).2.2.2.2.2.2.2.2.2.2.1)
  have h12 := hv Int (fun s => s.izcount29) _
    (fun s s2 c v hc => (mixedCase_values env info s s2 c v hc).2.2.2.2.2.2.2.2.2.2.2.1)
  have h13 := hv Int (fun s => s.ihour) _
    (fun s s2 c v hc => (mixedCase_values env info s s2 c v hc).2.2.2.2.2.2.2.2.2.2.2.2.1)
  have h14 := hv Int (fun s => s.imin) _
    (fun s s2 c v hc => (mixedCase_values env info s s2 c v hc).2.2.2.2.2.2.2.2.2.2.2.2.2.1)
  have h15 := hv Int (fun s => s.iepoch) _
    (fun s s2 c v hc => (mixedCase_values env info s s2 c v hc).2.2.2.2.2.2.2.2.2.2.2.2.2.2)
  simp only [MixedState.start] at h1 h2 h3 h4 h5 h6 h7 h8 h9 h10 h11 h12 h13 h14 h15
  rcases hs : s.toIndeterminate with ⟨a1, a2, a3, a4, a5, a6, a7, a8, a9, a10, a11, a12, a13, a14, a15⟩
  have e1 : s.isow = a1 := congrArg Indeterminate.isow hs
  have e2 : s.isod = a2 := congrArg Indeterminate.isod hs
  have e3 : s.isec = a3 := congrArg Indeterminate.isec hs
  have e4 : s.iweek = a4 := congrArg Indeterminate.iweek hs
  have e5 : s.ifullweek = a5 := congrArg Indeterminate.ifullweek hs
  have e6 : s.idow = a6 := congrArg Indeterminate.idow hs
  have e7 : s.iyear = a7 := congrArg Indeterminate.iyear hs
  have e8 : s.imonth = a8 := congrArg Indeterminate.imonth hs
  have e9 : s.iday = a9 := congrArg Indeterminate.iday hs
  have e10 : s.izcount = a10 := congrArg Indeterminate.izcount hs
  have e11 : s.idoy = a11 := congrArg Indeterminate.idoy hs
  have e12 : s.izcount29 = a12 := congrArg Indeterminate.izcount29 hs
  have e13 : s.ihour = a13 := congrArg Indeterminate.ihour hs
  have e14 : s.imin = a14 := congrArg Indeterminate.imin hs
  have e15 : s.iepoch = a15 := congrArg Indeterminate.iepoch hs
  simp only [parsedValues, ← e1, ← e2, ← e3, ← e4, ← e5, ← e6, ← e7, ← e8, ← e9, ← e10, ← e11,
    ← e12, ← e13, ← e14, ← e15, h1, h2, h3, h4, h5, h6, h7, h8, h9, h10, h11, h12, h13, h14, h15]

theorem applyOverrides_filter_cons {D : Type} (env : Env D) (w : WeekSecondOps D)
    (x : Indeterminate D) (p : MixedField → Bool) (f : MixedField) (fs : List MixedField) :
    applyOverrides env w x ((f :: fs).filter p) =
      fun ct => ((if p f = true then f.override env w x ct else pure ct) >>=
        applyOverrides env w x (fs.filter p)) := by
  funext ct
  cases hp : p f with
  | true => simp [List.filter_cons, hp, applyOverrides]
  | false =>
    simp only [List.filter_cons, hp, Bool.false_eq_true, if_false]
    rfl

theorem applyOverrides_nil {D : Type} (env : Env D) (w : WeekSecondOps D)
    (x : Indeterminate D) :
    applyOverrides env w x [] = fun ct => pure ct := by
  funext ct
  rfl

/-- The fifteen `if` blocks are the overrides of the fields whose flag is set,
applied in the order of the specification, on the week class and the values
the loop left. -/
theorem mixedOverrides_eq {D : Type} (env : Env D) (s : MixedState D) (ct : CommonTime D)
    (p : MixedField → Bool)
    (hp : p .epoch = s.hepoch ∧ p .year = s.hyear ∧ p .month = s.hmonth ∧
      p .fullWeek = s.hfullweek ∧ p .modWeek = s.hweek ∧ p .dayOfWeek = s.hdow ∧
      p .dayOfMonth = s.hday ∧ p .dayOfYear = s.hdoy ∧ p .zcount29 = s.hzcount29 ∧
      p .zcount = s.hzcount ∧ p .hour = s.hhour ∧ p .minute = s.hmin ∧
      p .secondOfWeek = s.hsow ∧ p .secondOfDay = s.hsod ∧ p .second = s.hsec) :
    mixedOverrides env s ct =
      applyOverrides env (mixedWeekOps env s) s.toIndeterminate (overrideOrder.filter p) ct := by
  obtain ⟨h1, h2, h3, h4, h5, h6, h7, h8, h9, h10, h11, h12, h13, h14, h15⟩ := hp
  have hb := fun ct => override_blocks env s ct
  simp only [overrideOrder, applyOverrides_filter_cons, List.filter_nil, applyOverrides_nil,
    h1, h2, h3, h4, h5, h6, h7, h8, h9, h10, h11, h12, h13, h14, h15,
    mixedOverrides, CommonTime.setTimeSystem_getTimeSystem,
    fun ct => (hb ct).1, fun ct => (hb ct).2.1, fun ct => (hb ct).2.2.1,
    fun ct => (hb ct).2.2.2.1, fun ct => (hb ct).2.2.2.2.1, fun ct => (hb ct).2.2.2.2.2.1,
    fun ct => (hb ct).2.2.2.2.2.2.1, fun ct => (hb ct).2.2.2.2.2.2.2.1,
    fun ct => (hb ct).2.2.2.2.2.2.2.2.1, fun ct => (hb ct).2.2.2.2.2.2.2.2.2.1,
    fun ct => (hb ct).2.2.2.2.2.2.2.2.2.2.1, fun ct => (hb ct).2.2.2.2.2.2.2.2.2.2.2.1,
    fun ct => (hb ct).2.2.2.2.2.2.2.2.2.2.2.2.1,
    fun ct => (hb ct).2.2.2.2.2.2.2.2.2.2.2.2.2.1,
    fun ct => (hb ct).2.2.2.2.2.2.2.2.2.2.2.2.2.2]

/-- Without the codes `h` and `I`, on which the loop of `mixedScanTime` and the
format mini-language differ, the loop marks a field as found exactly when
the map has one of its codes. -/
theorem mixedLoop_present {D : Type} (env : Env D) (u : Indeterminate D) (t : CommonTime D)
    (info : IdToValue) (s : MixedState D)
    (hh : info.has 'h' = false) (hI : info.has 'I' = false)
    (h : mixedLoop env info info (MixedState.start t u) = (s, none)) :
    info.hasAny MixedField.epoch.codes = s.hepoch ∧
    info.hasAny MixedField.year.codes = s.hyear ∧
    info.hasAny MixedField.month.codes = s.hmonth ∧
    info.hasAny MixedField.fullWeek.codes = s.hfullweek ∧
    info.hasAny MixedField.modWeek.codes = s.hweek ∧
    info.hasAny MixedField.dayOfWeek.codes = s.hdow ∧
    info.hasAny MixedField.dayOfMonth.codes = s.hday ∧
    info.hasAny MixedField.dayOfYear.codes = s.hdoy ∧
    info.hasAny MixedField.zcount29.codes = s.hzcount29 ∧
    info.hasAny MixedField.zcount.codes = s.hzcount ∧
    info.hasAny MixedField.hour.codes = s.hhour ∧
    info.hasAny MixedField.minute.codes = s.hmin ∧
    info.hasAny MixedField.secondOfWeek.codes = s.hsow ∧
    info.hasAny MixedField.secondOfDay.codes = s.hsod ∧
    info.hasAny MixedField.second.codes = s.hsec := by
  refine ⟨(mixedLoop_hepoch env u t info s h).symm, (mixedLoop_hyear env u t info s h).symm,
    ?_, ?_, (mixedLoop_hweek env u t info s h).symm, (mixedLoop_hdow env u t info s h).symm,
    (mixedLoop_hday env u t info s h).symm, (mixedLoop_hdoy env u t info s h).symm,
    (mixedLoop_hzcount29 env u t info s h).symm, ?_,
    (mixedLoop_hhour env u t info s h).symm, (mixedLoop_hmin env u t info s h).symm,
    (mixedLoop_hsow env u t info s h).symm, (mixedLoop_hsod env u t info s h).symm,
    (mixedLoop_hsec env u t info s h).symm⟩
  · rw [mixedLoop_hmonth env u t info s h]
    rfl
  · rw [mixedLoop_hfullweek env u t info s h]
    simp only [MixedField.codes, fullWeekCodes, IdToValue.hasAny_cons, IdToValue.hasAny_nil,
      hh, hI]
  · rw [mixedLoop_hzcount env u t info s h]
    simp only [MixedField.codes, zcountCodes, IdToValue.hasAny_cons, IdToValue.hasAny_nil,
      Bool.or_false]
    exact Bool.or_comm _ _

/-- Without the codes `h` and `I`, the week class behind `ptt` is the one of the
precedence BeiDou, QZSS, Galileo, IRNSS, GPS over the codes of the map. -/
theorem mixedLoop_weekOps {D : Type} (env : Env D) (u : Indeterminate D) (t : CommonTime D)
    (info : IdToValue) (s : MixedState D)
    (hh : info.has 'h' = false) (hI : info.has 'I' = false)
    (h : mixedLoop env info info (MixedState.start t u) = (s, none)) :
    mixedWeekOps env s = weekOps env (weekPrecedence info) := by
  simp only [mixedWeekOps, weekPrecedence, bdsCodes, qzsCodes, galCodes, irnCodes,
    mixedLoop_hbdse env u t info s h, mixedLoop_hbdsfw env u t info s h,
    mixedLoop_hbdsw env u t info s h, mixedLoop_hqzse env u t info s h,
    mixedLoop_hqzsfw env u t info s h, mixedLoop_hqzsw env u t info s h,
    mixedLoop_hgale env u t info s h, mixedLoop_hgalfw env u t info s h,
    mixedLoop_hgalw env u t info s h, mixedLoop_hirne env u t info s h,
    mixedLoop_hirnfw env u t info s h, mixedLoop_hirnw env u t info s h,
    IdToValue.hasAny_cons, IdToValue.hasAny_nil, hh, hI, Bool.or_false, Bool.false_or,
    Bool.or_assoc]
  split_ifs <;> rfl

theorem mixedCase_instant {D : Type} (env : Env D) (info : IdToValue) (s s2 : MixedState D)
    (c : Char) (v : String) (h : mixedCase env info s c v = .ok s2)
    (hc : instantCodes.contains c = false) : s2.t = s.t := by
  unfold mixedCase at h
  split at h
  all_goals (try split at h)
  all_goals (try split at h)
  all_goals simp only [except_bind_eq_ok, pure, Except.pure, throw, throwThe,
    MonadExceptOf.throw, Except.ok.injEq, reduceCtorEq] at h
  all_goals first
    | (exact absurd hc (by decide))
    | (subst h; rfl)

theorem mixedLoop_instant {D : Type} (env : Env D) (info : IdToValue) :
    ∀ (l : IdToValue) (s s2 : MixedState D), mixedLoop env info l s = (s2, none) →
      l.hasAny instantCodes = false → s2.t = s.t := by
  intro l
  induction l with
  | nil =>
    intro s s2 h _
    simp only [mixedLoop, Prod.mk.injEq, and_true] at h
    subst h
    rfl
  | cons e l ih =>
    intro s s2 h hno
    simp only [IdToValue.hasAny, List.any_cons, Bool.or_eq_false_iff] at hno
    simp only [mixedLoop] at h
    cases hc : mixedCase env info s e.1 e.2 with
    | error x => simp [hc] at h
    | ok s1 =>
      simp only [hc] at h
      rw [ih s1 s2 h hno.2, mixedCase_instant env info s s1 e.1 e.2 hc hno.1]

/-- The defect behind C8, the one of C14 seen at the overrides.  For every input
without the codes `h` and `I` whose loop completes, `mixedScanTime` applies the
overrides of the fields that have a code in the map, in the order epoch, year,
month, full week, mod week, day of week, day of month, day of year, 29-bit
Z-count, Z-count, hour, minute, second of week, second of day, second, each
one to the instant produced by the previous one, the first to the instant the
loop left (the caller's, when no code of the map makes the loop write the
instant), and it returns the result of the last one; each override is the
round trip through its variant, with the value the texts of the map give, on
the week class of the codes of the map.  But the fields the loop finds are not
always those present in the input: it has `case 'I'` where the QZSS full week
`h` is meant.  With `h` the full week is present and no override is applied;
with `I`, which is no code of the format, the full week override is applied,
to the value the uninitialised `ifullweek` holds.  On the reference environment
"2000" against "%h" returns the caller's instant untouched, where the full week
override of QZSS with week 2000 gives day 2458245, and "2000" against "%I"
moves the caller's instant to day 2452883 when `ifullweek` holds 1234. -/
theorem mixedScanTime_override_order {D : Type} (env : Env D) (u : Indeterminate D)
    (t : CommonTime D) :
    (∀ (str fmt : String) (info : IdToValue) (s : MixedState D),
      env.getInfo str fmt = .ok info → info.has 'h' = false → info.has 'I' = false →
      mixedLoop env info info (MixedState.start t u) = (s, none) →
      (mixedScanTime env u t str fmt).result =
          applyOverrides env (weekOps env (weekPrecedence info)) (parsedValues env u info)
            (overrideOrder.filter (fun f => info.hasAny f.codes)) s.t ∧
        (info.hasAny instantCodes = false → s.t = t)) ∧
    (ref.getInfo "2000" "%h" = .ok [('h', "2000")] ∧
      overrideOrder.filter (fun f => IdToValue.hasAny [('h', "2000")] f.codes) = [.fullWeek] ∧
      weekPrecedence [('h', "2000")] = .QZSWeek) ∧
    mixedScanTime ref someJunk lastDayOf2023 "2000" "%h" =
      { t := lastDayOf2023, thrown := none } ∧
    (applyOverrides ref ref.qzs { someJunk with ifullweek := 2000 } [.fullWeek] lastDayOf2023 =
        .ok { m_day := 2458245, m_msod := 43200500, m_fsod := 0, m_timeSystem := .UTC } ∧
      lastDayOf2023.m_day = 2460310) ∧
    (ref.getInfo "2000" "%I" = .ok [('I', "2000")] ∧
      overrideOrder.filter (fun f => IdToValue.hasAny [('I', "2000")] f.codes) = []) ∧
    mixedScanTime ref staleValues lastDayOf2023 "2000" "%I" =
      { t := { m_day := 2452883, m_msod := 43200500, m_fsod := 0, m_timeSystem := .UTC },
        thrown := none } := by
  refine ⟨?_, ⟨rfl, rfl, rfl⟩, rfl, ⟨rfl, rfl⟩, ⟨rfl, rfl⟩, rfl⟩
  intro str fmt info s hinfo hh hI hloop
  constructor
  · have hov := mixedOverrides_eq env s s.t (fun f => info.hasAny f.codes)
      (mixedLoop_present env u t info s hh hI hloop)
    rw [mixedLoop_values env u t info s hloop, mixedLoop_weekOps env u t info s hh hI hloop]
      at hov
    simp only [mixedScanTime, hinfo, mixedScanTimeInfo, hloop, ← hov]
    cases mixedOverrides env s s.t <;> rfl
  · intro hno
    exact mixedLoop_instant env info info _ s hloop hno

/-- Witness of C8: "2024 15 10:20" against "%Y %j %H:%M" on 2023-12-31 12:00:00.5: the
map has neither `h` nor `I` and no code that writes the instant; year, day
of year, hour and minute are applied in that order to the caller's instant,
with the values 2024, 15, 10 and 20 of the text, and give 2024-01-15
10:20:00.5. -/
theorem mixedScanTime_override_order_witness :
    ref.getInfo "2024 15 10:20" "%Y %j %H:%M"
      = .ok [('H', "10"), ('M', "20"), ('Y', "2024"), ('j', "15")] ∧
    overrideOrder.filter
        (fun f => IdToValue.hasAny [('H', "10"), ('M', "20"), ('Y', "2024"), ('j', "15")] f.codes)
      = [.year, .dayOfYear, .hour, .minute] ∧
    ((parsedValues ref someJunk [('H', "10"), ('M', "20"), ('Y', "2024"), ('j', "15")]).iyear
        = 2024 ∧
      (parsedValues ref someJunk [('H', "10"), ('M', "20"), ('Y', "2024"), ('j', "15")]).idoy
        = 15 ∧
      (parsedValues ref someJunk [('H', "10"), ('M', "20"), ('Y', "2024"), ('j', "15")]).ihour
        = 10 ∧
      (parsedValues ref someJunk [('H', "10"), ('M', "20"), ('Y', "2024"), ('j', "15")]).imin
        = 20) ∧
    (mixedLoop ref [('H', "10"), ('M', "20"), ('Y', "2024"), ('j', "15")]
      [('H', "10"), ('M', "20"), ('Y', "2024"), ('j', "15")]
      (MixedState.start lastDayOf2023 someJunk)).1.t = lastDayOf2023 ∧
    (mixedScanTime ref someJunk lastDayOf2023 "2024 15 10:20" "%Y %j %H:%M").result
      = .ok { m_day := 2460325, m_msod := 37200500, m_fsod := 0, m_timeSystem := .UTC } :=
  ⟨rfl, rfl, ⟨rfl, rfl, rfl, rfl⟩,
   ((mixedScanTime_override_order ref someJunk lastDayOf2023).1 "2024 15 10:20"
      "%Y %j %H:%M" [('H', "10"), ('M', "20"), ('Y', "2024"), ('j', "15")]
      (mixedLoop ref [('H', "10"), ('M', "20"), ('Y', "2024"), ('j', "15")]
        [('H', "10"), ('M', "20"), ('Y', "2024"), ('j', "15")]
        (MixedState.start lastDayOf2023 someJunk)).1 rfl rfl rfl rfl).2 rfl,
   (((mixedScanTime_override_order ref someJunk lastDayOf2023).1 "2024 15 10:20"
      "%Y %j %H:%M" [('H', "10"), ('M', "20"), ('Y', "2024"), ('j', "15")]
      (mixedLoop ref [('H', "10"), ('M', "20"), ('Y', "2024"), ('j', "15")]
        [('H', "10"), ('M', "20"), ('Y', "2024"), ('j', "15")]
        (MixedState.start lastDayOf2023 someJunk)).1 rfl rfl rfl rfl).1).trans rfl⟩

theorem mixedCase_other {D : Type} (env : Env D) (info : IdToValue) (s : MixedState D)
    (c : Char) (v : String) (h : mixedCodes.contains c = false) :
    mixedCase env info s c v = .ok s := by
  unfold mixedCase
  split <;> first | rfl | (exact absurd h (by decide))

theorem mixedLoop_other {D : Type} (env : Env D) (info : IdToValue) :
    ∀ (l : IdToValue) (s : MixedState D), l.hasAny mixedCodes = false →
      mixedLoop env info l s = (s, none) := by
  intro l
  induction l with
  | nil => intro s _; rfl
  | cons e l ih =>
    intro s h
    simp only [IdToValue.hasAny, List.any_cons, Bool.or_eq_false_iff] at h
    simp only [mixedLoop, mixedCase_other env info s e.1 e.2 h.1]
    exact ih s h.2

/-- C9. `mixedScanTime` leaves the caller's instant unchanged (day, milliseconds of
day, fractional seconds and time system) and ends normally, for every input
whose extracted map contains none of the codes it has a `case` for; the empty
map of a format made only of literal text is one. -/
theorem mixedScanTime_unrecognised {D : Type} (env : Env D) (u : Indeterminate D)
    (t : CommonTime D) (str fmt : String) (info : IdToValue)
    (hinfo : env.getInfo str fmt = .ok info) (hnone : info.hasAny mixedCodes = false) :
    mixedScanTime env u t str fmt = { t := t, thrown := none } := by
  simp only [mixedScanTime, hinfo, mixedScanTimeInfo, mixedLoop_other env info info _ hnone]
  simp only [mixedOverrides, MixedState.start, CommonTime.setTimeSystem_getTimeSystem,
    Bool.false_eq_true, if_false]
  rfl

/-- C10 (amended). `mixedScanTime` with a year (code `Y`) and a day of year (code
`j`): for every caller-supplied instant whose year and day-of-year form keeps
its day of year and seconds of day when its year is replaced by `y` (converting
it to `CommonTime` with the new year succeeds and reads back unchanged), the
outcome is that of converting day of year `d` of year `y` with the caller's
seconds of day and time system; month and day of the caller's instant have no
other influence. -/
theorem mixedScanTime_year_doy {D : Type} (env : Env D) (u : Indeterminate D)
    (t : CommonTime D) (str fmt y d : String)
    (hinfo : env.getInfo str fmt = .ok [('Y', y), ('j', d)])
    (a : YDSTime D) (hfrom : env.yds.convertFromCommonTime t = .ok a)
    (c : CommonTime D)
    (hto : env.yds.convertToCommonTime { a with year := env.asInt y } = .ok c)
    (hback : env.yds.convertFromCommonTime c = .ok { a with year := env.asInt y }) :
    (mixedScanTime env u t str fmt).result =
      lib (env.yds.convertToCommonTime
        { year := env.asInt y, doy := env.asInt d, sod := a.sod, timeSystem := a.timeSystem }) := by
  simp only [mixedScanTime, hinfo, mixedScanTimeInfo, mixedLoop, mixedCase, MixedState.start,
    pure, Except.pure, mixedOverrides, CommonTime.setTimeSystem_getTimeSystem,
    overrideYear, overrideDayOfYear, hfrom, hto, hback, lib, bind, Except.bind,
    Bool.false_eq_true, if_false, if_true]
  cases env.yds.convertToCommonTime
    { year := env.asInt y, doy := env.asInt d, sod := a.sod, timeSystem := a.timeSystem } <;> rfl

/-! ## The statements evaluated on the reference environment -/

/-- Witness of C1: "2020-02-29 43215.5" against "%Y-%m-%d %s" is 29 February 2020
with the time of day taken from the seconds of day, 12:00:15.5. -/
theorem scanTime_civil_rule_witness :
    ref.getInfo "2020-02-29 43215.5" "%Y-%m-%d %s"
      = .ok [('Y', "2020"), ('d', "29"), ('m', "02"), ('s', "43215.5")] ∧
    (scanTime ref lastDayOf2023 "2020-02-29 43215.5" "%Y-%m-%d %s").result
      = .ok { m_day := 2458909, m_msod := 43215500, m_fsod := 0, m_timeSystem := .Unknown } :=
  ⟨rfl, (scanTime_civil_rule ref lastDayOf2023 "2020-02-29 43215.5" "%Y-%m-%d %s"
    [('Y', "2020"), ('d', "29"), ('m', "02"), ('s', "43215.5")] rfl rfl rfl rfl).trans rfl⟩

/-- Witness of C2: "2020 060 12:30:15" against "%Y %j %H:%M:%S" is day 60 of 2020
at 12:30:15. -/
theorem scanTime_yds_rule_witness :
    ref.getInfo "2020 060 12:30:15" "%Y %j %H:%M:%S"
      = .ok [('H', "12"), ('M', "30"), ('S', "15"), ('Y', "2020"), ('j', "060")] ∧
    (scanTime ref lastDayOf2023 "2020 060 12:30:15" "%Y %j %H:%M:%S").result
      = .ok { m_day := 2458909, m_msod := 45015000, m_fsod := 0, m_timeSystem := .Unknown } :=
  ⟨rfl, (scanTime_yds_rule ref lastDayOf2023 "2020 060 12:30:15" "%Y %j %H:%M:%S"
    [('H', "12"), ('M', "30"), ('S', "15"), ('Y', "2020"), ('j', "060")] rfl rfl rfl).trans rfl⟩

/-- Counterexample to C3 as stated: the map of "2 100" against "%E %c" holds an
epoch and the 29-bit Z-count and no mod-week code, so the condition of the
claim is false, yet the instant is built from `GPSWeekZcount`. -/
theorem scanTime_zcount_rule_counterexample :
    ref.getInfo "2 100" "%E %c" = .ok [('E', "2"), ('c', "100")] ∧
    IdToValue.hasAny [('E', "2"), ('c', "100")] yearCodes = false ∧
    IdToValue.hasAny [('E', "2"), ('c', "100")] modWeekCodes = false ∧
    zcountRuleAsClaimed [('E', "2"), ('c', "100")] = false ∧
    selectVariant (scanLoop ref lastDayOf2023 [('E', "2"), ('c', "100")])
      = some .WeekZcount ∧
    ¬ (selectVariant (scanLoop ref lastDayOf2023 [('E', "2"), ('c', "100")])
        = some .WeekZcount ↔
       zcountRuleAsClaimed [('E', "2"), ('c', "100")] = true) ∧
    scanTime ref lastDayOf2023 "2 100" "%E %c"
      = { t := { m_day := 2458581, m_msod := 150000, m_fsod := 0, m_timeSystem := .GPS },
          thrown := none } := by
  refine ⟨rfl, rfl, rfl, rfl, rfl, ?_, rfl⟩
  intro h
  exact absurd (h.mp rfl) (by decide)

/-- Witness of C3 as amended, on the same input. -/
theorem scanTime_zcount_rule_witness :
    selectVariant (scanLoop ref lastDayOf2023 [('E', "2"), ('c', "100")])
      = some .WeekZcount ∧
    (scanTime ref lastDayOf2023 "2 100" "%E %c").result
      = .ok { m_day := 2458581, m_msod := 150000, m_fsod := 0, m_timeSystem := .GPS } :=
  have h := scanTime_zcount_rule ref lastDayOf2023 "2 100" "%E %c"
    [('E', "2"), ('c', "100")] rfl rfl
  ⟨h.1.mpr (Or.inr (Or.inr ⟨rfl, Or.inl rfl⟩)), (h.2 rfl).trans rfl⟩

/-- Witness of C4: "2000 7 2" against "%D %i %w" has a BeiDou full week and a QZSS
week; the instant is built from `BDSWeekSecond`, week 2000, day 2 of the week. -/
theorem scanTime_week_rule_witness :
    ref.getInfo "2000 7 2" "%D %i %w" = .ok [('D', "2000"), ('i', "7"), ('w', "2")] ∧
    selectVariant (scanLoop ref lastDayOf2023 [('D', "2000"), ('i', "7"), ('w', "2")])
      = some .BDSWeek ∧
    (scanTime ref lastDayOf2023 "2000 7 2" "%D %i %w").result
      = .ok { m_day := 2467739, m_msod := 0, m_fsod := 0, m_timeSystem := .BDT } :=
  have h := scanTime_week_rule ref lastDayOf2023 "2000 7 2" "%D %i %w"
    [('D', "2000"), ('i', "7"), ('w', "2")] rfl rfl (Or.inl rfl) (Or.inl rfl)
  ⟨rfl, h.1.trans rfl, h.2.2.2.trans rfl⟩

/-- The defect behind C5: on "2000 Tuesday" against "%F %A" the loop finds the day
of week (`hdow`, `idow = 2`) and the week branch stores seconds of week
`asInt(info['w']) * 86400 = 0`, the start of Sunday, where "2000 2" against
"%F %w" gives the start of Tuesday, two days later. -/
theorem scanTime_weekday_name_sow :
    ref.getInfo "2000 Tuesday" "%F %A" = .ok [('A', "Tuesday"), ('F', "2000")] ∧
    (scanLoop ref lastDayOf2023 [('A', "Tuesday"), ('F', "2000")]).hdow = true ∧
    (scanLoop ref lastDayOf2023 [('A', "Tuesday"), ('F', "2000")]).hsow = false ∧
    (scanLoop ref lastDayOf2023 [('A', "Tuesday"), ('F', "2000")]).idow = 2 ∧
    scanSow ref (scanLoop ref lastDayOf2023 [('A', "Tuesday"), ('F', "2000")]) = 0 ∧
    scanTime ref lastDayOf2023 "2000 Tuesday" "%F %A"
      = { t := { m_day := 2458245, m_msod := 0, m_fsod := 0, m_timeSystem := .GPS },
          thrown := none } ∧
    scanTime ref lastDayOf2023 "2000 2" "%F %w"
      = { t := { m_day := 2458247, m_msod := 0, m_fsod := 0, m_timeSystem := .GPS },
          thrown := none } :=
  ⟨rfl, rfl, rfl, rfl, rfl, rfl, rfl⟩

/-- Witness of C9: "hello" against the format "hello", literal text only, leaves
the caller's instant as it was. -/
theorem mixedScanTime_unrecognised_witness :
    ref.getInfo "hello" "hello" = .ok [] ∧
    mixedScanTime ref someJunk lastDayOf2023 "hello" "hello"
      = { t := lastDayOf2023, thrown := none } :=
  ⟨rfl, mixedScanTime_unrecognised ref someJunk lastDayOf2023 "hello" "hello" [] rfl rfl⟩

/-- Counterexample to C10 as stated: the caller's instant is 2024-12-31, day 366 of
a leap year; with "2023 15" against "%Y %j" the year override builds day 366
of 2023, which does not exist, and the call ends with that conversion's
`InvalidRequest`; day 15 of 2023 with the caller's seconds of day, which the
claim promises, is a valid instant and is not what results. -/
theorem mixedScanTime_year_doy_counterexample :
    ref.getInfo "2023 15" "%Y %j" = .ok [('Y', "2023"), ('j', "15")] ∧
    ref.yds.convertFromCommonTime lastDayOf2024
      = .ok { year := 2024, doy := 366, sod := 43200500000000, timeSystem := .UTC } ∧
    ref.yds.convertToCommonTime
        { year := 2023, doy := 15, sod := 43200500000000, timeSystem := .UTC }
      = .ok { m_day := 2459960, m_msod := 43200500, m_fsod := 0, m_timeSystem := .UTC } ∧
    (mixedScanTime ref someJunk lastDayOf2024 "2023 15" "%Y %j").result
      ≠ .ok { m_day := 2459960, m_msod := 43200500, m_fsod := 0, m_timeSystem := .UTC } ∧
    mixedScanTime ref someJunk lastDayOf2024 "2023 15" "%Y %j"
      = { t := lastDayOf2024,
          thrown := some (.library (Ref.invalid "day of year out of range")) } := by
  refine ⟨rfl, rfl, rfl, ?_, rfl⟩
  intro h
  cases h

/-- Witness of C10 as amended: "2024 15" against "%Y %j" on 2023-12-31 12:00:00.5
gives day 15 of 2024 at 12:00:00.5. -/
theorem mixedScanTime_year_doy_witness :
    (mixedScanTime ref someJunk lastDayOf2023 "2024 15" "%Y %j").result
      = .ok { m_day := 2460325, m_msod := 43200500, m_fsod := 0, m_timeSystem := .UTC } :=
  (mixedScanTime_year_doy ref someJunk lastDayOf2023 "2024 15" "%Y %j" "2024" "15" rfl
    { year := 2023, doy := 365, sod := 43200500000000, timeSystem := .UTC } rfl
    { m_day := 2460675, m_msod := 43200500, m_fsod := 0, m_timeSystem := .UTC } rfl rfl).trans rfl

/-! ## printTime -/

theorem threadThrough_append {D : Type} (env : Env D) (pr : Printers D) (t : CommonTime D)
    (pre post : List Variant) (rv : String) :
    threadThrough env pr t (pre ++ post) rv =
      (threadThrough env pr t pre rv >>= threadThrough env pr t post) := by
  induction pre generalizing rv with
  | nil => rfl
  | cons v vs ih =>
    simp only [List.cons_append, threadThrough]
    cases v.substitute env pr t rv with
    | error e => rfl
    | ok s => exact ih s

theorem threadThrough_unchanged {D : Type} (env : Env D) (pr : Printers D) (t : CommonTime D)
    (pre : List Variant) (rv : String)
    (h : ∀ w ∈ pre, w.substitute env pr t rv = .ok rv) :
    threadThrough env pr t pre rv = .ok rv := by
  induction pre with
  | nil => rfl
  | cons v vs ih =>
    simp only [threadThrough, h v (List.mem_cons_self v vs)]
    exact ih (fun w hw => h w (List.mem_cons_of_mem v hw))

/-- C11. `printTime(t, fmt)` is `fmt` threaded through the `printf` of each variant
built from `t`, in the fixed order `ANSITime`, `CivilTime`, `GPSWeekSecond`,
`GPSWeekZcount`, `JulianDate`, `MJD`, `UnixTime`, `PosixTime`, `YDSTime`,
`GALWeekSecond`, `BDSWeekSecond`, `QZSWeekSecond`, `IRNWeekSecond`, each variant
receiving the string produced by the previous one (a variant that raises
`InvalidRequest` hands on the string it received); so the first variant of
that order that changes the template works on the template itself, and the
variants after it only see what it produced. -/
theorem printTime_order {D : Type} (env : Env D) (pr : Printers D) (t : CommonTime D)
    (fmt : String) :
    printTime env pr t fmt =
      threadThrough env pr t
        [.ANSI, .Civil, .GPSWeek, .WeekZcount, .Julian, .MJD, .Unix, .Posix, .YDS,
         .GALWeek, .BDSWeek, .QZSWeek, .IRNWeek] fmt ∧
    ∀ (pre : List Variant) (v : Variant) (post : List Variant),
      [Variant.ANSI, .Civil, .GPSWeek, .WeekZcount, .Julian, .MJD, .Unix, .Posix, .YDS,
         .GALWeek, .BDSWeek, .QZSWeek, .IRNWeek] = pre ++ v :: post →
      (∀ w ∈ pre, w.substitute env pr t fmt = .ok fmt) →
      printTime env pr t fmt =
        (v.substitute env pr t fmt >>= threadThrough env pr t post) := by
  have h0 : printTime env pr t fmt = threadThrough env pr t printOrder fmt := rfl
  refine ⟨h0, ?_⟩
  intro pre v post hsplit hpre
  rw [h0, printOrder, hsplit, threadThrough_append,
    threadThrough_unchanged env pr t pre fmt hpre]
  rfl

theorem substitute_kind {D : Type} (env : Env D) (pr : Printers D) (t : CommonTime D)
    (v : Variant) (rv : String) (e : Thrown)
    (h : v.substitute env pr t rv = .error e) : e.kind ≠ .InvalidRequest := by
  unfold Variant.substitute at h
  cases hp : v.printf env pr t rv with
  | ok s => simp [hp] at h
  | error x =>
    simp only [hp] at h
    by_cases hk : x.kind = .InvalidRequest
    · simp [hk] at h
    · simp only [hk, if_false, Except.error.injEq] at h
      subst h
      exact hk

theorem threadThrough_kind {D : Type} (env : Env D) (pr : Printers D) (t : CommonTime D)
    (vs : List Variant) (rv : String) (e : Thrown)
    (h : threadThrough env pr t vs rv = .error e) : e.kind ≠ .InvalidRequest := by
  induction vs generalizing rv with
  | nil => cases h
  | cons v vs ih =>
    simp only [threadThrough] at h
    cases hs : v.substitute env pr t rv with
    | error x =>
      rw [hs] at h
      cases h
      exact substitute_kind env pr t v rv _ hs
    | ok s =>
      rw [hs] at h
      exact ih s h

theorem threadThrough_returns {D : Type} (env : Env D) (pr : Printers D) (t : CommonTime D)
    (vs : List Variant)
    (h : ∀ (v : Variant) (rv : String) (e : LibExn), v.printf env pr t rv = .error e →
      e.kind = .InvalidRequest) :
    ∀ rv, ∃ s, threadThrough env pr t vs rv = .ok s := by
  induction vs with
  | nil => intro rv; exact ⟨rv, rfl⟩
  | cons v vs ih =>
    intro rv
    simp only [threadThrough]
    have hs : ∃ s, v.substitute env pr t rv = .ok s := by
      unfold Variant.substitute
      cases hp : v.printf env pr t rv with
      | ok s => exact ⟨s, rfl⟩
      | error x => exact ⟨rv, by simp [h v rv x hp]⟩
    obtain ⟨s, hs⟩ := hs
    rw [hs]
    exact ih s

/-- C12. `printTime` never fails with `InvalidRequest`: whatever escapes from it is
of another class; a variant whose construction from the instant or whose
`printf` raises `InvalidRequest` is skipped, the string passing on unchanged;
when no variant raises anything but `InvalidRequest` the call returns; and
when every variant raises `InvalidRequest` the result is the template
unchanged. -/
theorem printTime_swallows_InvalidRequest {D : Type} (env : Env D) (pr : Printers D)
    (t : CommonTime D) (fmt : String) :
    (∀ e, printTime env pr t fmt = .error e → e.kind ≠ .InvalidRequest) ∧
    (∀ (v : Variant) (rv : String) (e : LibExn), v.printf env pr t rv = .error e →
      e.kind = .InvalidRequest → v.substitute env pr t rv = .ok rv) ∧
    ((∀ (v : Variant) (rv : String) (e : LibExn), v.printf env pr t rv = .error e →
        e.kind = .InvalidRequest) →
      ∃ s, printTime env pr t fmt = .ok s) ∧
    ((∀ v ∈ printOrder, ∃ e, v.printf env pr t fmt = .error e ∧ e.kind = .InvalidRequest) →
      printTime env pr t fmt = .ok fmt) := by
  have h0 : printTime env pr t fmt = threadThrough env pr t printOrder fmt := rfl
  refine ⟨?_, ?_, ?_, ?_⟩
  · intro e h
    exact threadThrough_kind env pr t printOrder fmt e (h0 ▸ h)
  · intro v rv e hp hk
    simp [Variant.substitute, hp, hk]
  · intro h
    rw [h0]
    exact threadThrough_returns env pr t printOrder h fmt
  · intro h
    rw [h0]
    apply threadThrough_unchanged
    intro w hw
    obtain ⟨e, hp, hk⟩ := h w hw
    simp [Variant.substitute, hp, hk]

/-! ## scanTime (TimeTag&, str, fmt) -/

/-- C13. `scanTime(TimeTag&, str, fmt)`: when the target's `setFromInfo` accepts the
extracted map (returns true) the target is left exactly as `setFromInfo` set
it, whatever the conversions would do; otherwise the target ends as
`convertFromCommonTime` of the instant that `scanTime(CommonTime&, str, fmt)`
produces when started from the `convertToCommonTime` value of the target (as
`setFromInfo` left it), and an exception raised on that path, the
`InvalidRequest` of `scanTime(CommonTime&, ...)` included, reaches the
caller. -/
theorem scanTimeTag_paths {D T : Type} (env : Env D) (ops : TimeTagOps D T) (btime : T)
    (str fmt : String) (info : IdToValue) (hinfo : env.getInfo str fmt = .ok info) :
    (∀ b, ops.setFromInfo btime info = .ok (b, true) →
      scanTimeTag env ops btime str fmt = .ok b) ∧
    (∀ b, ops.setFromInfo btime info = .ok (b, false) →
      scanTimeTag env ops btime str fmt =
        (lib (ops.convertToCommonTime b) >>= fun ct =>
          (scanTime env ct str fmt).result >>= fun ct2 =>
            lib (ops.convertFromCommonTime ct2))) ∧
    (∀ b ct e, ops.setFromInfo btime info = .ok (b, false) →
      ops.convertToCommonTime b = .ok ct →
      (scanTime env ct str fmt).thrown = some e →
      scanTimeTag env ops btime str fmt = .error e) := by
  refine ⟨?_, ?_, ?_⟩
  · intro b h
    simp [scanTimeTag, hinfo, h, lib, bind, Except.bind, pure, Except.pure]
  · intro b h
    simp [scanTimeTag, hinfo, h, lib, bind, Except.bind]
  · intro b ct e h hct he
    simp [scanTimeTag, hinfo, h, hct, lib, bind, Except.bind, Outcome.result, he]

/-! ## The two loops compared -/

/-- The defect behind C14: the QZSS full week.  `scanTime(CommonTime&, ...)` has
`case 'h': hfullweek = hqzsfw = true` and no case for `I`; `mixedScanTime` has
`case 'I': hfullweek = hqzsfw = true` and no case for `h`.  So a map holding
`h` makes the loop of `scanTime` set the full week and QZSS flags and leaves
every flag of `mixedScanTime` unset, and a map holding `I` does the reverse;
`D`, `L` and `O` set the full week flag and their system flag in both.  On the
reference environment "2000" against "%h" is week 2000 of QZSS for `scanTime`
and leaves the instant untouched in `mixedScanTime`. -/
theorem qzss_full_week_code_differs {D : Type} (env : Env D) (u : Indeterminate D)
    (t : CommonTime D) (v : String) :
    ((scanLoop env t [('h', v)]).hfullweek = true ∧
      (scanLoop env t [('h', v)]).hqzsfw = true) ∧
    mixedLoop env [('h', v)] [('h', v)] (MixedState.start t u) = (MixedState.start t u, none) ∧
    ((MixedState.start t u).hfullweek = false ∧ (MixedState.start t u).hqzsfw = false) ∧
    ((scanLoop env t [('I', v)]).hfullweek = false ∧
      (scanLoop env t [('I', v)]).hqzsfw = false) ∧
    (∃ s, mixedLoop env [('I', v)] [('I', v)] (MixedState.start t u) = (s, none) ∧
      s.hfullweek = true ∧ s.hqzsfw = true) ∧
    ((scanLoop env t [('D', v)]).hfullweek = true ∧ (scanLoop env t [('D', v)]).hbdsfw = true ∧
     (scanLoop env t [('L', v)]).hfullweek = true ∧ (scanLoop env t [('L', v)]).hgalfw = true ∧
     (scanLoop env t [('O', v)]).hfullweek = true ∧ (scanLoop env t [('O', v)]).hirnfw = true) ∧
    (∃ sD sL sO,
      mixedLoop env [('D', v)] [('D', v)] (MixedState.start t u) = (sD, none) ∧
      sD.hfullweek = true ∧ sD.hbdsfw = true ∧
      mixedLoop env [('L', v)] [('L', v)] (MixedState.start t u) = (sL, none) ∧
      sL.hfullweek = true ∧ sL.hgalfw = true ∧
      mixedLoop env [('O', v)] [('O', v)] (MixedState.start t u) = (sO, none) ∧
      sO.hfullweek = true ∧ sO.hirnfw = true) ∧
    scanTime ref lastDayOf2023 "2000" "%h"
      = { t := { m_day := 2458245, m_msod := 0, m_fsod := 0, m_timeSystem := .QZS },
          thrown := none } ∧
    mixedScanTime ref someJunk lastDayOf2023 "2000" "%h"
      = { t := lastDayOf2023, thrown := none } :=
  ⟨⟨rfl, rfl⟩, rfl, ⟨rfl, rfl⟩, ⟨rfl, rfl⟩, ⟨_, rfl, rfl, rfl⟩,
   ⟨rfl, rfl, rfl, rfl, rfl, rfl⟩, ⟨_, _, _, rfl, rfl, rfl, rfl, rfl, rfl, rfl, rfl, rfl⟩,
   rfl, rfl⟩

/-! ## mixedScanTime: the two digit year -/

theorem mixedLoop_fails_of_mem {D : Type} (env : Env D) (info : IdToValue)
    (e : Char × String) (hfail : ∀ s, ∃ x, mixedCase env info s e.1 e.2 = .error x) :
    ∀ (l : IdToValue) (s : MixedState D), e ∈ l → (mixedLoop env info l s).2 ≠ none := by
  intro l
  induction l with
  | nil => intro s h; cases h
  | cons a l ih =>
    intro s h
    simp only [mixedLoop]
    cases hc : mixedCase env info s a.1 a.2 with
    | error x => simp
    | ok s2 =>
      simp only
      rcases List.mem_cons.mp h with h | h
      · subst h
        obtain ⟨x, hx⟩ := hfail s
        rw [hx] at hc
        cases hc
      · exact ih s2 h

/-- C15. `mixedScanTime`, two digit year (code `y`): for every field text of at most
two characters that `asInt` reads as an integer `n` in 0..99, the case stores
the year `1900 + n` when `n >= 69` and `2000 + n` when `n <= 68`, a year in
1969..2068, and on a map holding only `y` that is the year the year override
applies to the caller's instant; a field text longer than two characters
raises the `Exception` "Invalid format for %y", and every call whose map
holds such a text under `y` ends with an exception. -/
theorem mixedScanTime_two_digit_year {D : Type} (env : Env D) (u : Indeterminate D)
    (t : CommonTime D) (v : String) :
    (v.length ≤ 2 → 0 ≤ env.asInt v → env.asInt v ≤ 99 →
      (∀ (info : IdToValue) (s : MixedState D), ∃ s2,
        mixedCase env info s 'y' v = .ok s2 ∧ s2.hyear = true ∧
        s2.iyear = (if env.asInt v ≥ 69 then 1900 + env.asInt v else 2000 + env.asInt v) ∧
        1969 ≤ s2.iyear ∧ s2.iyear ≤ 2068) ∧
      (mixedScanTimeInfo env u t [('y', v)]).result =
        (lib (env.yds.convertFromCommonTime t) >>= fun tt =>
          lib (env.yds.convertToCommonTime
            { tt with year :=
                if env.asInt v ≥ 69 then 1900 + env.asInt v else 2000 + env.asInt v }))) ∧
    (v.length > 2 →
      (∀ (info : IdToValue) (s : MixedState D),
        mixedCase env info s 'y' v = .error .invalidYearFormat) ∧
      (∀ (str fmt : String) (info : IdToValue), env.getInfo str fmt = .ok info →
        ('y', v) ∈ info → (mixedScanTime env u t str fmt).thrown ≠ none)) := by
  constructor
  · intro hlen h0 h99
    have hnot : ¬ v.length > 2 := by omega
    constructor
    · intro info s
      by_cases h69 : env.asInt v ≥ 69
      · refine ⟨{ s with hyear := true, iyear := env.asInt v + 1900 }, ?_, ?_, ?_, ?_, ?_⟩
        · simp only [mixedCase, hnot, h69, if_false, if_true]
          rfl
        · rfl
        · simp only [h69, if_true]
          omega
        · show 1969 ≤ env.asInt v + 1900
          omega
        · show env.asInt v + 1900 ≤ 2068
          omega
      · refine ⟨{ s with hyear := true, iyear := env.asInt v + 2000 }, ?_, ?_, ?_, ?_, ?_⟩
        · simp only [mixedCase, hnot, h69, if_false]
          rfl
        · rfl
        · simp only [h69, if_false]
          omega
        · show 1969 ≤ env.asInt v + 2000
          omega
        · show env.asInt v + 2000 ≤ 2068
          omega
    · by_cases h69 : env.asInt v ≥ 69
      · simp only [mixedScanTimeInfo, mixedLoop, mixedCase, hnot, h69, if_false, if_true,
          pure, Except.pure, MixedState.start, mixedOverrides,
          CommonTime.setTimeSystem_getTimeSystem, Bool.false_eq_true, overrideYear, bind,
          Except.bind, Int.add_comm 1900]
        cases lib (env.yds.convertFromCommonTime t) with
        | error e => rfl
        | ok tt =>
          simp only
          cases lib (env.yds.convertToCommonTime
            { year := env.asInt v + 1900, doy := tt.doy, sod := tt.sod,
              timeSystem := tt.timeSystem }) <;> rfl
      · simp only [mixedScanTimeInfo, mixedLoop, mixedCase, hnot, h69, if_false,
          pure, Except.pure, MixedState.start, mixedOverrides,
          CommonTime.setTimeSystem_getTimeSystem, Bool.false_eq_true, overrideYear, bind,
          Except.bind, Int.add_comm 2000, if_true]
        cases lib (env.yds.convertFromCommonTime t) with
        | error e => rfl
        | ok tt =>
          simp only
          cases lib (env.yds.convertToCommonTime
            { year := env.asInt v + 2000, doy := tt.doy, sod := tt.sod,
              timeSystem := tt.timeSystem }) <;> rfl
  · intro hlen
    have hcase : ∀ (info : IdToValue) (s : MixedState D),
        mixedCase env info s 'y' v = .error .invalidYearFormat := by
      intro info s
      simp only [mixedCase, hlen, if_true]
      rfl
    refine ⟨hcase, ?_⟩
    intro str fmt info hinfo hmem
    have hloop := mixedLoop_fails_of_mem env info ('y', v) (fun s => ⟨_, hcase info s⟩)
      info (MixedState.start t u) hmem
    simp only [mixedScanTime, hinfo, mixedScanTimeInfo]
    cases hl : mixedLoop env info info (MixedState.start t u) with
    | mk s o =>
      rw [hl] at hloop
      cases o with
      | none => exact absurd rfl hloop
      | some x => simp

/-! ## Witnesses: printTime and scanTime on a time tag -/

theorem printTime_order_witness :
    printTime ref Ref.printers lastDayOf2023 "week %F" =
      (Variant.substitute ref Ref.printers lastDayOf2023 .GPSWeek "week %F" >>=
        threadThrough ref Ref.printers lastDayOf2023
          [.WeekZcount, .Julian, .MJD, .Unix, .Posix, .YDS,
           .GALWeek, .BDSWeek, .QZSWeek, .IRNWeek]) ∧
    Variant.substitute ref Ref.printers lastDayOf2023 .GPSWeek "week %F" = .ok "week 2295" ∧
    printTime ref Ref.printers lastDayOf2023 "week %F" = .ok "week 2295" :=
  ⟨(printTime_order ref Ref.printers lastDayOf2023 "week %F").2 [.ANSI, .Civil] .GPSWeek
      [.WeekZcount, .Julian, .MJD, .Unix, .Posix, .YDS,
       .GALWeek, .BDSWeek, .QZSWeek, .IRNWeek] rfl
      (fun w hw => by
        rcases List.mem_cons.mp hw with h | h
        · subst h
          rfl
        · rw [List.mem_singleton] at h
          subst h
          rfl),
   rfl, rfl⟩

theorem printTime_swallows_InvalidRequest_witness :
    (Variant.printf ref Ref.printers beforeEpochs .Unix "U=%U" =
        .error (Ref.invalid "instant before 1970") ∧
      Variant.substitute ref Ref.printers beforeEpochs .Unix "U=%U" = .ok "U=%U") ∧
    (∃ s, printTime ref Ref.printers beforeEpochs "%Y U=%U" = .ok s) ∧
    printTime ref Ref.printers beforeEpochs "%Y U=%U" = .ok "1969 U=%U" ∧
    printTime ref Ref.refusing lastDayOf2023 "%Y U=%U" = .ok "%Y U=%U" :=
  ⟨⟨rfl, (printTime_swallows_InvalidRequest ref Ref.printers beforeEpochs "%Y U=%U").2.1
      .Unix "U=%U" (Ref.invalid "instant before 1970") rfl rfl⟩,
   (printTime_swallows_InvalidRequest ref Ref.printers beforeEpochs "%Y U=%U").2.2.1
      (fun v rv e h => by
        cases v <;> first
          | (cases h; done)
          | (cases h; rfl)),
   rfl,
   (printTime_swallows_InvalidRequest ref Ref.refusing lastDayOf2023 "%Y U=%U").2.2.2
      (fun v hv => by
        simp only [printOrder, List.mem_cons, List.mem_singleton, List.not_mem_nil,
          or_false] at hv
        rcases hv with h | h | h | h | h | h | h | h | h | h | h | h | h <;> subst h <;>
          exact ⟨_, rfl, rfl⟩)⟩

theorem scanTimeTag_paths_witness :
    scanTimeTag ref ref.civil firstDayOf2000 "2020 02 29" "%Y %m %d" =
      .ok { year := 2020, month := 2, day := 29, hour := 0, minute := 0, second := 0,
            timeSystem := .GPS } ∧
    ref.civil.setFromInfo firstDayOf2000 [('B', "Foo"), ('Y', "2020"), ('j', "060")] =
      .ok (firstDayOf2000, false) ∧
    scanTimeTag ref ref.civil firstDayOf2000 "Foo 2020 060" "%B %Y %j" =
      (lib (ref.civil.convertToCommonTime firstDayOf2000) >>= fun ct =>
        (scanTime ref ct "Foo 2020 060" "%B %Y %j").result >>= fun ct2 =>
          lib (ref.civil.convertFromCommonTime ct2)) ∧
    scanTimeTag ref ref.civil firstDayOf2000 "Foo 2020 060" "%B %Y %j" =
      .ok { year := 2020, month := 2, day := 29, hour := 0, minute := 0, second := 0,
            timeSystem := .Unknown } ∧
    scanTimeTag ref ref.civil firstDayOf2000 "Foo 2020" "%B %Y" =
      .error (.library (Ref.invalid "day of year out of range")) :=
  ⟨(scanTimeTag_paths ref ref.civil firstDayOf2000 "2020 02 29" "%Y %m %d"
      [('Y', "2020"), ('d', "29"), ('m', "02")] rfl).1 _ rfl,
   rfl,
   (scanTimeTag_paths ref ref.civil firstDayOf2000 "Foo 2020 060" "%B %Y %j"
      [('B', "Foo"), ('Y', "2020"), ('j', "060")] rfl).2.1 _ rfl,
   rfl,
   (scanTimeTag_paths ref ref.civil firstDayOf2000 "Foo 2020" "%B %Y"
      [('B', "Foo"), ('Y', "2020")] rfl).2.2 firstDayOf2000
      { m_day := 2451545, m_msod := 0, m_fsod := 0, m_timeSystem := .GPS }
      (.library (Ref.invalid "day of year out of range")) rfl rfl rfl⟩

theorem mixedScanTime_two_digit_year_witness :
    (mixedScanTimeInfo ref someJunk lastDayOf2023 [('y', "69")]).result =
      (lib (ref.yds.convertFromCommonTime lastDayOf2023) >>= fun tt =>
        lib (ref.yds.convertToCommonTime
          { tt with year := if ref.asInt "69" ≥ 69 then 1900 + ref.asInt "69"
                            else 2000 + ref.asInt "69" })) ∧
    mixedScanTime ref someJunk lastDayOf2023 "69" "%y" =
      { t := { m_day := 2440587, m_msod := 43200500, m_fsod := 0, m_timeSystem := .UTC },
        thrown := none } ∧
    mixedScanTime ref someJunk lastDayOf2023 "07" "%y" =
      { t := { m_day := 2454466, m_msod := 43200500, m_fsod := 0, m_timeSystem := .UTC },
        thrown := none } ∧
    (mixedScanTime ref someJunk lastDayOf2023 "123 100" "%y %j").thrown ≠ none ∧
    mixedScanTime ref someJunk lastDayOf2023 "123" "%y" =
      { t := lastDayOf2023, thrown := some .invalidYearFormat } :=
  ⟨((mixedScanTime_two_digit_year ref someJunk lastDayOf2023 "69").1
      (by decide) (by decide) (by decide)).2,
   rfl, rfl,
   ((mixedScanTime_two_digit_year ref someJunk lastDayOf2023 "123").2 (by decide)).2
      "123 100" "%y %j" [('j', "100"), ('y', "123")] rfl (by decide),
   rfl⟩

/-! ## CommonTime -/

/-- C16. `CommonTime::reset()`: whatever the prior state, after `reset` the stored
day is 0, the milliseconds of day 0, the fractional seconds 0.0 and the time
system `Unknown` (as `getInternal` reads them); resetting twice is resetting
once; and the reset state is inside the ranges of the table in the comment of
the class and inside the day limits. -/
theorem reset_state {D : Type} [LinearOrderedField D] (t : CommonTime D) :
    t.reset.getInternal = (0, 0, 0, TimeSystem.Unknown) ∧
    t.reset.reset = t.reset ∧
    t.reset.InDocumentedRanges ∧
    t.reset.Valid := by
  refine ⟨rfl, rfl, ?_, ?_⟩
  · simp [CommonTime.InDocumentedRanges, CommonTime.reset]
  · simp [CommonTime.Valid, CommonTime.reset, CommonTime.MS_PER_DAY,
      CommonTime.BEGIN_LIMIT_JDAY, CommonTime.END_LIMIT_JDAY, Ref.END_LIMIT_JDAY]

theorem normalize_valid {D : Type} [LinearOrderedField D] [FloorRing D] (t : CommonTime D)
    (h : t.normalize.2 = true) : t.normalize.1.Valid := by
  simp only [CommonTime.normalize, decide_eq_true_eq] at h
  refine ⟨⟨?_, ?_⟩, ⟨?_, ?_⟩, h⟩
  · exact Int.emod_nonneg _ (by decide)
  · exact Int.emod_lt_of_pos _ (by decide)
  · show 0 ≤ t.m_fsod - ((⌊t.m_fsod * 1000⌋ : Int) : D) / 1000
    have h1 := Int.floor_le (t.m_fsod * 1000)
    rw [sub_nonneg, div_le_iff₀ (by norm_num)]
    exact h1
  · show t.m_fsod - ((⌊t.m_fsod * 1000⌋ : Int) : D) / 1000 < 1 / 1000
    have h1 := Int.lt_floor_add_one (t.m_fsod * 1000)
    rw [sub_lt_iff_lt_add, ← add_div, lt_div_iff₀ (by norm_num)]
    linarith

theorem normalize_flag {D : Type} [LinearOrderedField D] [FloorRing D] (t : CommonTime D) :
    t.normalize.2 = true ↔ t.normalize.1.Valid := by
  constructor
  · exact normalize_valid t
  · intro h
    have h3 := h.2.2
    simpa only [CommonTime.normalize, decide_eq_true_eq] using h3

theorem setInternal_ok {D : Type} [LinearOrderedField D] (day msod : Int) (fsod : D)
    (ts : TimeSystem)
    (h : CommonTime.Valid
      ({ m_day := day, m_msod := msod, m_fsod := fsod, m_timeSystem := ts } : CommonTime D)) :
    CommonTime.setInternal day msod fsod ts =
      .ok { m_day := day, m_msod := msod, m_fsod := fsod, m_timeSystem := ts } := by
  obtain ⟨⟨h1, h2⟩, ⟨h3, h4⟩, h5, h6⟩ := h
  unfold CommonTime.setInternal
  rw [if_neg (by push_neg; exact ⟨h5, h6⟩), if_neg (by push_neg; exact ⟨h1, h2⟩),
    if_neg (by push_neg; exact ⟨h3, h4⟩)]

theorem setInternal_error {D : Type} [LinearOrderedField D] (day msod : Int) (fsod : D)
    (ts : TimeSystem)
    (h : ¬ CommonTime.Valid
      ({ m_day := day, m_msod := msod, m_fsod := fsod, m_timeSystem := ts } : CommonTime D)) :
    CommonTime.setInternal day msod fsod ts = .error CommonTime.outOfRange := by
  unfold CommonTime.setInternal
  split_ifs with h1 h2 h3
  · rfl
  · rfl
  · rfl
  · exfalso
    push_neg at h1 h2 h3
    exact h ⟨h2, h3, h1⟩

theorem set_ok {D : Type} [LinearOrderedField D] [FloorRing D] (day sod : Int) (fsod : D)
    (ts : TimeSystem)
    (hd : CommonTime.BEGIN_LIMIT_JDAY ≤ day ∧ day < CommonTime.END_LIMIT_JDAY)
    (hs : 0 ≤ sod ∧ sod < 86400) (hf : 0 ≤ fsod ∧ fsod < 1) :
    CommonTime.set day sod fsod ts =
      .ok { m_day := day, m_msod := sod * 1000 + ⌊fsod * 1000⌋,
            m_fsod := fsod - ((⌊fsod * 1000⌋ : Int) : D) / 1000, m_timeSystem := ts } := by
  unfold CommonTime.set
  rw [if_neg (by push_neg; exact hd), if_neg (by unfold SEC_PER_DAY; push_neg; exact hs),
    if_neg (by push_neg; exact hf)]

theorem set_error {D : Type} [LinearOrderedField D] [FloorRing D] (day sod : Int) (fsod : D)
    (ts : TimeSystem)
    (h : ¬ ((CommonTime.BEGIN_LIMIT_JDAY ≤ day ∧ day < CommonTime.END_LIMIT_JDAY) ∧
      (0 ≤ sod ∧ sod < 86400) ∧ (0 ≤ fsod ∧ fsod < 1))) :
    CommonTime.set day sod fsod ts = .error CommonTime.outOfRange := by
  unfold CommonTime.set
  split_ifs with h1 h2 h3
  · rfl
  · rfl
  · rfl
  · exfalso
    unfold SEC_PER_DAY at h2
    push_neg at h1 h2 h3
    exact h ⟨h1, h2, h3⟩

theorem set_valid {D : Type} [LinearOrderedField D] [FloorRing D] (day sod : Int) (fsod : D)
    (ts : TimeSystem) (r : CommonTime D) (h : CommonTime.set day sod fsod ts = .ok r) :
    r.Valid := by
  by_cases hv : (CommonTime.BEGIN_LIMIT_JDAY ≤ day ∧ day < CommonTime.END_LIMIT_JDAY) ∧
      (0 ≤ sod ∧ sod < 86400) ∧ (0 ≤ fsod ∧ fsod < 1)
  · obtain ⟨hd, hs, hf⟩ := hv
    rw [set_ok day sod fsod ts hd hs hf] at h
    injection h with h
    subst h
    have hfl0 : (0 : Int) ≤ ⌊fsod * 1000⌋ := Int.floor_nonneg.2 (by linarith [hf.1])
    have hfl1 : ⌊fsod * 1000⌋ < (1000 : Int) := by
      rw [Int.floor_lt]
      push_cast
      linarith [hf.2]
    refine ⟨⟨?_, ?_⟩, ⟨?_, ?_⟩, hd⟩
    · show 0 ≤ sod * 1000 + ⌊fsod * 1000⌋
      omega
    · show sod * 1000 + ⌊fsod * 1000⌋ < CommonTime.MS_PER_DAY
      unfold CommonTime.MS_PER_DAY
      omega
    · show 0 ≤ fsod - ((⌊fsod * 1000⌋ : Int) : D) / 1000
      have h1 := Int.floor_le (fsod * 1000)
      rw [sub_nonneg, div_le_iff₀ (by norm_num)]
      exact h1
    · show fsod - ((⌊fsod * 1000⌋ : Int) : D) / 1000 < 1 / 1000
      have h1 := Int.lt_floor_add_one (fsod * 1000)
      rw [sub_lt_iff_lt_add, ← add_div, lt_div_iff₀ (by norm_num)]
      linarith
  · rw [set_error day sod fsod ts hv] at h
    cases h

theorem setInternal_valid {D : Type} [LinearOrderedField D] (day msod : Int)
    (fsod : D) (ts : TimeSystem) (r : CommonTime D)
    (h : CommonTime.setInternal day msod fsod ts = .ok r) : r.Valid := by
  by_cases hv : CommonTime.Valid
      ({ m_day := day, m_msod := msod, m_fsod := fsod, m_timeSystem := ts } : CommonTime D)
  · rw [setInternal_ok day msod fsod ts hv] at h
    injection h with h
    subst h
    exact hv
  · rw [setInternal_error day msod fsod ts hv] at h
    cases h

theorem add_valid {D : Type} [LinearOrderedField D] [FloorRing D] (t : CommonTime D)
    (days msod : Int) (fsod : D) (r : CommonTime D)
    (h : (if (t.add days msod fsod).2 then Except.ok (t.add days msod fsod).1
          else Except.error CommonTime.overflow) = Except.ok r) : r.Valid := by
  by_cases hf : (t.add days msod fsod).2 = true
  · simp only [hf, if_true, Except.ok.injEq] at h
    subst h
    exact normalize_valid _ hf
  · simp [hf] at h

theorem produced_valid {D : Type} [LinearOrderedField D] [FloorRing D] (t : CommonTime D)
    (h : CommonTime.Produced t) : t.Valid := by
  induction h with
  | ctor ts r h => exact set_valid _ _ _ _ r h
  | set day sod fsod ts r h => exact set_valid _ _ _ _ r h
  | setSod day sod ts r h => exact set_valid _ _ _ _ r h
  | setDay day ts r h => exact set_valid _ _ _ _ r h
  | setInternal day msod fsod ts r h => exact setInternal_valid _ _ _ _ r h
  | setTimeSystem t ts _ ih => exact ih
  | reset t _ _ =>
    simp [CommonTime.Valid, CommonTime.reset, CommonTime.MS_PER_DAY,
      CommonTime.BEGIN_LIMIT_JDAY, CommonTime.END_LIMIT_JDAY, Ref.END_LIMIT_JDAY]
  | addSeconds t s r _ h _ => exact add_valid t 0 0 s r h
  | addSecondsLong t s r _ h _ => exact add_valid t 0 (s * 1000) 0 r h
  | addDays t d r _ h _ => exact add_valid t d 0 0 r h
  | addMilliseconds t ms r _ h _ => exact add_valid t 0 ms 0 r h
  | operator_plus t s r _ h _ => exact add_valid t 0 0 s r h
  | operator_minus t s r _ h _ => exact add_valid t 0 0 (-s) r h

/-- C17. Every `CommonTime` value produced by a public operation (the constructor,
the three forms of `set`, `setInternal`, `setTimeSystem`, `reset`, `addSeconds`
on a real and on an integer, `addDays`, `addMilliseconds`, `operator+`,
`operator-`) has its milliseconds of day in 0 .. 86400000, its fractional
seconds in 0 .. 0.001 and its day in `BEGIN_LIMIT_JDAY` .. `END_LIMIT_JDAY`, the
upper ends excluded.  An operation that cannot give such a value fails and
stores nothing: `setInternal` stores its arguments when they are inside the
three ranges and fails on every other call; `set` stores the day, the seconds
of day and the fraction of a second it is given, the whole milliseconds of the
fraction carried into the milliseconds of day, when the day is inside the
limits, the seconds in 0 .. 86400 and the fraction in 0 .. 1, and fails on
every other call; an addition fails exactly when the sum, its carries and
borrows made, has its day outside the limits. -/
theorem commonTime_invariant {D : Type} [LinearOrderedField D] [FloorRing D] :
    (∀ t : CommonTime D, CommonTime.Produced t → t.Valid) ∧
    (∀ (day msod : Int) (fsod : D) (ts : TimeSystem),
      (CommonTime.Valid
          ({ m_day := day, m_msod := msod, m_fsod := fsod, m_timeSystem := ts } :
            CommonTime D) →
        CommonTime.setInternal day msod fsod ts =
          .ok { m_day := day, m_msod := msod, m_fsod := fsod, m_timeSystem := ts }) ∧
      (¬ CommonTime.Valid
          ({ m_day := day, m_msod := msod, m_fsod := fsod, m_timeSystem := ts } :
            CommonTime D) →
        CommonTime.setInternal day msod fsod ts = .error CommonTime.outOfRange)) ∧
    (∀ (day sod : Int) (fsod : D) (ts : TimeSystem),
      ((CommonTime.BEGIN_LIMIT_JDAY ≤ day ∧ day < CommonTime.END_LIMIT_JDAY) ∧
          (0 ≤ sod ∧ sod < 86400) ∧ (0 ≤ fsod ∧ fsod < 1) →
        CommonTime.set day sod fsod ts =
          .ok { m_day := day, m_msod := sod * 1000 + ⌊fsod * 1000⌋,
                m_fsod := fsod - ((⌊fsod * 1000⌋ : Int) : D) / 1000, m_timeSystem := ts }) ∧
      (¬ ((CommonTime.BEGIN_LIMIT_JDAY ≤ day ∧ day < CommonTime.END_LIMIT_JDAY) ∧
          (0 ≤ sod ∧ sod < 86400) ∧ (0 ≤ fsod ∧ fsod < 1)) →
        CommonTime.set day sod fsod ts = .error CommonTime.outOfRange)) ∧
    (∀ (t : CommonTime D) (seconds : D),
      (¬ (t.add 0 0 seconds).1.Valid ↔ t.addSeconds seconds = .error CommonTime.overflow) ∧
      (¬ (t.add 0 0 seconds).1.Valid ↔
        t.operator_plus seconds = .error CommonTime.overflow) ∧
      (¬ (t.add 0 0 (-seconds)).1.Valid ↔
        t.operator_minus seconds = .error CommonTime.overflow)) ∧
    (∀ (t : CommonTime D) (n : Int),
      (¬ (t.add 0 (n * 1000) 0).1.Valid ↔
        t.addSecondsLong n = .error CommonTime.overflow) ∧
      (¬ (t.add n 0 0).1.Valid ↔ t.addDays n = .error CommonTime.overflow) ∧
      (¬ (t.add 0 n 0).1.Valid ↔ t.addMilliseconds n = .error CommonTime.overflow)) := by
  have hadd : ∀ (t : CommonTime D) (days msod : Int) (fsod : D),
      ¬ (t.add days msod fsod).1.Valid ↔
        (if (t.add days msod fsod).2 then Except.ok (t.add days msod fsod).1
          else Except.error CommonTime.overflow) = Except.error CommonTime.overflow := by
    intro t days msod fsod
    have hflag : (t.add days msod fsod).2 = true ↔ (t.add days msod fsod).1.Valid :=
      normalize_flag _
    by_cases hf : (t.add days msod fsod).2 = true
    · simp [hf, hflag.1 hf]
    · have hv : ¬ (t.add days msod fsod).1.Valid := fun hv => hf (hflag.2 hv)
      simp [hf, hv]
  refine ⟨produced_valid, ?_, ?_, ?_, ?_⟩
  · intro day msod fsod ts
    exact ⟨setInternal_ok day msod fsod ts, setInternal_error day msod fsod ts⟩
  · intro day sod fsod ts
    exact ⟨fun h => set_ok day sod fsod ts h.1 h.2.1 h.2.2, set_error day sod fsod ts⟩
  · intro t seconds
    exact ⟨hadd t 0 0 seconds, hadd t 0 0 seconds, hadd t 0 0 (-seconds)⟩
  · intro t n
    exact ⟨hadd t 0 (n * 1000) 0, hadd t n 0 0, hadd t 0 n 0⟩

theorem addSeconds_carries_fraction :
    CommonTime.addSeconds
        ({ m_day := 5, m_msod := 1000, m_fsod := 0, m_timeSystem := .GPS } : CommonTime ℚ)
        (5 / 2000) =
      .ok { m_day := 5, m_msod := 1002, m_fsod := 1/2000, m_timeSystem := .GPS } := by
  have hf : ⌊((0 : ℚ) + 5 / 2000) * 1000⌋ = 2 := by
    rw [Int.floor_eq_iff]
    norm_num
  simp only [CommonTime.addSeconds, CommonTime.add, CommonTime.normalize, hf]
  norm_num [CommonTime.MS_PER_DAY, CommonTime.BEGIN_LIMIT_JDAY, CommonTime.END_LIMIT_JDAY,
    Ref.END_LIMIT_JDAY]

theorem valid_five {D : Type} [LinearOrderedField D] (ts : TimeSystem) :
    CommonTime.Valid
      ({ m_day := 5, m_msod := 1000, m_fsod := 0, m_timeSystem := ts } : CommonTime D) := by
  simp [CommonTime.Valid, CommonTime.MS_PER_DAY, CommonTime.BEGIN_LIMIT_JDAY,
    CommonTime.END_LIMIT_JDAY, Ref.END_LIMIT_JDAY]

/-- Witness of C17: `setInternal(5, 1000, 0.0)` stores its arguments, and adding
0.0025 s to that value carries two milliseconds and leaves 0.0005 s, a value
inside the three ranges; `setInternal(5, 1000, 0.0025)` and
`setInternal(-1, 0, 0.0)` fail; `set(5, 1, 0.0025)` stores 1002 ms and
0.0005 s. -/
theorem commonTime_invariant_witness :
    CommonTime.setInternal 5 1000 (0 : ℚ) .GPS =
      .ok { m_day := 5, m_msod := 1000, m_fsod := 0, m_timeSystem := .GPS } ∧
    CommonTime.Produced
      ({ m_day := 5, m_msod := 1002, m_fsod := 1 / 2000, m_timeSystem := .GPS } :
        CommonTime ℚ) ∧
    CommonTime.Valid
      ({ m_day := 5, m_msod := 1002, m_fsod := 1 / 2000, m_timeSystem := .GPS } :
        CommonTime ℚ) ∧
    CommonTime.setInternal 5 1000 (5 / 2000 : ℚ) .GPS = .error CommonTime.outOfRange ∧
    CommonTime.setInternal (-1) 0 (0 : ℚ) .GPS = .error CommonTime.outOfRange ∧
    CommonTime.set 5 1 (5 / 2000 : ℚ) .GPS =
      .ok { m_day := 5, m_msod := 1002, m_fsod := 1 / 2000, m_timeSystem := .GPS } :=
  have h0 := ((@commonTime_invariant ℚ _ _).2.1 5 1000 0 .GPS).1 (valid_five .GPS)
  have hp : CommonTime.Produced
      ({ m_day := 5, m_msod := 1002, m_fsod := 1 / 2000, m_timeSystem := .GPS } :
        CommonTime ℚ) :=
    .addSeconds _ (5 / 2000) _ (.setInternal 5 1000 0 .GPS _ h0) addSeconds_carries_fraction
  ⟨h0, hp, (@commonTime_invariant ℚ _ _).1 _ hp,
   ((@commonTime_invariant ℚ _ _).2.1 5 1000 (5 / 2000) .GPS).2 (by
      simp only [CommonTime.Valid]
      norm_num),
   ((@commonTime_invariant ℚ _ _).2.1 (-1) 0 0 .GPS).2 (by
      simp [CommonTime.Valid, CommonTime.BEGIN_LIMIT_JDAY]),
   (((@commonTime_invariant ℚ _ _).2.2.1 5 1 (5 / 2000) .GPS).1 (by
      norm_num [CommonTime.BEGIN_LIMIT_JDAY, CommonTime.END_LIMIT_JDAY,
        Ref.END_LIMIT_JDAY])).trans (by
      have hf : ⌊(5 / 2000 : ℚ) * 1000⌋ = 2 := by
        rw [Int.floor_eq_iff]
        norm_num
      rw [hf]
      norm_num)⟩

/-! ## CommonTime: milliseconds of day beyond a day -/

theorem addMilliseconds_zero_fsod {D : Type} [LinearOrderedField D] [FloorRing D]
    (d ms : Int) (ts : TimeSystem) :
    CommonTime.addMilliseconds
        ({ m_day := d, m_msod := 0, m_fsod := 0, m_timeSystem := ts } : CommonTime D) ms =
      if CommonTime.BEGIN_LIMIT_JDAY ≤ d + ms / CommonTime.MS_PER_DAY ∧
          d + ms / CommonTime.MS_PER_DAY < CommonTime.END_LIMIT_JDAY then
        .ok { m_day := d + ms / CommonTime.MS_PER_DAY,
              m_msod := ms % CommonTime.MS_PER_DAY, m_fsod := 0, m_timeSystem := ts }
      else .error CommonTime.overflow := by
  simp [CommonTime.addMilliseconds, CommonTime.add, CommonTime.normalize]

/-- C18, as stated, fails: with day 5 (so that day 6 is inside the limits),
86400000 + 0 milliseconds of day and no fractional seconds, `setInternal`
does not succeed: 86400000 is not below 86400000, the call fails with the
exception of a value out of bounds and stores nothing, where the claim has
day 6 and 0 milliseconds stored.  The form of `set` that takes seconds fails
on the same numbers. -/
theorem setInternal_carry_counterexample :
    (0 : Int) ≤ 0 ∧
    (CommonTime.BEGIN_LIMIT_JDAY ≤ 5 + 1 ∧ 5 + 1 < CommonTime.END_LIMIT_JDAY) ∧
    CommonTime.setInternal 5 (86400000 + 0) (0 : ℚ) .GPS = .error CommonTime.outOfRange ∧
    CommonTime.setInternal 5 (86400000 + 0) (0 : ℚ) .GPS ≠
      .ok { m_day := 5 + 1, m_msod := 0, m_fsod := 0, m_timeSystem := .GPS } ∧
    CommonTime.set 5 (86400000 + 0) (0 : ℚ) .GPS = .error CommonTime.outOfRange := by
  have h1 : CommonTime.setInternal 5 (86400000 + 0) (0 : ℚ) .GPS =
      .error CommonTime.outOfRange :=
    setInternal_error _ _ _ _ (by simp [CommonTime.Valid, CommonTime.MS_PER_DAY])
  refine ⟨by decide, by decide, h1, ?_, ?_⟩
  · rw [h1]
    intro h
    cases h
  · exact set_error _ _ _ _ (by norm_num)

/-- C18, amended. `CommonTime` set through `setInternal` with day `d`, milliseconds of
day `86400000 + k` with `k` non-negative, and zero fractional seconds fails
with the exception of a value out of bounds, whatever `d`, and stores
nothing, and so does the form of `set` that takes seconds; the milliseconds
of day handed to `setInternal` must be below 86400000: with `k` itself,
`k` below 86400000 and `d` inside the day limits, the call succeeds and
stores day `d` and `k` milliseconds.  The carry into the next day is made by
the additions: `addMilliseconds(86400000 + k)` on day `d`, 0 milliseconds,
with `k` below 86400000 and `d + 1` inside the day limits, gives day `d + 1`
and `k` milliseconds. -/
theorem setInternal_carry {D : Type} [LinearOrderedField D] [FloorRing D] (d k : Int)
    (ts : TimeSystem) (hk : 0 ≤ k) :
    CommonTime.setInternal d (86400000 + k) (0 : D) ts = .error CommonTime.outOfRange ∧
    CommonTime.set d (86400000 + k) (0 : D) ts = .error CommonTime.outOfRange ∧
    (k < 86400000 → CommonTime.BEGIN_LIMIT_JDAY ≤ d → d < CommonTime.END_LIMIT_JDAY →
      CommonTime.setInternal d k (0 : D) ts =
        .ok { m_day := d, m_msod := k, m_fsod := 0, m_timeSystem := ts }) ∧
    (k < 86400000 → CommonTime.BEGIN_LIMIT_JDAY ≤ d + 1 →
      d + 1 < CommonTime.END_LIMIT_JDAY →
      CommonTime.addMilliseconds
          ({ m_day := d, m_msod := 0, m_fsod := 0, m_timeSystem := ts } : CommonTime D)
          (86400000 + k) =
        .ok { m_day := d + 1, m_msod := k, m_fsod := 0, m_timeSystem := ts }) := by
  refine ⟨?_, ?_, ?_, ?_⟩
  · apply setInternal_error
    intro h
    have h2 := h.1.2
    simp only [CommonTime.MS_PER_DAY] at h2
    omega
  · apply set_error
    intro h
    have h2 := h.2.1.2
    omega
  · intro hlt h1 h2
    apply setInternal_ok
    refine ⟨⟨hk, ?_⟩, ⟨le_refl _, by norm_num⟩, h1, h2⟩
    simpa only [CommonTime.MS_PER_DAY] using hlt
  · intro hlt h1 h2
    have hdiv : (86400000 + k) / CommonTime.MS_PER_DAY = 1 := by
      unfold CommonTime.MS_PER_DAY
      omega
    have hmod : (86400000 + k) % CommonTime.MS_PER_DAY = k := by
      unfold CommonTime.MS_PER_DAY
      omega
    rw [addMilliseconds_zero_fsod, hdiv, hmod, if_pos ⟨h1, h2⟩]

/-- Witness of C18: on 2023-12-31 (day 2460310) `setInternal` with
86400000 + 43200500 milliseconds fails, with 43200500 milliseconds it stores
them, and `addMilliseconds(86400000 + 43200500)` on that day at 0 ms gives
the next day at 43200500 ms. -/
theorem setInternal_carry_witness :
    CommonTime.setInternal 2460310 (86400000 + 43200500) (0 : ℚ) .UTC =
      .error CommonTime.outOfRange ∧
    CommonTime.setInternal 2460310 43200500 (0 : ℚ) .UTC =
      .ok { m_day := 2460310, m_msod := 43200500, m_fsod := 0, m_timeSystem := .UTC } ∧
    CommonTime.addMilliseconds
        ({ m_day := 2460310, m_msod := 0, m_fsod := 0, m_timeSystem := .UTC } : CommonTime ℚ)
        (86400000 + 43200500) =
      .ok { m_day := 2460310 + 1, m_msod := 43200500, m_fsod := 0, m_timeSystem := .UTC } :=
  ⟨(setInternal_carry 2460310 43200500 .UTC (by decide)).1,
   (setInternal_carry 2460310 43200500 .UTC (by decide)).2.2.1 (by decide) (by decide)
     (by decide),
   (setInternal_carry 2460310 43200500 .UTC (by decide)).2.2.2 (by decide) (by decide)
     (by decide)⟩

/-! ## setModWeek -/

theorem nearestWeek_cases (W n : Int) (hn0 : 0 ≤ n) (hn : n < 1024) :
    Ref.nearestWeek 1024 W n =
      if W - W % 1024 + n - W ≥ 512 then W - W % 1024 + n - 1024
      else if W - (W - W % 1024 + n) > 512 then W - W % 1024 + n + 1024
      else W - W % 1024 + n := by
  have hm : (0 : Int) ≤ W % 1024 := Int.emod_nonneg _ (by decide)
  have hm2 : W % 1024 < 1024 := Int.emod_lt_of_pos _ (by decide)
  simp only [Ref.nearestWeek, Ref.weekDistance]
  split_ifs <;> omega

theorem adjustedWeek_cases (W n : Int) :
    Ref.adjustedWeek 1024 W n =
      if W - W % 1024 + n - W > 512 then W - W % 1024 + n - 1024
      else if W - (W - W % 1024 + n) > 512 then W - W % 1024 + n + 1024
      else W - W % 1024 + n := rfl

theorem nearestLower_iff (W n r : Int) (hn0 : 0 ≤ n) (hn : n < 1024) :
    NearestLowerCandidate 1024 W n r ↔ r = Ref.nearestWeek 1024 W n := by
  have hm : (0 : Int) ≤ W % 1024 := Int.emod_nonneg _ (by decide)
  have hm2 : W % 1024 < 1024 := Int.emod_lt_of_pos _ (by decide)
  rw [nearestWeek_cases W n hn0 hn]
  constructor
  · rintro ⟨hr, hall⟩
    have h1 := hall (W - W % 1024 + n - 1024) (Or.inl rfl)
    have h2 := hall (W - W % 1024 + n) (Or.inr (Or.inl rfl))
    have h3 := hall (W - W % 1024 + n + 1024) (Or.inr (Or.inr rfl))
    rcases abs_cases (r - W) with ⟨e0, _⟩ | ⟨e0, _⟩ <;>
    rcases abs_cases (W - W % 1024 + n - 1024 - W) with ⟨e1, _⟩ | ⟨e1, _⟩ <;>
    rcases abs_cases (W - W % 1024 + n - W) with ⟨e2, _⟩ | ⟨e2, _⟩ <;>
    rcases abs_cases (W - W % 1024 + n + 1024 - W) with ⟨e3, _⟩ | ⟨e3, _⟩ <;>
    rw [e0, e1] at h1 <;> rw [e0, e2] at h2 <;> rw [e0, e3] at h3 <;>
    split_ifs <;> rcases hr with hr | hr | hr <;> omega
  · intro hr
    refine ⟨?_, ?_⟩
    · rw [hr]
      split_ifs
      · exact Or.inl rfl
      · exact Or.inr (Or.inr rfl)
      · exact Or.inr (Or.inl rfl)
    · intro c hc
      rcases abs_cases (r - W) with ⟨e0, _⟩ | ⟨e0, _⟩ <;>
      rcases abs_cases (c - W) with ⟨e1, _⟩ | ⟨e1, _⟩ <;>
      rw [e0, e1] <;> split_ifs at hr <;> rcases hc with hc | hc | hc <;>
      constructor <;> omega

/-- C19, as stated, fails where `W - W mod M + n` is exactly M/2 above `W`, whatever
`setModWeek` does.  With full week 1024 and `n = 512` the candidates are 512,
1536 and 2560; 512 and 1536 are both 512 weeks away from 1024, so "the lower
candidate on a tie" is 512 and nothing else, while 1536 is not more than 512
away from 1024 and "adjusted when that value is more than M/2 away" leaves
1536.  No week is both, so the week set by `setModWeek(512)` of any week
class cannot be what the claim says. -/
theorem setModWeek_tie_counterexample :
    ((1024 : Int) - 1024 % 1024 + 512 - 1024 = 512 ∧
      (1024 : Int) - 1024 % 1024 + 512 = 1536 ∧
      (1024 : Int) - 1024 % 1024 + 512 + 1024 = 2560) ∧
    (|(512 : Int) - 1024| = 512 ∧ |(1536 : Int) - 1024| = 512 ∧
      |(2560 : Int) - 1024| = 1536) ∧
    (∀ r : Int, NearestLowerCandidate 1024 1024 512 r ↔ r = 512) ∧
    Ref.adjustedWeek 1024 1024 512 = 1536 ∧
    (∀ (D : Type) (ops : WeekSecondOps D) (sow : D) (ts : TimeSystem),
      ¬ (NearestLowerCandidate 1024 1024 512
            (ops.setModWeek { week := 1024, sow := sow, timeSystem := ts } 512).week ∧
          (ops.setModWeek { week := 1024, sow := sow, timeSystem := ts } 512).week =
            Ref.adjustedWeek 1024 1024 512)) := by
  have hiff : ∀ r : Int, NearestLowerCandidate 1024 1024 512 r ↔ r = 512 := fun r =>
    nearestLower_iff 1024 512 r (by decide) (by decide)
  refine ⟨⟨by decide, by decide, by decide⟩, ⟨by decide, by decide, by decide⟩, hiff, rfl, ?_⟩
  intro D ops sow ts h
  have h1 := (hiff _).1 h.1
  have h2 : (ops.setModWeek { week := 1024, sow := sow, timeSystem := ts } 512).week = 1536 :=
    h.2
  rw [h1] at h2
  exact absurd h2 (by decide)

/-- C19, amended. `setModWeek(n)` on a GNSS week variant holding full week `W`, with
truncation modulus 1024 and `n` in 0..1023.  The specification has two rules
for the new full week `r`: the candidate nearest to `W`, the lower one on a tie
(`Ref.nearestWeek`, the only week with that property), and
`W - W mod 1024 + n` adjusted by 1024 up or down when it is more than 512 away
from `W` (`Ref.adjustedWeek`).  Under either rule `r` is one of
`W - W mod 1024 + n - 1024`, `W - W mod 1024 + n`, `W - W mod 1024 + n + 1024`,
no candidate is nearer to `W`, `r` is congruent to `n` and at most 512 away
from `W`; and unless `W - W mod 1024 + n` is exactly 512 above `W` the two
rules give the same week, which is then the lower candidate on a tie and also
`W - W mod 1024 + n` adjusted when more than 512 away.  When
`W - W mod 1024 + n` is exactly 512 above `W` the first rule gives `W - 512` and
the second `W + 512`.  The week `setModWeek` returns is the one the mod-week
override of `mixedScanTime` hands to `convertToCommonTime`. -/
theorem setModWeek_nearest (W n : Int) (hn0 : 0 ≤ n) (hn : n < 1024) :
    (∀ r : Int, r = Ref.nearestWeek 1024 W n ∨ r = Ref.adjustedWeek 1024 W n →
      (r = W - W % 1024 + n - 1024 ∨ r = W - W % 1024 + n ∨ r = W - W % 1024 + n + 1024) ∧
      (∀ c : Int, c = W - W % 1024 + n - 1024 ∨ c = W - W % 1024 + n ∨
          c = W - W % 1024 + n + 1024 → |r - W| ≤ |c - W|) ∧
      (r % 1024 = n ∧ |r - W| ≤ 512) ∧
      (W - W % 1024 + n - W ≠ 512 →
        NearestLowerCandidate 1024 W n r ∧
        (|W - W % 1024 + n - W| ≤ 512 → r = W - W % 1024 + n) ∧
        (W - W % 1024 + n - W > 512 → r = W - W % 1024 + n - 1024) ∧
        (W - (W - W % 1024 + n) > 512 → r = W - W % 1024 + n + 1024))) ∧
    (∀ r : Int, NearestLowerCandidate 1024 W n r ↔ r = Ref.nearestWeek 1024 W n) ∧
    (W - W % 1024 + n - W ≠ 512 → Ref.nearestWeek 1024 W n = Ref.adjustedWeek 1024 W n) ∧
    (W - W % 1024 + n - W = 512 →
      Ref.nearestWeek 1024 W n = W - 512 ∧ Ref.adjustedWeek 1024 W n = W + 512) ∧
    (∀ (sow : Int) (ts : TimeSystem),
      ref.gps.setModWeek { week := W, sow := sow, timeSystem := ts } n =
        { week := Ref.nearestWeek 1024 W n, sow := sow, timeSystem := ts }) ∧
    (∀ (D : Type) (env : Env D) (s : MixedState D) (ct : CommonTime D)
        (ptt : WeekSecond D),
      s.iweek = n → (mixedWeekOps env s).convertFromCommonTime ct = .ok ptt →
      overrideModWeek env s ct =
        lib ((mixedWeekOps env s).convertToCommonTime
          ((mixedWeekOps env s).setModWeek ptt n))) ∧
    (∀ (s : MixedState Int) (ct : CommonTime Int) (sow : Int) (ts : TimeSystem),
      mixedWeekOps ref s = ref.gps → s.iweek = n →
      ref.gps.convertFromCommonTime ct = .ok { week := W, sow := sow, timeSystem := ts } →
      overrideModWeek ref s ct =
        lib (ref.gps.convertToCommonTime
          { week := Ref.nearestWeek 1024 W n, sow := sow, timeSystem := ts })) := by
  have hm : (0 : Int) ≤ W % 1024 := Int.emod_nonneg _ (by decide)
  have hm2 : W % 1024 < 1024 := Int.emod_lt_of_pos _ (by decide)
  have hnear := nearestWeek_cases W n hn0 hn
  have hadj := adjustedWeek_cases W n
  have hsame : W - W % 1024 + n - W ≠ 512 →
      Ref.nearestWeek 1024 W n = Ref.adjustedWeek 1024 W n := by
    intro hne
    rw [hnear, hadj]
    split_ifs <;> omega
  refine ⟨?_, fun r => nearestLower_iff W n r hn0 hn, hsame, ?_, ?_, ?_, ?_⟩
  · intro r hr
    have hr2 : r = Ref.adjustedWeek 1024 W n ∨
        (W - W % 1024 + n - W = 512 ∧ r = W - W % 1024 + n - 1024) := by
      rcases hr with hr | hr
      · by_cases hne : W - W % 1024 + n - W = 512
        · right
          refine ⟨hne, ?_⟩
          rw [hr, hnear, if_pos (by omega)]
        · left
          rw [hr, hsame hne]
      · exact Or.inl hr
    rw [hadj] at hr2
    refine ⟨?_, ?_, ⟨?_, ?_⟩, ?_⟩
    · rcases hr2 with hr2 | ⟨_, hr2⟩
      · split_ifs at hr2 <;> omega
      · exact Or.inl hr2
    · intro c hc
      rcases abs_cases (r - W) with ⟨e0, _⟩ | ⟨e0, _⟩ <;>
      rcases abs_cases (c - W) with ⟨e1, _⟩ | ⟨e1, _⟩ <;>
      rw [e0, e1] <;> rcases hr2 with hr2 | ⟨_, hr2⟩ <;>
      (try split_ifs at hr2) <;> rcases hc with hc | hc | hc <;> omega
    · rcases hr2 with hr2 | ⟨_, hr2⟩
      · split_ifs at hr2 <;> omega
      · omega
    · rw [abs_le]
      rcases hr2 with hr2 | ⟨_, hr2⟩
      · split_ifs at hr2 <;> omega
      · omega
    · intro hne
      have hrn : r = Ref.nearestWeek 1024 W n := by
        rcases hr with hr | hr
        · exact hr
        · rw [hr, hsame hne]
      have hra : r = Ref.adjustedWeek 1024 W n := by rw [hrn, hsame hne]
      refine ⟨(nearestLower_iff W n r hn0 hn).2 hrn, ?_, ?_, ?_⟩
      · intro h
        rw [abs_le] at h
        rw [hra, hadj, if_neg (by omega), if_neg (by omega)]
      · intro h
        rw [hra, hadj, if_pos h]
      · intro h
        rw [hra, hadj, if_neg (by omega), if_pos h]
  · intro htie
    constructor
    · rw [hnear, if_pos (by omega)]
      omega
    · rw [hadj, if_neg (by omega), if_neg (by omega)]
      omega
  · intro sow ts
    rfl
  · intro D env s ct ptt hw hct
    simp only [overrideModWeek, hct, hw, lib, bind, Except.bind]
  · intro s ct sow ts hops hw hct
    simp only [overrideModWeek, hops, hct, hw, lib, bind, Except.bind]
    rfl

/-- Witness of C19: from full week 2295 (2295 mod 1024 = 247), `n = 1000` is more than
512 above and gives week 2024, `n = 247` keeps week 2295, `n = 759` is exactly
512 above 2295: there the nearest-candidate rule gives 1783 and the
adjustment rule 2807. -/
theorem setModWeek_nearest_witness :
    Ref.nearestWeek 1024 2295 1000 = 2295 - 2295 % 1024 + 1000 - 1024 ∧
    Ref.adjustedWeek 1024 2295 1000 = 2295 - 2295 % 1024 + 1000 - 1024 ∧
    NearestLowerCandidate 1024 2295 247 (Ref.nearestWeek 1024 2295 247) ∧
    Ref.nearestWeek 1024 2295 247 = 2295 ∧
    (Ref.nearestWeek 1024 2295 759 = 2295 - 512 ∧ Ref.adjustedWeek 1024 2295 759 = 2295 + 512) :=
  ⟨(((setModWeek_nearest 2295 1000 (by decide) (by decide)).1 _ (Or.inl rfl)).2.2.2
      (by decide)).2.2.1 (by decide),
   (((setModWeek_nearest 2295 1000 (by decide) (by decide)).1 _ (Or.inr rfl)).2.2.2
      (by decide)).2.2.1 (by decide),
   (((setModWeek_nearest 2295 247 (by decide) (by decide)).1 _ (Or.inl rfl)).2.2.2
      (by decide)).1,
   (((setModWeek_nearest 2295 247 (by decide) (by decide)).1 _ (Or.inl rfl)).2.2.2
      (by decide)).2.1 (by decide),
   (setModWeek_nearest 2295 759 (by decide) (by decide)).2.2.2.1 (by decide)⟩

/-! ## CommandLine -/

theorem validateOptions_congr (c d : CommandLine)
    (h1 : c.ignore_opts_with_arg = d.ignore_opts_with_arg)
    (h2 : c.ignore_opts_without_arg = d.ignore_opts_without_arg)
    (h3 : c.ignore_on_opts = d.ignore_on_opts)
    (h4 : c.ignore_off_opts = d.ignore_off_opts) (l : List CommandLine.Opt) :
    ∀ earlier, CommandLine.validateOptions c earlier l =
      CommandLine.validateOptions d earlier l := by
  induction l with
  | nil => intro earlier; rfl
  | cons o rest ih =>
    intro earlier
    simp only [CommandLine.validateOptions, CommandLine.validateOption, h1, h2, h3, h4, ih]

theorem validateDeprecated_congr (c d : CommandLine) (h : c.options = d.options)
    (l : List (String × String)) :
    CommandLine.validateDeprecated c l = CommandLine.validateDeprecated d l := by
  induction l with
  | nil => rfl
  | cons it rest ih => simp only [CommandLine.validateDeprecated, h, ih]

theorem validate_preliminaries (env : CommandLine.CLEnv) (c : CommandLine) :
    CommandLine.ValidateCommandLine (CommandLine.preliminaries env c) =
      CommandLine.ValidateCommandLine c := by
  have ho : (CommandLine.preliminaries env c).options = c.options := by
    unfold CommandLine.preliminaries
    split <;> rfl
  have hd : (CommandLine.preliminaries env c).deprec_opts = c.deprec_opts := by
    unfold CommandLine.preliminaries
    split <;> rfl
  have h1 : (CommandLine.preliminaries env c).ignore_opts_with_arg = c.ignore_opts_with_arg := by
    unfold CommandLine.preliminaries
    split <;> rfl
  have h2 : (CommandLine.preliminaries env c).ignore_opts_without_arg =
      c.ignore_opts_without_arg := by
    unfold CommandLine.preliminaries
    split <;> rfl
  have h3 : (CommandLine.preliminaries env c).ignore_on_opts = c.ignore_on_opts := by
    unfold CommandLine.preliminaries
    split <;> rfl
  have h4 : (CommandLine.preliminaries env c).ignore_off_opts = c.ignore_off_opts := by
    unfold CommandLine.preliminaries
    split <;> rfl
  simp only [CommandLine.ValidateCommandLine, ho, hd,
    validateOptions_congr _ c h1 h2 h3 h4, validateDeprecated_congr _ c ho]

theorem isSome_ite {α : Type} (p : Prop) [Decidable p] (a b : Option α)
    (ha : a.isSome = true) (hb : b.isSome = true) : (if p then a else b).isSome = true := by
  split <;> assumption

theorem PreProcessArgs_returns (env : CommandLine.CLEnv) (hfile : ∀ f, env.getlines f = none)
    (fuel : Nat) (in_arg : String) (st : CommandLine × List String) :
    ∃ st2, CommandLine.PreProcessArgs env (fuel + 1) in_arg st = some st2 := by
  obtain ⟨c, Args⟩ := st
  have h : (CommandLine.PreProcessArgs env (fuel + 1) in_arg (c, Args)).isSome = true := by
    unfold CommandLine.PreProcessArgs
    simp only [hfile]
    repeat' (first | apply isSome_ite | rfl)
    cases c.deprec_opts.lookup in_arg <;> rfl
  exact Option.isSome_iff_exists.mp h

theorem preProcessAll_returns (env : CommandLine.CLEnv) (hfile : ∀ f, env.getlines f = none)
    (fuel : Nat) (args : List String) :
    ∀ st, ∃ st2, CommandLine.preProcessAll env (fuel + 1) args st = some st2 := by
  induction args with
  | nil => intro st; exact ⟨st, rfl⟩
  | cons a rest ih =>
    intro st
    obtain ⟨st2, h⟩ := PreProcessArgs_returns env hfile fuel a st
    simp only [CommandLine.preProcessAll, h]
    exact ih st2

theorem checkSats_returns (env : CommandLine.CLEnv) (hsat : ∀ s, env.RinexSatID s = .ok ())
    (l : List String) : CommandLine.checkSats env l = .ok () := by
  induction l with
  | nil => rfl
  | cons v rest ih =>
    simp only [CommandLine.checkSats, hsat, bind, Except.bind, ih]

theorem postOption_returns (env : CommandLine.CLEnv) (hsat : ∀ s, env.RinexSatID s = .ok ())
    (o : CommandLine.Opt) (errStr oss : String) :
    ∃ r, CommandLine.postOption env o errStr oss = .ok r := by
  unfold CommandLine.postOption
  by_cases h1 : o.values.length = 0
  · exact ⟨_, by rw [if_pos h1]; rfl⟩
  · rw [if_neg h1]
    by_cases h2 : o.type = .typeBool
    · exact ⟨_, by rw [if_pos h2]; rfl⟩
    · rw [if_neg h2]
      simp only [hsat, checkSats_returns env hsat, bind, Except.bind, pure, Except.pure]
      cases o.type <;> exact ⟨_, rfl⟩

theorem postOptions_returns (env : CommandLine.CLEnv) (hsat : ∀ s, env.RinexSatID s = .ok ())
    (l : List CommandLine.Opt) :
    ∀ errStr oss, ∃ r, CommandLine.postOptions env l errStr oss = .ok r := by
  induction l with
  | nil => intro errStr oss; exact ⟨_, rfl⟩
  | cons o rest ih =>
    intro errStr oss
    obtain ⟨r, hr⟩ := postOption_returns env hsat o errStr oss
    obtain ⟨r2, hr2⟩ := ih r.1 r.2
    exact ⟨r2, by simp only [CommandLine.postOptions, hr, bind, Except.bind, hr2]⟩

theorem Postprocess_returns (env : CommandLine.CLEnv) (hsat : ∀ s, env.RinexSatID s = .ok ())
    (c : CommandLine) (Errors : String) :
    ∃ r, CommandLine.Postprocess env c Errors = .ok r := by
  obtain ⟨r, hr⟩ := postOptions_returns env hsat c.options "" ""
  exact ⟨Errors ++ r.2, by simp only [CommandLine.Postprocess, hr, bind, Except.bind]; rfl⟩

/-- The three ways `ProcessCommandLine` ends once the declared options are valid. -/
theorem ProcessCommandLine_valid (env : CommandLine.CLEnv) (fuel : Nat) (c : CommandLine)
    (args : List String) (p : CommandLine.Processed)
    (hv : (CommandLine.ValidateCommandLine c).2 = true)
    (h : CommandLine.ProcessCommandLine env fuel c args = some (.ok p)) :
    (p.code = 1 ∧ p.c.help = true) ∨
    (p.code = -1 ∧ p.c.help = false ∧ p.Errors ≠ "" ∧ p.c.foundErrors = true) ∨
    (p.code = 0 ∧ p.c.help = false ∧ p.Errors = "") := by
  unfold CommandLine.ProcessCommandLine at h
  simp only [validate_preliminaries, hv, Bool.true_eq_false, if_false] at h
  cases hpre : CommandLine.preProcessAll env fuel args
      (if args.length + 1 = 1 ∧ (CommandLine.preliminaries env c).requireOneArg = true then
        { CommandLine.preliminaries env c with helponly := true }
        else CommandLine.preliminaries env c, []) with
  | none =>
    rw [hpre] at h
    cases h
  | some st =>
    obtain ⟨c4, Args⟩ := st
    rw [hpre] at h
    simp only at h
    generalize CommandLine.Parse env _ Args "" [] = r at h
    cases hpost : CommandLine.Postprocess env r.1 r.2.1 with
    | error e =>
      rw [hpost] at h
      cases h
    | ok Errors =>
      rw [hpost] at h
      simp only at h
      by_cases hhelp : r.1.help = true
      · rw [if_pos hhelp] at h
        simp only [Option.some.injEq, Except.ok.injEq] at h
        subst h
        exact Or.inl ⟨rfl, hhelp⟩
      · rw [if_neg hhelp] at h
        have hhelp2 : r.1.help = false := by simpa using hhelp
        by_cases herr : Errors ≠ ""
        · rw [if_pos herr] at h
          simp only [Option.some.injEq, Except.ok.injEq] at h
          subst h
          exact Or.inr (Or.inl ⟨rfl, hhelp2, herr, rfl⟩)
        · rw [if_neg herr] at h
          simp only [Option.some.injEq, Except.ok.injEq] at h
          subst h
          exact Or.inr (Or.inr ⟨rfl, hhelp2, by simpa using herr⟩)

/-- C20, as stated, fails when help is requested on a command line with an error:
with one required option `--input` and the arguments `--help`, the declared
options are valid, `Errors` comes back as "Required option input is not
found." and the value returned is 1, not -1. -/
theorem ProcessCommandLine_help_counterexample :
    (CommandLine.ValidateCommandLine CommandLine.needsInput).2 = true ∧
    ∃ p, CommandLine.ProcessCommandLine CommandLine.plainEnv 1 CommandLine.needsInput
        ["--help"] = some (.ok p) ∧
      p.Errors = "Required option input is not found.\n" ∧ p.Errors ≠ "" ∧
      p.code = 1 ∧ ¬ (p.code = -1 ↔ p.Errors ≠ "") :=
  ⟨rfl, _, rfl, rfl, by decide, rfl, by decide⟩

/-- C20, amended. `CommandLine::ProcessCommandLine` returns -3 exactly when the declared
option set is invalid, and then `Errors` is the validation message, `Unrecog`
is empty and no argument is looked at (the object is as the preliminaries
left it, its options untouched).  For a valid option set a call that
returns gives 1 exactly when help was requested (`help` is set), whether or not
`Errors` is empty, -1 exactly when help was not requested and `Errors` is
non-empty after parsing and postprocessing, and 0 exactly when neither
happened.  The call returns whenever no options file can be opened and the
constructor of `RinexSatID` raises nothing. -/
theorem ProcessCommandLine_return_code (env : CommandLine.CLEnv) (fuel : Nat)
    (c : CommandLine) (args : List String) :
    ((CommandLine.ValidateCommandLine c).2 = false →
      CommandLine.ProcessCommandLine env fuel c args =
        some (.ok { c := CommandLine.preliminaries env c,
                    Errors := (CommandLine.ValidateCommandLine c).1,
                    Unrecog := [], code := -3 }) ∧
      (CommandLine.preliminaries env c).options = c.options) ∧
    (∀ p, CommandLine.ProcessCommandLine env fuel c args = some (.ok p) →
      (p.code = -3 ↔ (CommandLine.ValidateCommandLine c).2 = false) ∧
      ((CommandLine.ValidateCommandLine c).2 = true →
        (p.code = 1 ↔ p.c.help = true) ∧
        (p.code = -1 ↔ (p.c.help = false ∧ p.Errors ≠ "")) ∧
        (p.code = 0 ↔ (p.c.help = false ∧ p.Errors = "")))) ∧
    ((∀ f, env.getlines f = none) → (∀ s, env.RinexSatID s = .ok ()) → 0 < fuel →
      ∃ p, CommandLine.ProcessCommandLine env fuel c args = some (.ok p)) := by
  have hinvalid : (CommandLine.ValidateCommandLine c).2 = false →
      CommandLine.ProcessCommandLine env fuel c args =
        some (.ok { c := CommandLine.preliminaries env c,
                    Errors := (CommandLine.ValidateCommandLine c).1,
                    Unrecog := [], code := -3 }) := by
    intro hv
    unfold CommandLine.ProcessCommandLine
    simp only [validate_preliminaries, hv, if_true]
  refine ⟨fun hv => ⟨hinvalid hv, ?_⟩, ?_, ?_⟩
  · unfold CommandLine.preliminaries
    split <;> rfl
  · intro p h
    cases hv : (CommandLine.ValidateCommandLine c).2 with
    | false =>
      rw [hinvalid hv] at h
      simp only [Option.some.injEq, Except.ok.injEq] at h
      subst h
      simp
    | true =>
      rcases ProcessCommandLine_valid env fuel c args p hv h with
        ⟨h1, h2⟩ | ⟨h1, h2, h3, _⟩ | ⟨h1, h2, h3⟩
      · simp [h1, h2]
      · simp [h1, h2, h3]
      · simp [h1, h2, h3]
  · intro hfile hsat hfuel
    obtain ⟨n, rfl⟩ : ∃ n, fuel = n + 1 := ⟨fuel - 1, by omega⟩
    cases hv : (CommandLine.ValidateCommandLine c).2 with
    | false => exact ⟨_, hinvalid hv⟩
    | true =>
      unfold CommandLine.ProcessCommandLine
      simp only [validate_preliminaries, hv, Bool.true_eq_false, if_false]
      obtain ⟨st, hst⟩ := preProcessAll_returns env hfile n args
        (if args.length + 1 = 1 ∧ (CommandLine.preliminaries env c).requireOneArg = true then
          { CommandLine.preliminaries env c with helponly := true }
          else CommandLine.preliminaries env c, [])
      obtain ⟨c4, Args⟩ := st
      simp only [hst]
      generalize CommandLine.Parse env _ Args "" [] = r
      obtain ⟨E, hE⟩ := Postprocess_returns env hsat r.1 r.2.1
      simp only [hE]
      by_cases hhelp : r.1.help = true
      · exact ⟨_, by rw [if_pos hhelp]⟩
      · rw [if_neg hhelp]
        by_cases herr : E ≠ ""
        · exact ⟨_, by rw [if_pos herr]⟩
        · exact ⟨_, by rw [if_neg herr]⟩

theorem ProcessCommandLine_return_code_witness :
    CommandLine.ProcessCommandLine CommandLine.plainEnv 1
        (CommandLine.Add CommandLine.needsInput .typeBool 'i' "input" "" false false ""
          "again" true) ["--input", "a.obs"] =
      some (.ok
        { c := CommandLine.preliminaries CommandLine.plainEnv
            (CommandLine.Add CommandLine.needsInput .typeBool 'i' "input" "" false false ""
              "again" true),
          Errors := (CommandLine.ValidateCommandLine
            (CommandLine.Add CommandLine.needsInput .typeBool 'i' "input" "" false false ""
              "again" true)).1,
          Unrecog := [], code := -3 }) ∧
    (∃ p, CommandLine.ProcessCommandLine CommandLine.plainEnv 1 CommandLine.needsInput
        ["-i", "a.obs", "-i", "b.obs", "x"] = some (.ok p) ∧ p.code = -1 ∧
      p.Errors = "Not-repeatable option input was repeated.\n" ∧ p.Unrecog = ["x"]) ∧
    (∃ p, CommandLine.ProcessCommandLine CommandLine.plainEnv 1 CommandLine.needsInput
        ["--input", "a.obs"] = some (.ok p) ∧ p.code = 0) ∧
    (∃ p, CommandLine.ProcessCommandLine CommandLine.plainEnv 1 CommandLine.needsInput
        [] = some (.ok p) ∧ p.code = 1) ∧
    (∃ p, CommandLine.ProcessCommandLine CommandLine.withOptionsFile 5 CommandLine.needsInput
        ["-fopts", "extra"] = some (.ok p) ∧ p.code = 0 ∧ p.Unrecog = ["extra"] ∧
      p.c.verbose = true ∧ p.c.options.map (fun o => o.values) = [["a.obs"]]) :=
  ⟨((ProcessCommandLine_return_code CommandLine.plainEnv 1
      (CommandLine.Add CommandLine.needsInput .typeBool 'i' "input" "" false false ""
        "again" true) ["--input", "a.obs"]).1 rfl).1,
   ⟨_, rfl,
    ((((ProcessCommandLine_return_code CommandLine.plainEnv 1 CommandLine.needsInput
      ["-i", "a.obs", "-i", "b.obs", "x"]).2.1 _ rfl).2 rfl).2.1).2 ⟨rfl, by decide⟩,
    rfl, rfl⟩,
   ⟨_, rfl,
    ((((ProcessCommandLine_return_code CommandLine.plainEnv 1 CommandLine.needsInput
      ["--input", "a.obs"]).2.1 _ rfl).2 rfl).2.2).2 ⟨rfl, rfl⟩⟩,
   ⟨_, rfl,
    ((((ProcessCommandLine_return_code CommandLine.plainEnv 1 CommandLine.needsInput
      []).2.1 _ rfl).2 rfl).1).2 rfl⟩,
   ⟨_, rfl,
    ((((ProcessCommandLine_return_code CommandLine.withOptionsFile 5 CommandLine.needsInput
      ["-fopts", "extra"]).2.1 _ rfl).2 rfl).2.2).2 ⟨rfl, rfl⟩,
    rfl, rfl, rfl⟩⟩

/-! ## stl_helpers.hpp -/

theorem std_find_le {T : Type} [DecidableEq T] (vec : List T) (value : T) :
    std_find vec value ≤ vec.length := by
  induction vec with
  | nil => exact Nat.le_refl 0
  | cons x xs ih =>
    simp only [std_find, List.length_cons]
    split <;> omega

theorem std_find_eq_length {T : Type} [DecidableEq T] (vec : List T) (value : T) :
    std_find vec value = vec.length ↔ value ∉ vec := by
  induction vec with
  | nil => simp [std_find]
  | cons x xs ih =>
    simp only [std_find, List.length_cons, List.mem_cons, not_or]
    by_cases h : x = value
    · simp [h]
    · simp only [h, if_false, Nat.add_right_cancel_iff, ih]
      constructor
      · intro hm
        exact ⟨fun e => h e.symm, hm⟩
      · intro hm
        exact hm.2

theorem std_find_get {T : Type} [DecidableEq T] (vec : List T) (value : T)
    (h : value ∈ vec) : vec[std_find vec value]? = some value := by
  induction vec with
  | nil => cases h
  | cons x xs ih =>
    simp only [std_find]
    by_cases hx : x = value
    · simp [hx]
    · simp only [hx, if_false, List.getElem?_cons_succ]
      rcases List.mem_cons.mp h with e | e
      · exact absurd e.symm hx
      · exact ih e

theorem std_find_least {T : Type} [DecidableEq T] (vec : List T) (value : T) :
    ∀ k, k < std_find vec value → vec[k]? ≠ some value := by
  induction vec with
  | nil => intro k hk; simp [std_find] at hk
  | cons x xs ih =>
    intro k hk
    simp only [std_find] at hk
    by_cases hx : x = value
    · simp [hx] at hk
    · simp only [hx, if_false] at hk
      cases k with
      | zero => simpa using hx
      | succ k =>
        simp only [List.getElem?_cons_succ]
        exact ih k (by omega)

theorem std_find_replicate_append {T : Type} [DecidableEq T] (a value : T) (h : a ≠ value)
    (l : List T) (n : Nat) :
    std_find (List.replicate n a ++ l) value = n + std_find l value := by
  induction n with
  | zero => simp
  | succ n ih =>
    have hc : List.replicate (n + 1) a ++ l = a :: (List.replicate n a ++ l) := rfl
    rw [hc, std_find, if_neg h, ih]
    omega

theorem asInt32_of_lt (n : Nat) (h : n < 2 ^ 31) : asInt32 n = n := by
  unfold asInt32
  omega

/-- C22, as stated, fails for a vector that does not fit an `int`: in the vector of
`2^32 - 1` times the character `a` followed by `b`, the value `b` occurs, at
index `2^32 - 1`, and `vectorindex` returns -1. -/
theorem vectorindex_counterexample :
    'b' ∈ List.replicate (2 ^ 32 - 1) 'a' ++ ['b'] ∧
    vectorindex (List.replicate (2 ^ 32 - 1) 'a' ++ ['b']) 'b' = -1 := by
  refine ⟨List.mem_append_right _ (List.mem_singleton_self 'b'), ?_⟩
  unfold vectorindex
  rw [std_find_replicate_append 'a' 'b' (by decide) ['b'] (2 ^ 32 - 1)]
  have h1 : std_find ['b'] 'b' = 0 := rfl
  rw [h1, List.length_append, List.length_replicate, List.length_singleton]
  rw [if_neg (by omega)]
  unfold asInt32
  norm_num

/-- C22, amended. `vectorindex(vec, value)` on a vector of at most `2^31` elements
returns -1 if and only if `value` does not occur in `vec`; otherwise it returns
the least index `i` with `vec[i] == value`, so `0 <= result < vec.size()` and no
earlier element equals `value`.  On every vector it returns -1 when `value`
does not occur, and otherwise the index of the first occurrence converted to
an `int`. -/
theorem vectorindex_least {T : Type} [DecidableEq T] (vec : List T) (value : T) :
    (value ∉ vec → vectorindex vec value = -1) ∧
    (value ∈ vec → vectorindex vec value = asInt32 (std_find vec value) ∧
      vec[std_find vec value]? = some value ∧
      ∀ k, k < std_find vec value → vec[k]? ≠ some value) ∧
    (vec.length ≤ 2 ^ 31 →
      (vectorindex vec value = -1 ↔ value ∉ vec) ∧
      (value ∈ vec →
        (0 ≤ vectorindex vec value ∧ vectorindex vec value < vec.length) ∧
        vec[(vectorindex vec value).toNat]? = some value ∧
        ∀ k : Nat, (k : Int) < vectorindex vec value → vec[k]? ≠ some value)) := by
  have hle := std_find_le vec value
  have hiff := std_find_eq_length vec value
  refine ⟨?_, ?_, ?_⟩
  · intro h
    simp only [vectorindex, hiff.2 h, if_true]
  · intro h
    have hne : std_find vec value ≠ vec.length := fun e => (hiff.1 e) h
    exact ⟨by simp only [vectorindex, hne, if_false], std_find_get vec value h,
      std_find_least vec value⟩
  · intro hlen
    have hval : value ∈ vec → vectorindex vec value = (std_find vec value : Int) := by
      intro h
      have hne : std_find vec value ≠ vec.length := fun e => (hiff.1 e) h
      simp only [vectorindex, hne, if_false]
      exact asInt32_of_lt _ (by omega)
    constructor
    · constructor
      · intro h hm
        rw [hval hm] at h
        omega
      · intro h
        simp only [vectorindex, hiff.2 h, if_true]
    · intro h
      have hne : std_find vec value ≠ vec.length := fun e => (hiff.1 e) h
      rw [hval h]
      refine ⟨⟨by omega, by omega⟩, ?_, ?_⟩
      · rw [Int.toNat_ofNat]
        exact std_find_get vec value h
      · intro k hk
        exact std_find_least vec value k (by omega)

theorem vectorindex_least_witness :
    (vectorindex ["--skip", "--old", "--skip"] "--skip" = 0 ∧
      vectorindex ["--old", "--skip", "--skip"] "--skip" = 1) ∧
    (vectorindex ["--old", "--skip"] "--new" = -1 ↔ "--new" ∉ ["--old", "--skip"]) ∧
    (0 ≤ vectorindex ["--old", "--skip", "--skip"] "--skip" ∧
      vectorindex ["--old", "--skip", "--skip"] "--skip" <
        (["--old", "--skip", "--skip"].length : Int)) :=
  ⟨⟨by decide, by decide⟩,
   ((vectorindex_least ["--old", "--skip"] "--new").2.2 (by decide)).1,
   (((vectorindex_least ["--old", "--skip", "--skip"] "--skip").2.2 (by decide)).2
      (by decide)).1⟩

theorem pushMissing_eq {T : Type} [DecidableEq T] (other : List T) (l : List T) :
    ∀ vinter, pushMissing other l vinter =
      vinter ++ l.filter (fun x => decide (x ∉ other)) := by
  induction l with
  | nil => intro vinter; simp [pushMissing]
  | cons x rest ih =>
    intro vinter
    simp only [pushMissing, ih, List.filter_cons]
    by_cases h : x ∈ other
    · have hne : std_find other x ≠ other.length := fun e => (std_find_eq_length other x).1 e h
      simp [hne, h]
    · have he : std_find other x = other.length := (std_find_eq_length other x).2 h
      simp [he, h]

/-- C23. `vec_notintersect(v1, v2)`, for every pair of vectors: an element occurs in
the result if and only if it occurs in exactly one of `v1` and `v2`; the result
is the elements of `v1` missing from `v2`, in the order of `v1`, followed by the
elements of `v2` missing from `v1`, in the order of `v2`; and
`vec_notintersect(v1, v2)` and `vec_notintersect(v2, v1)` hold the same elements
with the same multiplicities. -/
theorem vec_notintersect_spec {T : Type} [DecidableEq T] (v1 v2 : List T) :
    (∀ x, x ∈ vec_notintersect v1 v2 ↔ ((x ∈ v1 ∧ x ∉ v2) ∨ (x ∈ v2 ∧ x ∉ v1))) ∧
    vec_notintersect v1 v2 =
      v1.filter (fun x => decide (x ∉ v2)) ++ v2.filter (fun x => decide (x ∉ v1)) ∧
    (vec_notintersect v1 v2).Perm (vec_notintersect v2 v1) ∧
    (∀ x, (vec_notintersect v1 v2).count x = (vec_notintersect v2 v1).count x) := by
  have h12 : vec_notintersect v1 v2 =
      v1.filter (fun x => decide (x ∉ v2)) ++ v2.filter (fun x => decide (x ∉ v1)) := by
    simp only [vec_notintersect, pushMissing_eq, List.nil_append]
  have h21 : vec_notintersect v2 v1 =
      v2.filter (fun x => decide (x ∉ v1)) ++ v1.filter (fun x => decide (x ∉ v2)) := by
    simp only [vec_notintersect, pushMissing_eq, List.nil_append]
  have hperm : (vec_notintersect v1 v2).Perm (vec_notintersect v2 v1) := by
    rw [h12, h21]
    exact List.perm_append_comm
  refine ⟨?_, h12, hperm, fun x => hperm.count_eq x⟩
  intro x
  rw [h12]
  simp only [List.mem_append, List.mem_filter, decide_eq_true_eq]

/-! ## mergePCodeWords.h -/

theorem merge_value (w1 w2 : Nat) (h2 : w2 < 2 ^ 32) (n : Nat) (hn0 : 0 < n) (hn : n < 32) :
    ((w1 <<< n) % 2 ^ 32) ||| (w2 >>> (32 - n)) =
      (w1 % 2 ^ (32 - n)) * 2 ^ n + w2 / 2 ^ (32 - n) ∧
    w2 / 2 ^ (32 - n) < 2 ^ n := by
  have hpow : (2 : Nat) ^ 32 = 2 ^ (32 - n) * 2 ^ n := by
    rw [← Nat.pow_add]
    congr 1
    omega
  have hb : w2 / 2 ^ (32 - n) < 2 ^ n := by
    rw [Nat.div_lt_iff_lt_mul (Nat.pow_pos (by decide))]
    rw [Nat.mul_comm, ← hpow]
    exact h2
  refine ⟨?_, hb⟩
  rw [Nat.shiftLeft_eq, Nat.shiftRight_eq_div_pow, hpow, Nat.mul_mod_mul_right,
    Nat.mul_comm (w1 % 2 ^ (32 - n)) (2 ^ n)]
  exact (Nat.mul_add_lt_is_or hb _).symm

/-- C24. `merge(w1, w2, first_bit)` on 32-bit words: `merge(w1, w2, 0)` is `w1`, and for
`0 < first_bit < MAX_BIT` (32) the result is `((w1 << first_bit) mod 2^32) OR
(w2 >> (32 - first_bit))`, a 32-bit word whose upper `32 - first_bit` bits are
the lower `32 - first_bit` bits of `w1` and whose lower `first_bit` bits are the
upper `first_bit` bits of `w2`; the result is a 32-bit word in both cases. -/
theorem merge_bits (w1 w2 : Nat) (h1 : w1 < 2 ^ 32) (h2 : w2 < 2 ^ 32) :
    (merge w1 w2 0 = some w1 ∧ w1 < 2 ^ 32) ∧
    ∀ first_bit : Int, 0 < first_bit → first_bit < MAX_BIT →
      merge w1 w2 first_bit =
        some (((w1 <<< first_bit.toNat) % 2 ^ 32) ||| (w2 >>> (32 - first_bit.toNat))) ∧
      ∃ r, merge w1 w2 first_bit = some r ∧ r < 2 ^ 32 ∧
        r / 2 ^ first_bit.toNat = w1 % 2 ^ (32 - first_bit.toNat) ∧
        r % 2 ^ first_bit.toNat = w2 / 2 ^ (32 - first_bit.toNat) := by
  refine ⟨⟨rfl, h1⟩, ?_⟩
  intro first_bit h0 h32
  unfold MAX_BIT at h32
  obtain ⟨n, rfl⟩ : ∃ n : Nat, first_bit = (n : Int) := ⟨first_bit.toNat, by omega⟩
  have hn0 : 0 < n := by omega
  have hn : n < 32 := by omega
  have hdef : merge w1 w2 (n : Int) =
      some (((w1 <<< n) % 2 ^ 32) ||| (w2 >>> (32 - n))) := by
    unfold merge MAX_BIT
    rw [if_neg (by omega), if_neg (by omega)]
    have e : ((32 : Int) - (n : Int)).toNat = 32 - n := by omega
    rw [e, Int.toNat_ofNat]
  obtain ⟨hv, hb⟩ := merge_value w1 w2 h2 n hn0 hn
  rw [Int.toNat_ofNat]
  refine ⟨hdef, _, hdef, ?_, ?_, ?_⟩
  · rw [hv]
    have hpow : (2 : Nat) ^ 32 = 2 ^ (32 - n) * 2 ^ n := by
      rw [← Nat.pow_add]
      congr 1
      omega
    have ha : w1 % 2 ^ (32 - n) < 2 ^ (32 - n) := Nat.mod_lt _ (Nat.pow_pos (by decide))
    rw [hpow]
    calc w1 % 2 ^ (32 - n) * 2 ^ n + w2 / 2 ^ (32 - n)
        < w1 % 2 ^ (32 - n) * 2 ^ n + 2 ^ n := by omega
      _ = (w1 % 2 ^ (32 - n) + 1) * 2 ^ n := by ring
      _ ≤ 2 ^ (32 - n) * 2 ^ n := Nat.mul_le_mul_right _ ha
  · rw [hv, Nat.add_comm, Nat.add_mul_div_right _ _ (Nat.pow_pos (by decide)),
      Nat.div_eq_of_lt hb, Nat.zero_add]
  · rw [hv, Nat.add_comm, Nat.add_mul_mod_self_right, Nat.mod_eq_of_lt hb]

theorem merge_bits_witness :
    (merge 0x12345678 0x9ABCDEF0 0 = some 0x12345678 ∧ 0x12345678 < 2 ^ 32) ∧
    merge 0x12345678 0x9ABCDEF0 8 = some 0x3456789A ∧
    (∃ r, merge 0x12345678 0x9ABCDEF0 8 = some r ∧ r < 2 ^ 32 ∧
      r / 2 ^ (8 : Int).toNat = 0x12345678 % 2 ^ (32 - (8 : Int).toNat) ∧
      r % 2 ^ (8 : Int).toNat = 0x9ABCDEF0 / 2 ^ (32 - (8 : Int).toNat)) :=
  ⟨(merge_bits 0x12345678 0x9ABCDEF0 (by decide) (by decide)).1,
   by decide,
   ((merge_bits 0x12345678 0x9ABCDEF0 (by decide) (by decide)).2 8 (by decide)
      (by decide)).2⟩

/-! ## CommandLine::Parse -/

theorem matchesOption_declared (arg : String) (o : CommandLine.Opt) :
    CommandLine.matchesOption arg o.declared = CommandLine.matchesOption arg o := rfl

theorem findOption_declared (arg : String) (options : List CommandLine.Opt) :
    CommandLine.findOption arg (options.map CommandLine.Opt.declared) =
      CommandLine.findOption arg options := by
  induction options with
  | nil => rfl
  | cons o rest ih =>
    simp only [List.map_cons, CommandLine.findOption, matchesOption_declared, ih]

theorem pushValue_declared (options : List CommandLine.Opt) :
    ∀ (j : Nat) (val : String),
      (CommandLine.pushValue options j val).map CommandLine.Opt.declared =
        options.map CommandLine.Opt.declared := by
  induction options with
  | nil => intro j val; rfl
  | cons o rest ih =>
    intro j val
    cases j with
    | zero => rfl
    | succ j => simp only [CommandLine.pushValue, List.map_cons, ih]

theorem valuesOf_pushValue (options : List CommandLine.Opt) :
    ∀ (j k : Nat) (val : String), j < options.length →
      CommandLine.valuesOf (CommandLine.pushValue options j val) k =
        CommandLine.valuesOf options k + (if j = k then 1 else 0) := by
  induction options with
  | nil => intro j k val h; simp at h
  | cons o rest ih =>
    intro j k val h
    cases j with
    | zero =>
      cases k with
      | zero => simp [CommandLine.pushValue, CommandLine.valuesOf]
      | succ k => simp [CommandLine.pushValue, CommandLine.valuesOf]
    | succ j =>
      cases k with
      | zero => simp [CommandLine.pushValue, CommandLine.valuesOf]
      | succ k =>
        have h2 : j < rest.length := by simpa using h
        have := ih j k val h2
        simp only [CommandLine.valuesOf, List.get?_cons_succ, CommandLine.pushValue] at this ⊢
        rw [this]
        simp

theorem get?_lt_of_some {α : Type} (l : List α) (j : Nat) (a : α) (h : l.get? j = some a) :
    j < l.length := by
  by_contra hn
  rw [List.get?_eq_none.mpr (by omega)] at h
  cases h

theorem get?_map_eq {α β : Type} (f : α → β) :
    ∀ (l : List α) (n : Nat), (l.map f).get? n = (l.get? n).map f := by
  intro l
  induction l with
  | nil => intro n; rfl
  | cons a l ih =>
    intro n
    cases n with
    | zero => rfl
    | succ n => exact ih n

theorem namedOptions_declared (options : List CommandLine.Opt) :
    ∀ (n : Nat) (args : List String), args.length ≤ n →
      CommandLine.namedOptions (options.map CommandLine.Opt.declared) args =
        CommandLine.namedOptions options args := by
  intro n
  induction n with
  | zero =>
    intro args h
    cases args with
    | nil => rfl
    | cons a r => simp at h
  | succ n ih =>
    intro args h
    match args, h with
    | [], _ => rfl
    | [arg], _ =>
      simp only [CommandLine.namedOptions, findOption_declared, get?_map_eq]
      cases options.get? (CommandLine.findOption arg options) <;> rfl
    | arg :: val :: rest, h =>
      have h1 : (val :: rest).length ≤ n := by simp at h ⊢; omega
      have h2 : rest.length ≤ n := by simp at h ⊢; omega
      simp only [CommandLine.namedOptions, findOption_declared, get?_map_eq]
      cases hg : options.get? (CommandLine.findOption arg options) with
      | none => simp only [Option.map_none']; exact ih _ h1
      | some o =>
        simp only [Option.map_some']
        have ht : o.declared.type = o.type := rfl
        rw [ht, ih _ h1, ih _ h2]

theorem namedOptions_congr (a b : List CommandLine.Opt) (args : List String)
    (h : a.map CommandLine.Opt.declared = b.map CommandLine.Opt.declared) :
    CommandLine.namedOptions a args = CommandLine.namedOptions b args := by
  rw [← namedOptions_declared a args.length args (Nat.le_refl _),
    ← namedOptions_declared b args.length args (Nat.le_refl _), h]

theorem parseArgs_named (j : Nat) :
    ∀ (n : Nat) (args : List String), args.length ≤ n →
      ∀ (options : List CommandLine.Opt) (Errors : String) (Unrecog : List String),
        (CommandLine.parseArgs args options Errors Unrecog).1.map CommandLine.Opt.declared =
            options.map CommandLine.Opt.declared ∧
        ∃ added, (CommandLine.parseArgs args options Errors Unrecog).2.1 = Errors ++ added ∧
          (added.length = 0 →
            CommandLine.valuesOf (CommandLine.parseArgs args options Errors Unrecog).1 j =
              CommandLine.valuesOf options j +
                (CommandLine.namedOptions options args).count j) := by
  intro n
  induction n with
  | zero =>
    intro args h options Errors Unrecog
    cases args with
    | nil => exact ⟨rfl, "", by simp [CommandLine.parseArgs], fun _ => by
        simp [CommandLine.parseArgs, CommandLine.namedOptions]⟩
    | cons a r => simp at h
  | succ n ih =>
    intro args h options Errors Unrecog
    match args, h with
    | [], _ =>
      exact ⟨rfl, "", by simp [CommandLine.parseArgs], fun _ => by
        simp [CommandLine.parseArgs, CommandLine.namedOptions]⟩
    | [arg], _ =>
      simp only [CommandLine.parseArgs, CommandLine.namedOptions]
      cases hg : options.get? (CommandLine.findOption arg options) with
      | none => exact ⟨rfl, "", by simp, fun _ => by simp⟩
      | some o =>
        have hlt := get?_lt_of_some _ _ _ hg
        simp only
        by_cases ht : o.type.toInt > CommandLine.typeOpt.typeBool.toInt
        · rw [if_pos ht]
          refine ⟨rfl, "Error - option " ++ arg ++ " without value.\n", ?_, ?_⟩
          · simp only [String.append_assoc]
          · intro hl
            simp only [String.length_append] at hl
            have : ("Error - option ").length = 15 := by decide
            omega
        · rw [if_neg ht]
          refine ⟨pushValue_declared _ _ _, "", by simp, fun _ => ?_⟩
          rw [valuesOf_pushValue _ _ _ _ hlt]
          by_cases hjk : CommandLine.findOption arg options = j <;>
            simp [List.count_cons, hjk]
    | arg :: val :: rest, h =>
      have h1 : (val :: rest).length ≤ n := by simp at h ⊢; omega
      have h2 : rest.length ≤ n := by simp at h ⊢; omega
      simp only [CommandLine.parseArgs, CommandLine.namedOptions]
      cases hg : options.get? (CommandLine.findOption arg options) with
      | none =>
        simp only
        exact ih _ h1 options Errors (Unrecog ++ [arg])
      | some o =>
        have hlt := get?_lt_of_some _ _ _ hg
        simp only
        by_cases ht : o.type.toInt > CommandLine.typeOpt.typeBool.toInt
        · rw [if_pos ht, if_pos ht]
          by_cases hv : CommandLine.substr val 0 2 = "--"
          · rw [if_pos hv, if_pos hv]
            obtain ⟨hd, added, he, _⟩ := ih _ h1 options
              (Errors ++ "Error - option " ++ arg ++ " without value.\n") Unrecog
            refine ⟨hd, "Error - option " ++ arg ++ " without value.\n" ++ added, ?_, ?_⟩
            · rw [he]
              simp only [String.append_assoc]
            · intro hl
              simp only [String.length_append] at hl
              have : ("Error - option ").length = 15 := by decide
              omega
          · rw [if_neg hv, if_neg hv]
            obtain ⟨hd, added, he, hc⟩ := ih _ h2
              (CommandLine.pushValue options (CommandLine.findOption arg options) val)
              Errors Unrecog
            refine ⟨hd.trans (pushValue_declared _ _ _), added, he, ?_⟩
            intro hl
            rw [hc hl, valuesOf_pushValue _ _ _ _ hlt,
              namedOptions_congr _ options rest (pushValue_declared _ _ _)]
            by_cases hjk : CommandLine.findOption arg options = j <;>
              (simp [List.count_cons, hjk]; try omega)
        · rw [if_neg ht, if_neg ht]
          obtain ⟨hd, added, he, hc⟩ := ih _ h1
            (CommandLine.pushValue options (CommandLine.findOption arg options) "T")
            Errors Unrecog
          refine ⟨hd.trans (pushValue_declared _ _ _), added, he, ?_⟩
          intro hl
          rw [hc hl, valuesOf_pushValue _ _ _ _ hlt,
            namedOptions_congr _ options (val :: rest) (pushValue_declared _ _ _)]
          by_cases hjk : CommandLine.findOption arg options = j <;>
            (simp [List.count_cons, hjk]; try omega)

theorem parseChecks_eq (env : CommandLine.CLEnv) (c : CommandLine) :
    ∀ (l : List CommandLine.Opt) (Errors : String),
      CommandLine.parseChecks env c l Errors =
        (l.map (CommandLine.parseSpecial env c),
         (l.map (CommandLine.parseSpecial env c)).foldl
           (fun E o => E ++ CommandLine.parseCheck o) Errors) := by
  intro l
  induction l with
  | nil => intro Errors; rfl
  | cons o rest ih =>
    intro Errors
    simp only [CommandLine.parseChecks, ih, List.map_cons, List.foldl_cons]

theorem foldl_parseCheck (l : List CommandLine.Opt) :
    ∀ Errors : String, ∃ added,
      l.foldl (fun E o => E ++ CommandLine.parseCheck o) Errors = Errors ++ added ∧
      ∀ o ∈ l, (CommandLine.parseCheck o).length ≤ added.length := by
  induction l with
  | nil => intro Errors; exact ⟨"", by simp, fun o h => by cases h⟩
  | cons a rest ih =>
    intro Errors
    obtain ⟨added, he, hl⟩ := ih (Errors ++ CommandLine.parseCheck a)
    refine ⟨CommandLine.parseCheck a ++ added, ?_, ?_⟩
    · rw [List.foldl_cons, he, String.append_assoc]
    · intro o ho
      simp only [String.length_append]
      rcases List.mem_cons.mp ho with e | e
      · subst e
        omega
      · have := hl o e
        omega

theorem parseSpecial_fields (env : CommandLine.CLEnv) (c : CommandLine) (o : CommandLine.Opt) :
    (CommandLine.parseSpecial env c o).repeat_ = o.repeat_ ∧
    (CommandLine.parseSpecial env c o).required = o.required ∧
    (CommandLine.parseSpecial env c o).longOpt = o.longOpt ∧
    o.values.length ≤ (CommandLine.parseSpecial env c o).values.length := by
  unfold CommandLine.parseSpecial
  split
  · simp
  · split
    · simp
    · split
      · simp
      · simp

theorem parseCheck_repeated (o : CommandLine.Opt) (hrep : o.repeat_ = false)
    (hval : 1 < o.values.length) : 0 < (CommandLine.parseCheck o).length := by
  unfold CommandLine.parseCheck
  have hc : o.repeat_ = false ∧ o.values.length > 1 := ⟨hrep, hval⟩
  simp only [hc, and_self, if_true, String.length_append]
  have : ("Not-repeatable option ").length = 22 := by decide
  omega

theorem parseCheck_repeatable (o : CommandLine.Opt) (hrep : o.repeat_ = true) :
    CommandLine.parseCheck o =
      (if o.required = true ∧ o.values.length = 0 then
        "Required option " ++ o.longOpt ++ " is not found.\n" else "") := by
  unfold CommandLine.parseCheck
  have hc : ¬ (o.repeat_ = false ∧ o.values.length > 1) := by simp [hrep]
  simp only [hc, if_false, String.append_empty]

/-- The part of `Parse` behind the repetition error: when the arguments name a
not-repeatable option twice, something is added to `Errors`. -/
theorem Parse_named_twice (env : CommandLine.CLEnv) (c : CommandLine) (Args : List String)
    (Errors : String) (Unrecog : List String) (j : Nat) (o : CommandLine.Opt)
    (hj : c.options.get? j = some o) (hrep : o.repeat_ = false)
    (htwice : 2 ≤ (CommandLine.namedOptions c.options Args).count j) :
    ∃ added, 0 < added.length ∧
      (CommandLine.Parse env c Args Errors Unrecog).2.1 = Errors ++ added := by
  obtain ⟨hd, a1, he1, hc1⟩ :=
    parseArgs_named j Args.length Args (Nat.le_refl _) c.options Errors Unrecog
  simp only [CommandLine.Parse, parseChecks_eq]
  obtain ⟨a2, he2, hl2⟩ := foldl_parseCheck
    ((CommandLine.parseArgs Args c.options Errors Unrecog).1.map
      (CommandLine.parseSpecial env c))
    (CommandLine.parseArgs Args c.options Errors Unrecog).2.1
  refine ⟨a1 ++ a2, ?_, ?_⟩
  · simp only [String.length_append]
    by_cases h0 : a1.length = 0
    · have hv := hc1 h0
      have hget := congrArg (fun l => l.get? j) hd
      simp only [get?_map_eq, hj, Option.map_some'] at hget
      cases hg : (CommandLine.parseArgs Args c.options Errors Unrecog).1.get? j with
      | none => rw [hg] at hget; cases hget
      | some o1 =>
        rw [hg] at hget
        simp only [Option.map_some', Option.some.injEq] at hget
        have hrep1 : o1.repeat_ = false := by
          have := congrArg CommandLine.Opt.repeat_ hget
          exact this.trans hrep
        have hlen1 : 2 ≤ o1.values.length := by
          simp only [CommandLine.valuesOf, hg, hj] at hv
          omega
        have hf := parseSpecial_fields env c o1
        have hmem : CommandLine.parseSpecial env c o1 ∈
            (CommandLine.parseArgs Args c.options Errors Unrecog).1.map
              (CommandLine.parseSpecial env c) :=
          List.mem_map_of_mem _ (List.get?_mem hg)
        have hpos := parseCheck_repeated (CommandLine.parseSpecial env c o1)
          (hf.1.trans hrep1) (by omega)
        have := hl2 _ hmem
        omega
    · omega
  · rw [he2, he1, String.append_assoc]

theorem substr_long_form (l : String) : CommandLine.substr ("--" ++ l) 0 2 = "--" := by
  simp only [CommandLine.substr, String.toList, String.data_append, List.drop_zero]
  rfl

theorem count_le_namedOptions (options : List CommandLine.Opt) (name : String) (j : Nat)
    (o : CommandLine.Opt) (hlong : CommandLine.substr name 0 2 = "--")
    (hfind : CommandLine.findOption name options = j) (hj : options.get? j = some o) :
    ∀ (n : Nat) (args : List String), args.length ≤ n →
      args.count name ≤ (CommandLine.namedOptions options args).count j := by
  intro n
  induction n with
  | zero =>
    intro args h
    cases args with
    | nil => simp
    | cons a r => simp at h
  | succ n ih =>
    intro args h
    match args, h with
    | [], _ => simp
    | [arg], _ =>
      by_cases ha : arg = name
      · subst ha
        simp only [CommandLine.namedOptions, hfind, hj]
        simp
      · simp [List.count_cons, ha]
    | arg :: val :: rest, h =>
      have h1 : (val :: rest).length ≤ n := by simp at h ⊢; omega
      have h2 : rest.length ≤ n := by simp at h ⊢; omega
      have ih1 := ih _ h1
      have ih2 := ih _ h2
      simp only [CommandLine.namedOptions]
      cases hg : options.get? (CommandLine.findOption arg options) with
      | none =>
        have ha : arg ≠ name := by
          intro e
          subst e
          rw [hfind, hj] at hg
          cases hg
        simp only
        rw [List.count_cons_of_ne ha.symm]
        exact ih1
      | some o1 =>
        simp only
        have hhead : (if arg = name then 1 else 0) ≤
            (if CommandLine.findOption arg options = j then 1 else 0) := by
          by_cases ha : arg = name
          · subst ha
            simp [hfind]
          · simp only [ha, if_false]
            split <;> omega
        by_cases ht : o1.type.toInt > CommandLine.typeOpt.typeBool.toInt
        · rw [if_pos ht]
          by_cases hv : CommandLine.substr val 0 2 = "--"
          · rw [if_pos hv]
            simp only [List.count_cons, beq_iff_eq] at ih1 ⊢
            omega
          · rw [if_neg hv]
            have hvn : val ≠ name := by
              intro e
              subst e
              exact hv hlong
            rw [List.count_cons, List.count_cons_of_ne hvn.symm]
            simp only [List.count_cons, beq_iff_eq] at ih2 ⊢
            omega
        · rw [if_neg ht]
          simp only [List.count_cons, beq_iff_eq] at ih1 ⊢
          omega

theorem parseArgs_withValues (name : String) (j : Nat) :
    ∀ (vals : List String) (options : List CommandLine.Opt) (Errors : String)
      (Unrecog : List String) (o : CommandLine.Opt),
      CommandLine.findOption name options = j → options.get? j = some o →
      o.type.toInt > CommandLine.typeOpt.typeBool.toInt →
      (∀ v ∈ vals, CommandLine.substr v 0 2 ≠ "--") →
      CommandLine.parseArgs (CommandLine.withValues name vals) options Errors Unrecog =
        (vals.foldl (fun opts v => CommandLine.pushValue opts j v) options, Errors, Unrecog) := by
  intro vals
  induction vals with
  | nil => intro options Errors Unrecog o _ _ _ _; rfl
  | cons v rest ih =>
    intro options Errors Unrecog o hfind hj ht hvals
    have hv : CommandLine.substr v 0 2 ≠ "--" := hvals v (List.mem_cons_self v rest)
    have hd := pushValue_declared options j v
    have hfind2 : CommandLine.findOption name (CommandLine.pushValue options j v) = j := by
      rw [← findOption_declared, hd, findOption_declared, hfind]
    have hget := congrArg (fun l => l.get? j) hd
    simp only [get?_map_eq, hj, Option.map_some'] at hget
    cases hg : (CommandLine.pushValue options j v).get? j with
    | none => rw [hg] at hget; cases hget
    | some o2 =>
      rw [hg] at hget
      simp only [Option.map_some', Option.some.injEq] at hget
      have ht2 : o2.type.toInt > CommandLine.typeOpt.typeBool.toInt := by
        have e : o2.declared.type = o.declared.type := congrArg CommandLine.Opt.type hget
        change o2.type = o.type at e
        rw [e]
        exact ht
      have hrec := ih (CommandLine.pushValue options j v) Errors Unrecog o2 hfind2 hg ht2
        (fun w hw => hvals w (List.mem_cons_of_mem v hw))
      cases hr : CommandLine.withValues name rest with
      | nil =>
        rw [hr] at hrec
        simp only [CommandLine.withValues, hr, CommandLine.parseArgs, hfind, hj, ht, if_true,
          hv, if_false, List.foldl_cons]
        exact hrec
      | cons a b =>
        rw [hr] at hrec
        simp only [CommandLine.withValues, hr, CommandLine.parseArgs, hfind, hj, ht, if_true,
          hv, if_false, List.foldl_cons]
        exact hrec

theorem foldl_pushValue (j : Nat) :
    ∀ (vals : List String) (options : List CommandLine.Opt), j < options.length →
      (vals.foldl (fun opts v => CommandLine.pushValue opts j v) options).map
          CommandLine.Opt.declared = options.map CommandLine.Opt.declared ∧
      CommandLine.valuesOf
          (vals.foldl (fun opts v => CommandLine.pushValue opts j v) options) j =
        CommandLine.valuesOf options j + vals.length := by
  intro vals
  induction vals with
  | nil => intro options _; exact ⟨rfl, rfl⟩
  | cons v rest ih =>
    intro options hlt
    have hd := pushValue_declared options j v
    have hlen : j < (CommandLine.pushValue options j v).length := by
      have := congrArg List.length hd
      simp only [List.length_map] at this
      omega
    obtain ⟨h1, h2⟩ := ih (CommandLine.pushValue options j v) hlen
    refine ⟨h1.trans hd, ?_⟩
    rw [List.foldl_cons, h2, valuesOf_pushValue _ _ _ _ hlt]
    simp only [if_true, List.length_cons]
    omega

/-- C21, amended. `CommandLine::Parse`: for every argument list that names an option that is
not repeatable more than once, in its long `--name` or short `-c` form (an
argument taken as the value of the option before it names nothing; the
long form counts wherever it stands), `Parse` adds an error to `Errors`.  An
option declared repeatable that is given any number of times, each time
followed by a value, has all the values stored, nothing else is added in
the first loop, and its own check in the second loop adds no repetition
error: it adds nothing at all once a value is there. -/
theorem Parse_repetition (env : CommandLine.CLEnv) (c : CommandLine) (Errors : String)
    (Unrecog : List String) (j : Nat) (o : CommandLine.Opt)
    (hj : c.options.get? j = some o) :
    (o.repeat_ = false →
      (∀ Args : List String, 2 ≤ (CommandLine.namedOptions c.options Args).count j →
        ∃ added, 0 < added.length ∧
          (CommandLine.Parse env c Args Errors Unrecog).2.1 = Errors ++ added) ∧
      (∀ Args : List String, CommandLine.findOption ("--" ++ o.longOpt) c.options = j →
        2 ≤ Args.count ("--" ++ o.longOpt) →
        ∃ added, 0 < added.length ∧
          (CommandLine.Parse env c Args Errors Unrecog).2.1 = Errors ++ added)) ∧
    (o.repeat_ = true → o.type.toInt > CommandLine.typeOpt.typeBool.toInt →
      ∀ (name : String) (vals : List String),
        CommandLine.findOption name c.options = j →
        (∀ v ∈ vals, CommandLine.substr v 0 2 ≠ "--") →
        CommandLine.Parse env c (CommandLine.withValues name vals) Errors Unrecog =
          ({ c with
              options := List.map (CommandLine.parseSpecial env c)
                (vals.foldl (fun opts v => CommandLine.pushValue opts j v) c.options) },
           ((vals.foldl (fun opts v => CommandLine.pushValue opts j v) c.options).map
              (CommandLine.parseSpecial env c)).foldl
                (fun E o => E ++ CommandLine.parseCheck o) Errors,
           Unrecog) ∧
        ∃ oj, ((vals.foldl (fun opts v => CommandLine.pushValue opts j v) c.options).map
              (CommandLine.parseSpecial env c)).get? j = some oj ∧
          o.values.length + vals.length ≤ oj.values.length ∧
          CommandLine.parseCheck oj =
            (if oj.required = true ∧ oj.values.length = 0 then
              "Required option " ++ oj.longOpt ++ " is not found.\n" else "") ∧
          (vals ≠ [] → CommandLine.parseCheck oj = "")) := by
  refine ⟨fun hrep => ⟨?_, ?_⟩, ?_⟩
  · intro Args htwice
    exact Parse_named_twice env c Args Errors Unrecog j o hj hrep htwice
  · intro Args hfind htwice
    have hc := count_le_namedOptions c.options ("--" ++ o.longOpt) j o
      (substr_long_form o.longOpt) hfind hj Args.length Args (Nat.le_refl _)
    exact Parse_named_twice env c Args Errors Unrecog j o hj hrep (by omega)
  · intro hrep ht name vals hfind hvals
    have hp := parseArgs_withValues name j vals c.options Errors Unrecog o hfind hj ht hvals
    refine ⟨?_, ?_⟩
    · simp only [CommandLine.Parse, hp, parseChecks_eq]
    · obtain ⟨hd, hv⟩ := foldl_pushValue j vals c.options (get?_lt_of_some _ _ _ hj)
      have hget := congrArg (fun l => l.get? j) hd
      simp only [get?_map_eq, hj, Option.map_some'] at hget
      cases hg : (vals.foldl (fun opts v => CommandLine.pushValue opts j v) c.options).get? j with
      | none => rw [hg] at hget; cases hget
      | some o1 =>
        rw [hg] at hget
        simp only [Option.map_some', Option.some.injEq] at hget
        have hrep1 : o1.repeat_ = true := by
          have e : o1.declared.repeat_ = o.declared.repeat_ :=
            congrArg CommandLine.Opt.repeat_ hget
          exact e.trans hrep
        have hlen1 : o1.values.length = o.values.length + vals.length := by
          simpa only [CommandLine.valuesOf, hg, hj] using hv
        have hf := parseSpecial_fields env c o1
        have hck := parseCheck_repeatable (CommandLine.parseSpecial env c o1)
          (hf.1.trans hrep1)
        refine ⟨CommandLine.parseSpecial env c o1, ?_, by omega, hck, ?_⟩
        · rw [get?_map_eq, hg]
          rfl
        · intro hne
          rw [hck, if_neg]
          intro hc
          have : 0 < vals.length := List.length_pos.mpr hne
          omega

/-- C21, as stated, fails when the second occurrence is taken as a value: with the
not-repeatable option `--input` (short form `-i`) of type string, the
arguments `-i -i` hold the short form twice; `Parse` stores the second `-i` as
the value of the first and adds nothing to `Errors`. -/
theorem Parse_repetition_counterexample :
    CommandLine.needsInput.options.map (fun o => (o.shortOpt, o.longOpt, o.repeat_)) =
      [('i', "input", false)] ∧
    ["-i", "-i"].count "-i" = 2 ∧
    CommandLine.Parse CommandLine.plainEnv CommandLine.needsInput ["-i", "-i"] "" [] =
      ({ CommandLine.needsInput with
          options := [{ CommandLine.Opt.ctor 'i' "input" "file" "" "Input file" false true
                          .typeString true with values := ["-i"] }] },
       "", []) ∧
    CommandLine.namedOptions CommandLine.needsInput.options ["-i", "-i"] = [0] :=
  ⟨rfl, rfl, rfl, rfl⟩

theorem Parse_repetition_witness :
    (∃ added, 0 < added.length ∧
      (CommandLine.Parse CommandLine.plainEnv CommandLine.needsInput
        ["-i", "a.obs", "--input", "b.obs"] "" []).2.1 = "" ++ added) ∧
    (CommandLine.Parse CommandLine.plainEnv CommandLine.needsInput
        ["-i", "a.obs", "--input", "b.obs"] "" []).2.1 =
      "Not-repeatable option input was repeated.\n" ∧
    (∃ added, 0 < added.length ∧
      (CommandLine.Parse CommandLine.plainEnv CommandLine.needsInput
        ["--input", "--input"] "" []).2.1 = "" ++ added) ∧
    (CommandLine.Parse CommandLine.plainEnv CommandLine.needsInput
        ["--input", "--input"] "" []).2.1 =
      "Error - option --input without value.\nError - option --input without value.\nRequired option input is not found.\n" ∧
    (CommandLine.Parse CommandLine.plainEnv CommandLine.manyInputs
        (CommandLine.withValues "--input" ["a", "b", "c"]) "" []).2.1 = "" ∧
    (∃ oj, (((["a", "b", "c"] : List String).foldl
          (fun opts v => CommandLine.pushValue opts 0 v) CommandLine.manyInputs.options).map
            (CommandLine.parseSpecial CommandLine.plainEnv CommandLine.manyInputs)).get? 0 =
          some oj ∧
        oj.values = ["a", "b", "c"] ∧ CommandLine.parseCheck oj = "") :=
  ⟨((Parse_repetition CommandLine.plainEnv CommandLine.needsInput "" [] 0
      (CommandLine.Opt.ctor 'i' "input" "file" "" "Input file" false true .typeString true)
      rfl).1 rfl).1 ["-i", "a.obs", "--input", "b.obs"] (by decide),
   rfl,
   ((Parse_repetition CommandLine.plainEnv CommandLine.needsInput "" [] 0
      (CommandLine.Opt.ctor 'i' "input" "file" "" "Input file" false true .typeString true)
      rfl).1 rfl).2 ["--input", "--input"] rfl (by decide),
   rfl,
   rfl,
   match ((Parse_repetition CommandLine.plainEnv CommandLine.manyInputs "" [] 0
      (CommandLine.Opt.ctor 'i' "input" "file" "" "Input files" true false
        .typeVectorString true) rfl).2 rfl (by decide) "--input" ["a", "b", "c"] rfl
        (by decide)).2 with
   | ⟨oj, h1, _, _, h4⟩ =>
     ⟨oj, h1, by
        have e : oj = { CommandLine.Opt.ctor 'i' "input" "file" "" "Input files" true false
            .typeVectorString true with values := ["a", "b", "c"] } :=
          (Option.some.inj (h1.symm.trans rfl)).symm ▸ rfl
        rw [e], h4 (by decide)⟩⟩

/-! ## mixedScanTime: the values held for the overrides -/

/-- One turn of the loop that completes assigns `iweek` only on `G`, `ifullweek` only
on `F`, and `idow` only on `w` and on a weekday name that is recognised. -/
theorem mixedCase_weeks {D : Type} (env : Env D) (info : IdToValue) (s s2 : MixedState D)
    (c : Char) (v : String) (h : mixedCase env info s c v = .ok s2) :
    s2.iweek = (if c = 'G' then env.asInt v else s.iweek)
    ∧ s2.ifullweek = (if c = 'F' then env.asInt v else s.ifullweek)
    ∧ s2.idow = (if c = 'w' then env.asInt v
        else if c = 'a' ∨ c = 'A' then (weekdayIndex env v).getD s.idow else s.idow)
    ∧ s2.ihour = (if c = 'H' then env.asInt v else s.ihour) := by
  unfold mixedCase at h
  split at h
  all_goals (try split at h)
  all_goals (try split at h)
  all_goals simp only [except_bind_eq_ok, pure, Except.pure, throw, throwThe,
    MonadExceptOf.throw, Except.ok.injEq, reduceCtorEq] at h
  all_goals first
    | (subst h; simp_all)
    | (obtain ⟨_, _, h⟩ := h; subst h; simp)
    | (obtain ⟨_, _, _, _, h⟩ := h; subst h; simp)

theorem mixedLoop_keeps {D : Type} (env : Env D) (info : IdToValue)
    (proj : MixedState D → Int) (c0 : Char)
    (hstep : ∀ s s2 c v, mixedCase env info s c v = .ok s2 → c ≠ c0 → proj s2 = proj s) :
    ∀ (l : IdToValue) (s s2 : MixedState D), mixedLoop env info l s = (s2, none) →
      l.has c0 = false → proj s2 = proj s := by
  intro l
  induction l with
  | nil =>
    intro s s2 h _
    simp only [mixedLoop, Prod.mk.injEq, and_true] at h
    subst h
    rfl
  | cons e l ih =>
    intro s s2 h hno
    simp only [IdToValue.has, List.any_cons, Bool.or_eq_false_iff, decide_eq_false_iff_not] at hno
    simp only [mixedLoop] at h
    cases hc : mixedCase env info s e.1 e.2 with
    | error x => simp [hc] at h
    | ok s1 =>
      simp only [hc] at h
      rw [ih s1 s2 h hno.2, hstep s s1 e.1 e.2 hc hno.1]

theorem mixedLoop_assigned {D : Type} (env : Env D) (info : IdToValue)
    (proj : MixedState D → Int) (c0 : Char)
    (hstep : ∀ s s2 c v, mixedCase env info s c v = .ok s2 →
      proj s2 = (if c = c0 then env.asInt v else proj s)) :
    ∀ (l : IdToValue) (s s2 : MixedState D) (v : String),
      mixedLoop env info l s = (s2, none) → IdToValue.Ordered l → (c0, v) ∈ l →
      proj s2 = env.asInt v := by
  intro l
  induction l with
  | nil => intro s s2 v _ _ hm; cases hm
  | cons e l ih =>
    intro s s2 v h hord hm
    simp only [mixedLoop] at h
    cases hc : mixedCase env info s e.1 e.2 with
    | error x => simp [hc] at h
    | ok s1 =>
      simp only [hc] at h
      have hord2 : IdToValue.Ordered l := (List.pairwise_cons.mp hord).2
      rcases List.mem_cons.mp hm with he | hl
      · subst he
        have hno : IdToValue.has l c0 = false := by
          simp only [IdToValue.has, List.any_eq_false, decide_eq_true_eq]
          intro x hx hxe
          have hlt := (List.pairwise_cons.mp hord).1 x hx
          simp only [hxe] at hlt
          exact absurd hlt (lt_irrefl _)
        rw [mixedLoop_keeps env info proj c0
          (fun s s2 c v hcc hne => by rw [hstep s s2 c v hcc, if_neg hne]) l s1 s2 h hno,
          hstep s s1 c0 v hc, if_pos rfl]
      · exact ih s1 s2 v h hord2 hl

theorem mixedScanTimeInfo_full_week_alone {D : Type} (env : Env D) (u : Indeterminate D)
    (ct : CommonTime D) (c : Char) (v : String) (s : MixedState D)
    (hcase : mixedCase env [(c, v)] (MixedState.start ct u) c v = .ok s)
    (hflags : s.hepoch = false ∧ s.hyear = false ∧ s.hmonth = false ∧ s.hfullweek = true ∧
      s.hweek = false ∧ s.hdow = false ∧ s.hday = false ∧ s.hdoy = false ∧
      s.hzcount29 = false ∧ s.hzcount = false ∧ s.hhour = false ∧ s.hmin = false ∧
      s.hsow = false ∧ s.hsod = false ∧ s.hsec = false)
    (ht : s.t = ct) :
    (mixedScanTimeInfo env u ct [(c, v)]).result = overrideFullWeek env s ct := by
  obtain ⟨h1, h2, h3, h4, h5, h6, h7, h8, h9, h10, h11, h12, h13, h14, h15⟩ := hflags
  simp only [mixedScanTimeInfo, mixedLoop, hcase, mixedOverrides,
    CommonTime.setTimeSystem_getTimeSystem, h1, h2, h3, h4, h5, h6, h7, h8, h9, h10, h11, h12,
    h13, h14, h15, ht, Bool.false_eq_true, if_false, if_true, pure, Except.pure, bind,
    Except.bind]
  cases overrideFullWeek env s ct <;> rfl

/-- The defect behind C25, the one of C26 seen at the full week: the block
`if( hfullweek )` does what the claim says with the value of `ifullweek`: when
the working instant equals `CommonTime::BEGINNING_OF_TIME` the week variant is
the default-constructed one with its week set to `ifullweek`, and
`convertFromCommonTime` is not called; for every other working instant the
variant is populated by `convertFromCommonTime` and only its week is replaced.
But `ifullweek` is the number of the text only for code `F`
(`ifullweek = asInt( it->second )`): the cases `D`, `L` and `O` (and `I`, which
`mixedScanTime` has where `h` is meant) set their flags and assign nothing, so
with one of them alone the week is the value the uninitialised `ifullweek`
happens to hold.  On the reference environment "900" against "%D" on
`BEGINNING_OF_TIME` gives BeiDou week 1234 when `ifullweek` holds 1234 and an
`InvalidRequest` when it holds -5, where the claim has week 900; "2000" against
"%F" gives week 2000. -/
theorem mixedScanTime_full_week_override {D : Type} (env : Env D) (u : Indeterminate D)
    (ct : CommonTime D) (v : String) :
    (∀ s : MixedState D,
      overrideFullWeek env s ct =
        if env.eqCommonTime ct env.BEGINNING_OF_TIME = true then
          lib ((mixedWeekOps env s).convertToCommonTime
            { week := s.ifullweek, sow := (mixedWeekOps env s).ctor.sow,
              timeSystem := (mixedWeekOps env s).ctor.timeSystem })
        else
          (lib ((mixedWeekOps env s).convertFromCommonTime ct) >>= fun ptt =>
            lib ((mixedWeekOps env s).convertToCommonTime
              { week := s.ifullweek, sow := ptt.sow, timeSystem := ptt.timeSystem }))) ∧
    (∀ (t : CommonTime D) (info : IdToValue) (s : MixedState D),
      info.Ordered → ('F', v) ∈ info →
      mixedLoop env info info (MixedState.start t u) = (s, none) →
      s.hfullweek = true ∧ s.ifullweek = env.asInt v) ∧
    (mixedScanTimeInfo env u ct [('F', v)]).result =
      (if env.eqCommonTime ct env.BEGINNING_OF_TIME = true then
        lib (env.gps.convertToCommonTime
          { week := env.asInt v, sow := env.gps.ctor.sow,
            timeSystem := env.gps.ctor.timeSystem })
      else
        (lib (env.gps.convertFromCommonTime ct) >>= fun ptt =>
          lib (env.gps.convertToCommonTime
            { week := env.asInt v, sow := ptt.sow, timeSystem := ptt.timeSystem }))) ∧
    (mixedScanTimeInfo env u ct [('D', v)]).result =
      (if env.eqCommonTime ct env.BEGINNING_OF_TIME = true then
        lib (env.bds.convertToCommonTime
          { week := u.ifullweek, sow := env.bds.ctor.sow,
            timeSystem := env.bds.ctor.timeSystem })
      else
        (lib (env.bds.convertFromCommonTime ct) >>= fun ptt =>
          lib (env.bds.convertToCommonTime
            { week := u.ifullweek, sow := ptt.sow, timeSystem := ptt.timeSystem }))) ∧
    (mixedScanTimeInfo env u ct [('L', v)]).result =
      (if env.eqCommonTime ct env.BEGINNING_OF_TIME = true then
        lib (env.gal.convertToCommonTime
          { week := u.ifullweek, sow := env.gal.ctor.sow,
            timeSystem := env.gal.ctor.timeSystem })
      else
        (lib (env.gal.convertFromCommonTime ct) >>= fun ptt =>
          lib (env.gal.convertToCommonTime
            { week := u.ifullweek, sow := ptt.sow, timeSystem := ptt.timeSystem }))) ∧
    (mixedScanTimeInfo env u ct [('O', v)]).result =
      (if env.eqCommonTime ct env.BEGINNING_OF_TIME = true then
        lib (env.irn.convertToCommonTime
          { week := u.ifullweek, sow := env.irn.ctor.sow,
            timeSystem := env.irn.ctor.timeSystem })
      else
        (lib (env.irn.convertFromCommonTime ct) >>= fun ptt =>
          lib (env.irn.convertToCommonTime
            { week := u.ifullweek, sow := ptt.sow, timeSystem := ptt.timeSystem }))) ∧
    (ref.getInfo "900" "%D" = .ok [('D', "900")] ∧
      ref.eqCommonTime Ref.BEGINNING_OF_TIME ref.BEGINNING_OF_TIME = true ∧
      staleValues.ifullweek = 1234 ∧ someJunk.ifullweek = -5) ∧
    mixedScanTime ref staleValues Ref.BEGINNING_OF_TIME "900" "%D" =
      { t := { m_day := 2462375, m_msod := 0, m_fsod := 0, m_timeSystem := .BDT },
        thrown := none } ∧
    (ref.bds.convertToCommonTime { week := 1234, sow := 0, timeSystem := .BDT } =
        .ok { m_day := 2462375, m_msod := 0, m_fsod := 0, m_timeSystem := .BDT } ∧
      ref.bds.convertToCommonTime { week := 900, sow := 0, timeSystem := .BDT } =
        .ok { m_day := 2460037, m_msod := 0, m_fsod := 0, m_timeSystem := .BDT }) ∧
    mixedScanTime ref someJunk Ref.BEGINNING_OF_TIME "900" "%D" =
      { t := Ref.BEGINNING_OF_TIME,
        thrown := some (.library (Ref.invalid "week out of range")) } ∧
    mixedScanTime ref staleValues lastDayOf2023 "900" "%D" =
      { t := { m_day := 2462375, m_msod := 43200500, m_fsod := 0, m_timeSystem := .UTC },
        thrown := none } ∧
    (ref.gps.convertFromCommonTime Ref.BEGINNING_OF_TIME =
        .error (Ref.invalid "instant before the first week") ∧
      mixedScanTime ref staleValues Ref.BEGINNING_OF_TIME "2000" "%F" =
        { t := { m_day := 2458245, m_msod := 0, m_fsod := 0, m_timeSystem := .GPS },
          thrown := none } ∧
      mixedScanTime ref staleValues lastDayOf2023 "2000" "%F" =
        { t := { m_day := 2458245, m_msod := 43200500, m_fsod := 0, m_timeSystem := .UTC },
          thrown := none }) := by
  have hblock : ∀ s : MixedState D,
      overrideFullWeek env s ct =
        if env.eqCommonTime ct env.BEGINNING_OF_TIME = true then
          lib ((mixedWeekOps env s).convertToCommonTime
            { week := s.ifullweek, sow := (mixedWeekOps env s).ctor.sow,
              timeSystem := (mixedWeekOps env s).ctor.timeSystem })
        else
          (lib ((mixedWeekOps env s).convertFromCommonTime ct) >>= fun ptt =>
            lib ((mixedWeekOps env s).convertToCommonTime
              { week := s.ifullweek, sow := ptt.sow, timeSystem := ptt.timeSystem })) := by
    intro s
    rfl
  refine ⟨hblock, ?_, ?_, ?_, ?_, ?_, ⟨rfl, rfl, rfl, rfl⟩, rfl, ⟨rfl, rfl⟩, rfl, rfl,
    ⟨rfl, rfl, rfl⟩⟩
  · intro t info s hord hm hloop
    constructor
    · rw [mixedLoop_hfullweek env u t info s hloop]
      simp only [IdToValue.hasAny, List.any_eq_true]
      exact ⟨('F', v), hm, rfl⟩
    · exact mixedLoop_assigned env info (fun s => s.ifullweek) 'F'
        (fun s s2 c v hc => (mixedCase_weeks env info s s2 c v hc).2.1) info _ s v hloop hord hm
  · rw [mixedScanTimeInfo_full_week_alone env u ct 'F' v _ rfl
      ⟨rfl, rfl, rfl, rfl, rfl, rfl, rfl, rfl, rfl, rfl, rfl, rfl, rfl, rfl, rfl⟩ rfl, hblock]
    rfl
  · rw [mixedScanTimeInfo_full_week_alone env u ct 'D' v _ rfl
      ⟨rfl, rfl, rfl, rfl, rfl, rfl, rfl, rfl, rfl, rfl, rfl, rfl, rfl, rfl, rfl⟩ rfl, hblock]
    rfl
  · rw [mixedScanTimeInfo_full_week_alone env u ct 'L' v _ rfl
      ⟨rfl, rfl, rfl, rfl, rfl, rfl, rfl, rfl, rfl, rfl, rfl, rfl, rfl, rfl, rfl⟩ rfl, hblock]
    rfl
  · rw [mixedScanTimeInfo_full_week_alone env u ct 'O' v _ rfl
      ⟨rfl, rfl, rfl, rfl, rfl, rfl, rfl, rfl, rfl, rfl, rfl, rfl, rfl, rfl, rfl⟩ rfl, hblock]
    rfl

/-- Witness of C25: in the map of "2000 12" against "%F %H", which is in key order and
holds `F`, the loop ends with the full week flag set and `ifullweek` = 2000. -/
theorem mixedScanTime_full_week_override_witness :
    ref.getInfo "2000 12" "%F %H" = .ok [('F', "2000"), ('H', "12")] ∧
    IdToValue.Ordered [('F', "2000"), ('H', "12")] ∧
    ((mixedLoop ref [('F', "2000"), ('H', "12")] [('F', "2000"), ('H', "12")]
        (MixedState.start lastDayOf2023 someJunk)).1.hfullweek = true ∧
      (mixedLoop ref [('F', "2000"), ('H', "12")] [('F', "2000"), ('H', "12")]
        (MixedState.start lastDayOf2023 someJunk)).1.ifullweek = 2000) :=
  have hord : IdToValue.Ordered [('F', "2000"), ('H', "12")] := by
    simp [IdToValue.Ordered]
  ⟨rfl, hord,
   (mixedScanTime_full_week_override ref someJunk lastDayOf2023 "2000").2.1 lastDayOf2023
     [('F', "2000"), ('H', "12")] _ hord (by simp) rfl⟩

/-- The defect behind C26: the cases `D`, `e`, `L`, `l`, `I`, `i`, `O`, `o` of
`mixedScanTime` set their flags and assign nothing, where `G` and `F` also store
the number (`iweek = asInt(...)`, `ifullweek = asInt(...)`).  With a
per-constellation code alone, the week override runs on the value the
uninitialised `iweek` or `ifullweek` happens to hold, whatever the text
says: on the reference environment "100" against "%e" gives BeiDou week 7 when
`iweek` holds 7 and an `InvalidRequest` when it holds -4, where week 100 is what
the text says. -/
theorem mixedScanTime_constellation_week_unassigned {D : Type} (env : Env D)
    (u : Indeterminate D) (t : CommonTime D) (v : String) :
    ((mixedLoop env [('e', v)] [('e', v)] (MixedState.start t u)).1.hweek = true ∧
      (mixedLoop env [('e', v)] [('e', v)] (MixedState.start t u)).1.iweek = u.iweek ∧
      (mixedLoop env [('l', v)] [('l', v)] (MixedState.start t u)).1.iweek = u.iweek ∧
      (mixedLoop env [('i', v)] [('i', v)] (MixedState.start t u)).1.iweek = u.iweek ∧
      (mixedLoop env [('o', v)] [('o', v)] (MixedState.start t u)).1.iweek = u.iweek) ∧
    ((mixedLoop env [('D', v)] [('D', v)] (MixedState.start t u)).1.hfullweek = true ∧
      (mixedLoop env [('D', v)] [('D', v)] (MixedState.start t u)).1.ifullweek = u.ifullweek ∧
      (mixedLoop env [('L', v)] [('L', v)] (MixedState.start t u)).1.ifullweek = u.ifullweek ∧
      (mixedLoop env [('O', v)] [('O', v)] (MixedState.start t u)).1.ifullweek = u.ifullweek) ∧
    ((mixedLoop env [('G', v)] [('G', v)] (MixedState.start t u)).1.iweek = env.asInt v ∧
      (mixedLoop env [('F', v)] [('F', v)] (MixedState.start t u)).1.ifullweek = env.asInt v) ∧
    (mixedScanTimeInfo env u t [('e', v)]).result =
      (lib (env.bds.convertFromCommonTime t) >>= fun ptt =>
        lib (env.bds.convertToCommonTime (env.bds.setModWeek ptt u.iweek))) ∧
    ref.getInfo "100" "%e" = .ok [('e', "100")] ∧
    mixedScanTime ref staleValues lastDayOf2023 "100" "%e" =
      { t := { m_day := 2453786, m_msod := 43200500, m_fsod := 0, m_timeSystem := .UTC },
        thrown := none } ∧
    ref.bds.convertFromCommonTime
        { m_day := 2453786, m_msod := 43200500, m_fsod := 0, m_timeSystem := .UTC } =
      .ok { week := 7, sow := 43200500000000, timeSystem := .UTC } ∧
    mixedScanTime ref someJunk lastDayOf2023 "100" "%e" =
      { t := lastDayOf2023,
        thrown := some (.library (Ref.invalid "week out of range")) } ∧
    (lib (ref.bds.convertFromCommonTime lastDayOf2023) >>= fun ptt =>
        lib (ref.bds.convertToCommonTime (ref.bds.setModWeek ptt 100))) =
      lib (ref.bds.convertToCommonTime
        { week := 100, sow := 43200500000000, timeSystem := .UTC }) := by
  refine ⟨⟨rfl, rfl, rfl, rfl, rfl⟩, ⟨rfl, rfl, rfl, rfl⟩, ⟨rfl, rfl⟩, ?_, rfl, rfl, rfl, rfl,
    rfl⟩
  simp only [mixedScanTimeInfo, mixedLoop, mixedCase, pure, Except.pure, MixedState.start,
    mixedOverrides, CommonTime.setTimeSystem_getTimeSystem, Bool.false_eq_true, if_false,
    if_true, overrideModWeek, mixedWeekOps, Bool.or_true, Bool.or_false, bind, Except.bind]
  cases lib (env.bds.convertFromCommonTime t) with
  | error e => rfl
  | ok ptt =>
    simp only
    cases lib (env.bds.convertToCommonTime (env.bds.setModWeek ptt u.iweek)) <;> rfl

/-- The defect behind C27: the comment in `mixedScanTime` says that MJD, Julian date,
ANSI time, Unix time, POSIX time and 32-bit Z-counts "are treated as
stand-alone types and are not mixed with others if detected", but their cases
only assign `t` inside the loop, and the overrides that follow the loop are
applied to that `t` like to any other.  With `Q` and `H` in the map, the
result is the instant of the MJD text with its hour replaced: on the
reference environment "60000" against "%Q" is day 2460001 at 00:00:00, and
"60000 13" against "%Q %H" is that day at 13:00:00. -/
theorem mixedScanTime_standalone_is_mixed {D : Type} (env : Env D) (u : Indeterminate D)
    (t : CommonTime D) (q h : String) :
    (mixedScanTimeInfo env u t [('Q', q)]).result =
      lib (env.mjd.convertToCommonTime { env.mjd.ctor with mjd := env.asLongDouble q }) ∧
    (mixedScanTimeInfo env u t [('H', h), ('Q', q)]).result =
      (lib (env.mjd.convertToCommonTime { env.mjd.ctor with mjd := env.asLongDouble q }) >>=
        fun r => lib (env.civil.convertFromCommonTime r) >>=
          fun tt => lib (env.civil.convertToCommonTime { tt with hour := env.asInt h })) ∧
    ref.getInfo "60000 13" "%Q %H" = .ok [('H', "13"), ('Q', "60000")] ∧
    mixedScanTime ref someJunk lastDayOf2023 "60000" "%Q" =
      { t := { m_day := 2460001, m_msod := 0, m_fsod := 0, m_timeSystem := .Unknown },
        thrown := none } ∧
    mixedScanTime ref someJunk lastDayOf2023 "60000 13" "%Q %H" =
      { t := { m_day := 2460001, m_msod := 46800000, m_fsod := 0, m_timeSystem := .Unknown },
        thrown := none } := by
  refine ⟨?_, ?_, rfl, rfl, rfl⟩
  · simp only [mixedScanTimeInfo, mixedLoop, mixedCase, pure, Except.pure, MixedState.start,
      bind, Except.bind]
    cases lib (env.mjd.convertToCommonTime
      { env.mjd.ctor with mjd := env.asLongDouble q }) with
    | error e => rfl
    | ok r =>
      simp only [mixedOverrides, CommonTime.setTimeSystem_getTimeSystem, Bool.false_eq_true,
        if_false, pure, Except.pure, bind, Except.bind]
      rfl
  · simp only [mixedScanTimeInfo, mixedLoop, mixedCase, pure, Except.pure, MixedState.start,
      bind, Except.bind]
    cases lib (env.mjd.convertToCommonTime
      { env.mjd.ctor with mjd := env.asLongDouble q }) with
    | error e => rfl
    | ok r =>
      simp only [mixedOverrides, CommonTime.setTimeSystem_getTimeSystem, Bool.false_eq_true,
        if_false, if_true, overrideHour, pure, Except.pure, bind, Except.bind]
      cases lib (env.civil.convertFromCommonTime r) with
      | error e => rfl
      | ok tt =>
        simp only
        cases lib (env.civil.convertToCommonTime { tt with hour := env.asInt h }) <;> rfl

/-! ## scanTime: the caller's instant on failure -/

theorem scanCase_t {D : Type} (env : Env D) (s : ScanState D) (c : Char) (v : String) :
    (scanCase env s c v).t =
      (if c = 'P' then s.t.setTimeSystem (env.asTimeSystem v) else s.t) := by
  unfold scanCase
  split <;> (try split) <;> simp_all

theorem scanFold_t {D : Type} (env : Env D) :
    ∀ (l : IdToValue) (s : ScanState D), IdToValue.has l 'P' = false →
      (l.foldl (fun s e => scanCase env s e.1 e.2) s).t = s.t := by
  intro l
  induction l with
  | nil => intro s _; rfl
  | cons e l ih =>
    intro s h
    simp only [IdToValue.has, List.any_cons, Bool.or_eq_false_iff,
      decide_eq_false_iff_not] at h
    rw [List.foldl_cons, ih _ h.2, scanCase_t, if_neg h.1]

/-- The defect behind C28: the case `P` of the loop of `scanTime(CommonTime&, ...)`
calls `t.setTimeSystem(ts)` on the caller's instant, before anything is known to
succeed; every path that succeeds then overwrites `t` as a whole, so the
early write shows only when the call fails.  A map without `P` leaves the
caller's instant as it was when the call fails with the incomplete
specification error; with `P` the instant comes back with the time system
of the text: on the reference environment "GPS" against "%P" fails and
turns the caller's UTC instant into a GPS one. -/
theorem scanTime_failure_keeps_time_system {D : Type} (env : Env D) (t : CommonTime D)
    (v : String) :
    scanTimeInfo env t [('P', v)] =
      { t := t.setTimeSystem (env.asTimeSystem v), thrown := some .incompleteSpecification } ∧
    (∀ info : IdToValue, info.has 'P' = false → (scanLoop env t info).t = t) ∧
    lastDayOf2023.m_timeSystem = .UTC ∧
    ref.getInfo "GPS" "%P" = .ok [('P', "GPS")] ∧
    scanTime ref lastDayOf2023 "GPS" "%P" =
      { t := { m_day := 2460310, m_msod := 43200500, m_fsod := 0, m_timeSystem := .GPS },
        thrown := some .incompleteSpecification } ∧
    scanTime ref lastDayOf2023 "GPS 12" "%P %H" =
      { t := { m_day := 2460310, m_msod := 43200500, m_fsod := 0, m_timeSystem := .GPS },
        thrown := some .incompleteSpecification } :=
  ⟨rfl, fun info h => scanFold_t env info _ h, rfl, rfl, rfl, rfl⟩

/-! ## The weekday name in the two loops -/

/-- The defect behind C29: both loops set `hdow = true` on a weekday name and
store the index 0..6 of the day; for a text that names no day the loop of
`scanTime` has `else { hdow = false; }` and the loop of `mixedScanTime` has no
`else`, so there `hdow` stays true and `idow` keeps what it held, which for a
name alone is the value of an uninitialised variable.  On the reference
environment "Noday" against "%a" moves the caller's Sunday to the Wednesday
of its week when `idow` holds 3, and fails when it holds -6. -/
theorem weekday_name_unknown_differs {D : Type} (env : Env D) (info : IdToValue)
    (s : ScanState D) (m : MixedState D) (v : String) :
    ((scanCase env s 'a' v).hdow = (weekdayIndex env v).isSome ∧
      (scanCase env s 'A' v).hdow = (weekdayIndex env v).isSome) ∧
    ((scanCase env s 'a' v).idow = (weekdayIndex env v).getD s.idow ∧
      (scanCase env s 'A' v).idow = (weekdayIndex env v).getD s.idow) ∧
    (mixedCase env info m 'a' v =
        .ok { m with hdow := true, idow := (weekdayIndex env v).getD m.idow } ∧
      mixedCase env info m 'A' v =
        .ok { m with hdow := true, idow := (weekdayIndex env v).getD m.idow }) ∧
    (weekdayIndex ref "Noday" = none ∧ weekdayIndex ref "Tuesday" = some 2) ∧
    (scanLoop ref lastDayOf2023 [('a', "Noday")]).hdow = false ∧
    ((mixedLoop ref [('a', "Noday")] [('a', "Noday")]
        (MixedState.start lastDayOf2023 staleValues)).1.hdow = true ∧
      (mixedLoop ref [('a', "Noday")] [('a', "Noday")]
        (MixedState.start lastDayOf2023 staleValues)).1.idow = staleValues.idow) ∧
    mixedScanTime ref staleValues lastDayOf2023 "Noday" "%a" =
      { t := { m_day := 2460313, m_msod := 0, m_fsod := 0, m_timeSystem := .UTC },
        thrown := none } ∧
    mixedScanTime ref someJunk lastDayOf2023 "Noday" "%a" =
      { t := lastDayOf2023,
        thrown := some (.library (Ref.invalid "seconds of week out of range")) } ∧
    mixedScanTime ref someJunk lastDayOf2023 "Tuesday" "%a" =
      { t := { m_day := 2460312, m_msod := 0, m_fsod := 0, m_timeSystem := .UTC },
        thrown := none } := by
  refine ⟨⟨?_, ?_⟩, ⟨?_, ?_⟩, ⟨?_, ?_⟩, ⟨rfl, rfl⟩, rfl, ⟨rfl, rfl⟩, rfl, rfl, rfl⟩
  · simp only [scanCase]
    cases weekdayIndex env v <;> rfl
  · simp only [scanCase]
    cases weekdayIndex env v <;> rfl
  · simp only [scanCase]
    cases weekdayIndex env v <;> rfl
  · simp only [scanCase]
    cases weekdayIndex env v <;> rfl
  · simp only [mixedCase]
    cases weekdayIndex env v <;> rfl
  · simp only [mixedCase]
    cases weekdayIndex env v <;> rfl

end gpstk
